import Mathlib

/-!
# Plugin representation schema (`proto/tsunami_go_proto/plugin_representation.pb.go`)

A shallow embedding of the generated Go file: the five message records, the enum,
the sixteen nil-safe getters, the package-level metadata tables and their lazy
initialisation, and the raw file descriptor with a reader for it.

Conventions of the embedding:
* a Go pointer `*T` is `Option T` (`none` is `nil`);
* a Go `string` is its byte sequence (`GoString`), the empty string being `[]`;
* a Go slice `[]T` is `Option (List T)` (`none` is the nil slice, `some []` an
  empty non-nil slice);
* `int32` and `uint32` values are `Int` and `Nat` with explicit range predicates;
* the fields `state` and `sizeCache` are runtime bookkeeping and carry no data.
-/

namespace PluginRepresentation

/-! ## Data model -/

/-- A sequence of bytes, each element meant to be below 256. -/
abbrev Bytes := List Nat

/-- A Go `string`: an immutable byte sequence. -/
abbrev GoString := Bytes

/-- A Go `[]string`; `none` is the nil slice. -/
abbrev StringSlice := Option (List GoString)

/-- The bytes of an ASCII literal, used to write Go string literals. -/
def ascii (s : String) : GoString := s.data.map Char.toNat

/-- Go `type PluginInfo_PluginType int32`. -/
abbrev PluginInfo_PluginType := Int

/-- Go constant `PluginInfo_PLUGIN_TYPE_UNSPECIFIED`. -/
def PluginInfo_PLUGIN_TYPE_UNSPECIFIED : PluginInfo_PluginType := 0

/-- Go constant `PluginInfo_PORT_SCAN`. -/
def PluginInfo_PORT_SCAN : PluginInfo_PluginType := 1

/-- Go constant `PluginInfo_SERVICE_FINGERPRINT`. -/
def PluginInfo_SERVICE_FINGERPRINT : PluginInfo_PluginType := 2

/-- Go constant `PluginInfo_VULN_DETECTION`. -/
def PluginInfo_VULN_DETECTION : PluginInfo_PluginType := 3

/-- Go `map[int32]string` literal `PluginInfo_PluginType_name`, as its entry list. -/
def PluginInfo_PluginType_name : List (Int × String) :=
  [(0, "PLUGIN_TYPE_UNSPECIFIED"),
   (1, "PORT_SCAN"),
   (2, "SERVICE_FINGERPRINT"),
   (3, "VULN_DETECTION")]

/-- Go `map[string]int32` literal `PluginInfo_PluginType_value`, as its entry list. -/
def PluginInfo_PluginType_value : List (String × Int) :=
  [("PLUGIN_TYPE_UNSPECIFIED", 0),
   ("PORT_SCAN", 1),
   ("SERVICE_FINGERPRINT", 2),
   ("VULN_DETECTION", 3)]

/-- Go `struct PluginInfo`. -/
structure PluginInfo where
  Type_ : PluginInfo_PluginType
  Name : GoString
  Version : GoString
  Description : GoString
  Author : GoString
  unknownFields : Bytes
  deriving DecidableEq, Repr

/-- Go `struct TargetServiceName`. -/
structure TargetServiceName where
  Value : StringSlice
  unknownFields : Bytes
  deriving DecidableEq, Repr

/-- Go `struct TargetSoftware`. -/
structure TargetSoftware where
  Name : GoString
  Value : StringSlice
  unknownFields : Bytes
  deriving DecidableEq, Repr

/-- Go `struct TargetOperatingSystemClass`. -/
structure TargetOperatingSystemClass where
  Vendor : StringSlice
  OsFamily : StringSlice
  MinAccuracy : Nat
  unknownFields : Bytes
  deriving DecidableEq, Repr

/-- Go `struct PluginDefinition`. -/
structure PluginDefinition where
  Info : Option PluginInfo
  TargetServiceName : Option TargetServiceName
  TargetSoftware : Option TargetSoftware
  ForWebService : Bool
  TargetOperatingSystemClass : Option TargetOperatingSystemClass
  unknownFields : Bytes
  deriving DecidableEq, Repr

/-! ## Getters -/

/-- Go `func (x *PluginDefinition) GetInfo() *PluginInfo`. -/
def PluginDefinition.GetInfo (x : Option PluginDefinition) : Option PluginInfo :=
  match x with
  | some v => v.Info
  | none => none

/-- Go `func (x *PluginDefinition) GetTargetServiceName() *TargetServiceName`. -/
def PluginDefinition.GetTargetServiceName (x : Option PluginDefinition) :
    Option PluginRepresentation.TargetServiceName :=
  match x with
  | some v => v.TargetServiceName
  | none => none

/-- Go `func (x *PluginDefinition) GetTargetSoftware() *TargetSoftware`. -/
def PluginDefinition.GetTargetSoftware (x : Option PluginDefinition) :
    Option PluginRepresentation.TargetSoftware :=
  match x with
  | some v => v.TargetSoftware
  | none => none

/-- Go `func (x *PluginDefinition) GetForWebService() bool`. -/
def PluginDefinition.GetForWebService (x : Option PluginDefinition) : Bool :=
  match x with
  | some v => v.ForWebService
  | none => false

/-- Go `func (x *PluginDefinition) GetTargetOperatingSystemClass()`. -/
def PluginDefinition.GetTargetOperatingSystemClass (x : Option PluginDefinition) :
    Option PluginRepresentation.TargetOperatingSystemClass :=
  match x with
  | some v => v.TargetOperatingSystemClass
  | none => none

/-- Go `func (x *PluginInfo) GetType() PluginInfo_PluginType`. -/
def PluginInfo.GetType (x : Option PluginInfo) : PluginInfo_PluginType :=
  match x with
  | some v => v.Type_
  | none => PluginInfo_PLUGIN_TYPE_UNSPECIFIED

/-- Go `func (x *PluginInfo) GetName() string`. -/
def PluginInfo.GetName (x : Option PluginInfo) : GoString :=
  match x with
  | some v => v.Name
  | none => []

/-- Go `func (x *PluginInfo) GetVersion() string`. -/
def PluginInfo.GetVersion (x : Option PluginInfo) : GoString :=
  match x with
  | some v => v.Version
  | none => []

/-- Go `func (x *PluginInfo) GetDescription() string`. -/
def PluginInfo.GetDescription (x : Option PluginInfo) : GoString :=
  match x with
  | some v => v.Description
  | none => []

/-- Go `func (x *PluginInfo) GetAuthor() string`. -/
def PluginInfo.GetAuthor (x : Option PluginInfo) : GoString :=
  match x with
  | some v => v.Author
  | none => []

/-- Go `func (x *TargetServiceName) GetValue() []string`. -/
def TargetServiceName.GetValue (x : Option TargetServiceName) : StringSlice :=
  match x with
  | some v => v.Value
  | none => none

/-- Go `func (x *TargetSoftware) GetName() string`. -/
def TargetSoftware.GetName (x : Option TargetSoftware) : GoString :=
  match x with
  | some v => v.Name
  | none => []

/-- Go `func (x *TargetSoftware) GetValue() []string`. -/
def TargetSoftware.GetValue (x : Option TargetSoftware) : StringSlice :=
  match x with
  | some v => v.Value
  | none => none

/-- Go `func (x *TargetOperatingSystemClass) GetVendor() []string`. -/
def TargetOperatingSystemClass.GetVendor (x : Option TargetOperatingSystemClass) :
    StringSlice :=
  match x with
  | some v => v.Vendor
  | none => none

/-- Go `func (x *TargetOperatingSystemClass) GetOsFamily() []string`. -/
def TargetOperatingSystemClass.GetOsFamily (x : Option TargetOperatingSystemClass) :
    StringSlice :=
  match x with
  | some v => v.OsFamily
  | none => none

/-- Go `func (x *TargetOperatingSystemClass) GetMinAccuracy() uint32`. -/
def TargetOperatingSystemClass.GetMinAccuracy (x : Option TargetOperatingSystemClass) :
    Nat :=
  match x with
  | some v => v.MinAccuracy
  | none => 0

/-! ## Wire format primitives

The readers and writers below follow the protobuf binary wire format as the
runtime package `protowire` implements it; that package is a dependency of the
generated file, so its functions are written out here under the names they have there. -/

/-- Modelled from the spec: the wire reader is part of the serialization runtime, which
the repository imports but does not contain. Loop of `protowire.ConsumeVarint`: a
little-endian base-128 number of at most `fuel` bytes, the tenth byte being at most 1;
the result is the value and the number of bytes read. -/
def consumeVarintAux : Nat → Bytes → Option (Nat × Nat)
  | 0, _ => none
  | _ + 1, [] => none
  | fuel + 1, x :: xs =>
    if x < 128 then
      (if fuel = 0 ∧ 2 ≤ x then none else some (x, 1))
    else
      match consumeVarintAux fuel xs with
      | some (v, n) => some (x % 128 + 128 * v, n + 1)
      | none => none

/-- Modelled from the spec: `protowire.ConsumeVarint` of the serialization runtime, which
the repository does not contain: a varint of at most ten bytes, a `uint64`. -/
def consumeVarint (b : Bytes) : Option (Nat × Nat) := consumeVarintAux 10 b

/-- Modelled from the spec: loop of `protowire.AppendVarint` of the serialization
runtime, which the repository does not contain. -/
def appendVarintAux : Nat → Nat → Bytes
  | 0, v => [v % 128]
  | fuel + 1, v => if v < 128 then [v] else (v % 128 + 128) :: appendVarintAux fuel (v / 128)

/-- Modelled from the spec: `protowire.AppendVarint` of the serialization runtime, which
the repository does not contain; `v` is a `uint64`. -/
def appendVarint (v : Nat) : Bytes := appendVarintAux 9 v

/-- Modelled from the spec: `protowire.ConsumeBytes` of the serialization runtime, which
the repository does not contain: a varint length `m`, then `m` bytes; the result is the
payload and the number of bytes read. -/
def consumeBytes (b : Bytes) : Option (Bytes × Nat) :=
  match consumeVarint b with
  | none => none
  | some (m, n) =>
    if (b.drop n).length < m then none else some ((b.drop n).take m, n + m)

/-- Modelled from the spec: `protowire.AppendBytes` / `AppendString` of the serialization
runtime, which the repository does not contain. -/
def appendBytes (v : Bytes) : Bytes := appendVarint v.length ++ v

/-- Modelled from the spec: `protowire.AppendTag` of the serialization runtime, which the
repository does not contain: the varint of `num << 3 | typ`. -/
def appendTag (num typ : Nat) : Bytes := appendVarint (num * 8 + typ % 8)

/-- Modelled from the spec: `protowire.ConsumeTag` of the serialization runtime, which the
repository does not contain: field number (at least 1, at most `MaxInt32`), wire type and
the number of bytes read. -/
def consumeTag (b : Bytes) : Option (Nat × Nat × Nat) :=
  match consumeVarint b with
  | none => none
  | some (v, n) =>
    if 2147483647 < v / 8 then none
    else if v / 8 < 1 then none
    else some (v / 8, v % 8, n)

/-- Modelled from the spec: the scalar cases of `protowire.ConsumeFieldValue` of the
serialization runtime, which the repository does not contain: the number of bytes a value
of wire type varint (0), fixed64 (1), bytes (2) or fixed32 (5) takes. -/
def consumeScalarValue (typ : Nat) (b : Bytes) : Option Nat :=
  if typ = 0 then (consumeVarint b).map Prod.snd
  else if typ = 1 then (if b.length < 8 then none else some 8)
  else if typ = 2 then (consumeBytes b).map Prod.snd
  else if typ = 5 then (if b.length < 4 then none else some 4)
  else none

/-- Modelled from the spec: the group loop of `protowire.ConsumeFieldValue` of the
serialization runtime, which the repository does not contain: the number of bytes up to
and including the end-group tag of field `num`. `depth` is the number of further nesting
levels allowed, `fuel` bounds the number of tags read. -/
def consumeGroup : Nat → Nat → Nat → Bytes → Option Nat
  | 0, _, _, _ => none
  | fuel + 1, depth, num, b =>
    match consumeTag b with
    | none => none
    | some (num2, typ2, n) =>
      if typ2 = 4 then (if num = num2 then some n else none)
      else
        let inner : Option Nat :=
          if typ2 = 3 then
            (match depth with
             | 0 => none
             | d + 1 => consumeGroup fuel d num2 (b.drop n))
          else consumeScalarValue typ2 (b.drop n)
        match inner with
        | none => none
        | some m =>
          match consumeGroup fuel depth num ((b.drop n).drop m) with
          | none => none
          | some k => some (n + m + k)

/-- Modelled from the spec: `protowire.ConsumeFieldValue` of the serialization runtime,
which the repository does not contain: the number of bytes the value of a field of
number `num` and wire type `typ` takes at the head of `b`. The recursion limit of the
runtime is 10000 nested groups. -/
def consumeFieldValue (num typ : Nat) (b : Bytes) : Option Nat :=
  if typ = 3 then consumeGroup (b.length + 1) 10000 num b
  else consumeScalarValue typ b

/-! ## The raw file descriptor -/

/-- Go `var file_plugin_representation_proto_rawDesc`, byte for byte. -/
def file_plugin_representation_proto_rawDesc : Bytes :=
  [
   0x0a, 0x1b, 0x70, 0x6c, 0x75, 0x67, 0x69, 0x6e, 0x5f, 0x72, 0x65, 0x70, 0x72, 0x65, 0x73, 0x65,
   0x6e, 0x74, 0x61, 0x74, 0x69, 0x6f, 0x6e, 0x2e, 0x70, 0x72, 0x6f, 0x74, 0x6f, 0x12, 0x0d, 0x74,
   0x73, 0x75, 0x6e, 0x61, 0x6d, 0x69, 0x2e, 0x70, 0x72, 0x6f, 0x74, 0x6f, 0x22, 0xf1, 0x02, 0x0a,
   0x10, 0x50, 0x6c, 0x75, 0x67, 0x69, 0x6e, 0x44, 0x65, 0x66, 0x69, 0x6e, 0x69, 0x74, 0x69, 0x6f,
   0x6e, 0x12, 0x2d, 0x0a, 0x04, 0x69, 0x6e, 0x66, 0x6f, 0x18, 0x01, 0x20, 0x01, 0x28, 0x0b, 0x32,
   0x19, 0x2e, 0x74, 0x73, 0x75, 0x6e, 0x61, 0x6d, 0x69, 0x2e, 0x70, 0x72, 0x6f, 0x74, 0x6f, 0x2e,
   0x50, 0x6c, 0x75, 0x67, 0x69, 0x6e, 0x49, 0x6e, 0x66, 0x6f, 0x52, 0x04, 0x69, 0x6e, 0x66, 0x6f,
   0x12, 0x50, 0x0a, 0x13, 0x74, 0x61, 0x72, 0x67, 0x65, 0x74, 0x5f, 0x73, 0x65, 0x72, 0x76, 0x69,
   0x63, 0x65, 0x5f, 0x6e, 0x61, 0x6d, 0x65, 0x18, 0x02, 0x20, 0x01, 0x28, 0x0b, 0x32, 0x20, 0x2e,
   0x74, 0x73, 0x75, 0x6e, 0x61, 0x6d, 0x69, 0x2e, 0x70, 0x72, 0x6f, 0x74, 0x6f, 0x2e, 0x54, 0x61,
   0x72, 0x67, 0x65, 0x74, 0x53, 0x65, 0x72, 0x76, 0x69, 0x63, 0x65, 0x4e, 0x61, 0x6d, 0x65, 0x52,
   0x11, 0x74, 0x61, 0x72, 0x67, 0x65, 0x74, 0x53, 0x65, 0x72, 0x76, 0x69, 0x63, 0x65, 0x4e, 0x61,
   0x6d, 0x65, 0x12, 0x46, 0x0a, 0x0f, 0x74, 0x61, 0x72, 0x67, 0x65, 0x74, 0x5f, 0x73, 0x6f, 0x66,
   0x74, 0x77, 0x61, 0x72, 0x65, 0x18, 0x03, 0x20, 0x01, 0x28, 0x0b, 0x32, 0x1d, 0x2e, 0x74, 0x73,
   0x75, 0x6e, 0x61, 0x6d, 0x69, 0x2e, 0x70, 0x72, 0x6f, 0x74, 0x6f, 0x2e, 0x54, 0x61, 0x72, 0x67,
   0x65, 0x74, 0x53, 0x6f, 0x66, 0x74, 0x77, 0x61, 0x72, 0x65, 0x52, 0x0e, 0x74, 0x61, 0x72, 0x67,
   0x65, 0x74, 0x53, 0x6f, 0x66, 0x74, 0x77, 0x61, 0x72, 0x65, 0x12, 0x26, 0x0a, 0x0f, 0x66, 0x6f,
   0x72, 0x5f, 0x77, 0x65, 0x62, 0x5f, 0x73, 0x65, 0x72, 0x76, 0x69, 0x63, 0x65, 0x18, 0x04, 0x20,
   0x01, 0x28, 0x08, 0x52, 0x0d, 0x66, 0x6f, 0x72, 0x57, 0x65, 0x62, 0x53, 0x65, 0x72, 0x76, 0x69,
   0x63, 0x65, 0x12, 0x6c, 0x0a, 0x1d, 0x74, 0x61, 0x72, 0x67, 0x65, 0x74, 0x5f, 0x6f, 0x70, 0x65,
   0x72, 0x61, 0x74, 0x69, 0x6e, 0x67, 0x5f, 0x73, 0x79, 0x73, 0x74, 0x65, 0x6d, 0x5f, 0x63, 0x6c,
   0x61, 0x73, 0x73, 0x18, 0x05, 0x20, 0x01, 0x28, 0x0b, 0x32, 0x29, 0x2e, 0x74, 0x73, 0x75, 0x6e,
   0x61, 0x6d, 0x69, 0x2e, 0x70, 0x72, 0x6f, 0x74, 0x6f, 0x2e, 0x54, 0x61, 0x72, 0x67, 0x65, 0x74,
   0x4f, 0x70, 0x65, 0x72, 0x61, 0x74, 0x69, 0x6e, 0x67, 0x53, 0x79, 0x73, 0x74, 0x65, 0x6d, 0x43,
   0x6c, 0x61, 0x73, 0x73, 0x52, 0x1a, 0x74, 0x61, 0x72, 0x67, 0x65, 0x74, 0x4f, 0x70, 0x65, 0x72,
   0x61, 0x74, 0x69, 0x6e, 0x67, 0x53, 0x79, 0x73, 0x74, 0x65, 0x6d, 0x43, 0x6c, 0x61, 0x73, 0x73,
   0x22, 0x95, 0x02, 0x0a, 0x0a, 0x50, 0x6c, 0x75, 0x67, 0x69, 0x6e, 0x49, 0x6e, 0x66, 0x6f, 0x12,
   0x38, 0x0a, 0x04, 0x74, 0x79, 0x70, 0x65, 0x18, 0x01, 0x20, 0x01, 0x28, 0x0e, 0x32, 0x24, 0x2e,
   0x74, 0x73, 0x75, 0x6e, 0x61, 0x6d, 0x69, 0x2e, 0x70, 0x72, 0x6f, 0x74, 0x6f, 0x2e, 0x50, 0x6c,
   0x75, 0x67, 0x69, 0x6e, 0x49, 0x6e, 0x66, 0x6f, 0x2e, 0x50, 0x6c, 0x75, 0x67, 0x69, 0x6e, 0x54,
   0x79, 0x70, 0x65, 0x52, 0x04, 0x74, 0x79, 0x70, 0x65, 0x12, 0x12, 0x0a, 0x04, 0x6e, 0x61, 0x6d,
   0x65, 0x18, 0x02, 0x20, 0x01, 0x28, 0x09, 0x52, 0x04, 0x6e, 0x61, 0x6d, 0x65, 0x12, 0x18, 0x0a,
   0x07, 0x76, 0x65, 0x72, 0x73, 0x69, 0x6f, 0x6e, 0x18, 0x03, 0x20, 0x01, 0x28, 0x09, 0x52, 0x07,
   0x76, 0x65, 0x72, 0x73, 0x69, 0x6f, 0x6e, 0x12, 0x20, 0x0a, 0x0b, 0x64, 0x65, 0x73, 0x63, 0x72,
   0x69, 0x70, 0x74, 0x69, 0x6f, 0x6e, 0x18, 0x04, 0x20, 0x01, 0x28, 0x09, 0x52, 0x0b, 0x64, 0x65,
   0x73, 0x63, 0x72, 0x69, 0x70, 0x74, 0x69, 0x6f, 0x6e, 0x12, 0x16, 0x0a, 0x06, 0x61, 0x75, 0x74,
   0x68, 0x6f, 0x72, 0x18, 0x05, 0x20, 0x01, 0x28, 0x09, 0x52, 0x06, 0x61, 0x75, 0x74, 0x68, 0x6f,
   0x72, 0x22, 0x65, 0x0a, 0x0a, 0x50, 0x6c, 0x75, 0x67, 0x69, 0x6e, 0x54, 0x79, 0x70, 0x65, 0x12,
   0x1b, 0x0a, 0x17, 0x50, 0x4c, 0x55, 0x47, 0x49, 0x4e, 0x5f, 0x54, 0x59, 0x50, 0x45, 0x5f, 0x55,
   0x4e, 0x53, 0x50, 0x45, 0x43, 0x49, 0x46, 0x49, 0x45, 0x44, 0x10, 0x00, 0x12, 0x0d, 0x0a, 0x09,
   0x50, 0x4f, 0x52, 0x54, 0x5f, 0x53, 0x43, 0x41, 0x4e, 0x10, 0x01, 0x12, 0x17, 0x0a, 0x13, 0x53,
   0x45, 0x52, 0x56, 0x49, 0x43, 0x45, 0x5f, 0x46, 0x49, 0x4e, 0x47, 0x45, 0x52, 0x50, 0x52, 0x49,
   0x4e, 0x54, 0x10, 0x02, 0x12, 0x12, 0x0a, 0x0e, 0x56, 0x55, 0x4c, 0x4e, 0x5f, 0x44, 0x45, 0x54,
   0x45, 0x43, 0x54, 0x49, 0x4f, 0x4e, 0x10, 0x03, 0x22, 0x29, 0x0a, 0x11, 0x54, 0x61, 0x72, 0x67,
   0x65, 0x74, 0x53, 0x65, 0x72, 0x76, 0x69, 0x63, 0x65, 0x4e, 0x61, 0x6d, 0x65, 0x12, 0x14, 0x0a,
   0x05, 0x76, 0x61, 0x6c, 0x75, 0x65, 0x18, 0x01, 0x20, 0x03, 0x28, 0x09, 0x52, 0x05, 0x76, 0x61,
   0x6c, 0x75, 0x65, 0x22, 0x3a, 0x0a, 0x0e, 0x54, 0x61, 0x72, 0x67, 0x65, 0x74, 0x53, 0x6f, 0x66,
   0x74, 0x77, 0x61, 0x72, 0x65, 0x12, 0x12, 0x0a, 0x04, 0x6e, 0x61, 0x6d, 0x65, 0x18, 0x01, 0x20,
   0x01, 0x28, 0x09, 0x52, 0x04, 0x6e, 0x61, 0x6d, 0x65, 0x12, 0x14, 0x0a, 0x05, 0x76, 0x61, 0x6c,
   0x75, 0x65, 0x18, 0x02, 0x20, 0x03, 0x28, 0x09, 0x52, 0x05, 0x76, 0x61, 0x6c, 0x75, 0x65, 0x22,
   0x74, 0x0a, 0x1a, 0x54, 0x61, 0x72, 0x67, 0x65, 0x74, 0x4f, 0x70, 0x65, 0x72, 0x61, 0x74, 0x69,
   0x6e, 0x67, 0x53, 0x79, 0x73, 0x74, 0x65, 0x6d, 0x43, 0x6c, 0x61, 0x73, 0x73, 0x12, 0x16, 0x0a,
   0x06, 0x76, 0x65, 0x6e, 0x64, 0x6f, 0x72, 0x18, 0x01, 0x20, 0x03, 0x28, 0x09, 0x52, 0x06, 0x76,
   0x65, 0x6e, 0x64, 0x6f, 0x72, 0x12, 0x1b, 0x0a, 0x09, 0x6f, 0x73, 0x5f, 0x66, 0x61, 0x6d, 0x69,
   0x6c, 0x79, 0x18, 0x02, 0x20, 0x03, 0x28, 0x09, 0x52, 0x08, 0x6f, 0x73, 0x46, 0x61, 0x6d, 0x69,
   0x6c, 0x79, 0x12, 0x21, 0x0a, 0x0c, 0x6d, 0x69, 0x6e, 0x5f, 0x61, 0x63, 0x63, 0x75, 0x72, 0x61,
   0x63, 0x79, 0x18, 0x03, 0x20, 0x01, 0x28, 0x0d, 0x52, 0x0b, 0x6d, 0x69, 0x6e, 0x41, 0x63, 0x63,
   0x75, 0x72, 0x61, 0x63, 0x79, 0x42, 0x7b, 0x0a, 0x18, 0x63, 0x6f, 0x6d, 0x2e, 0x67, 0x6f, 0x6f,
   0x67, 0x6c, 0x65, 0x2e, 0x74, 0x73, 0x75, 0x6e, 0x61, 0x6d, 0x69, 0x2e, 0x70, 0x72, 0x6f, 0x74,
   0x6f, 0x42, 0x1a, 0x50, 0x6c, 0x75, 0x67, 0x69, 0x6e, 0x52, 0x65, 0x70, 0x72, 0x65, 0x73, 0x65,
   0x6e, 0x74, 0x61, 0x74, 0x69, 0x6f, 0x6e, 0x50, 0x72, 0x6f, 0x74, 0x6f, 0x73, 0x50, 0x01, 0x5a,
   0x41, 0x67, 0x69, 0x74, 0x68, 0x75, 0x62, 0x2e, 0x63, 0x6f, 0x6d, 0x2f, 0x67, 0x6f, 0x6f, 0x67,
   0x6c, 0x65, 0x2f, 0x74, 0x73, 0x75, 0x6e, 0x61, 0x6d, 0x69, 0x2d, 0x73, 0x65, 0x63, 0x75, 0x72,
   0x69, 0x74, 0x79, 0x2d, 0x73, 0x63, 0x61, 0x6e, 0x6e, 0x65, 0x72, 0x2f, 0x70, 0x72, 0x6f, 0x74,
   0x6f, 0x2f, 0x74, 0x73, 0x75, 0x6e, 0x61, 0x6d, 0x69, 0x5f, 0x67, 0x6f, 0x5f, 0x70, 0x72, 0x6f,
   0x74, 0x6f, 0x62, 0x06, 0x70, 0x72, 0x6f, 0x74, 0x6f, 0x33
  ]


/-! ## Reading the descriptor

Field numbers are those of `google/protobuf/descriptor.proto`. -/

/-- One field of a serialized message: number, wire type, the value of a varint field
and the payload of a length-delimited one (for other wire types the raw value bytes). -/
structure WireField where
  num : Nat
  typ : Nat
  value : Nat
  payload : Bytes
  deriving DecidableEq, Repr

/-- The fields of a serialized message in wire order; `none` when the bytes are malformed.
`fuel` bounds the number of fields. -/
def wireFields : Nat → Bytes → Option (List WireField)
  | _, [] => some []
  | 0, _ :: _ => none
  | fuel + 1, x :: xs =>
    match consumeTag (x :: xs) with
    | none => none
    | some (num, typ, n) =>
      if typ = 0 then
        match consumeVarint ((x :: xs).drop n) with
        | none => none
        | some (v, m) =>
          (wireFields fuel (((x :: xs).drop n).drop m)).map
            (fun l => { num := num, typ := typ, value := v, payload := [] } :: l)
      else if typ = 2 then
        match consumeBytes ((x :: xs).drop n) with
        | none => none
        | some (v, m) =>
          (wireFields fuel (((x :: xs).drop n).drop m)).map
            (fun l => { num := num, typ := typ, value := 0, payload := v } :: l)
      else
        match consumeFieldValue num typ ((x :: xs).drop n) with
        | none => none
        | some m =>
          (wireFields fuel (((x :: xs).drop n).drop m)).map
            (fun l =>
              { num := num, typ := typ, value := 0, payload := ((x :: xs).drop n).take m } :: l)

/-- The payloads of the length-delimited fields numbered `num`, in wire order. -/
def payloadsOf (num : Nat) (fs : List WireField) : List Bytes :=
  (fs.filter (fun f => f.num = num ∧ f.typ = 2)).map (fun f => f.payload)

/-- The last varint value of field `num`, 0 when it does not occur. -/
def varintOf (num : Nat) (fs : List WireField) : Nat :=
  ((fs.filter (fun f => f.num = num ∧ f.typ = 0)).map (fun f => f.value)).getLastD 0

/-- The text of a byte sequence, byte by byte. -/
def textOf (b : Bytes) : String := String.mk (b.map Char.ofNat)

/-- The last string value of field `num`, empty when it does not occur. -/
def stringOf (num : Nat) (fs : List WireField) : String :=
  textOf ((payloadsOf num fs).getLastD [])

/-- A list of results, if all are present. -/
def allSome {α : Type} : List (Option α) → Option (List α)
  | [] => some []
  | none :: _ => none
  | some a :: rest =>
    match allSome rest with
    | none => none
    | some l => some (a :: l)

/-- Go conversion `int32(v)` of a `uint64`: the low 32 bits, two's complement. -/
def toInt32 (v : Nat) : Int :=
  if v % 4294967296 < 2147483648 then (v % 4294967296 : Nat)
  else ((v % 4294967296 : Nat) : Int) - 4294967296

/-- Message `FieldDescriptorProto` of `descriptor.proto`: name 1, number 3, label 4,
type 5, type_name 6, json_name 10. -/
structure FieldDescriptorProto where
  name : String
  number : Nat
  label : Nat
  type : Nat
  typeName : String
  jsonName : String
  deriving DecidableEq, Repr

/-- Message `EnumValueDescriptorProto` of `descriptor.proto`: name 1, number 2. -/
structure EnumValueDescriptorProto where
  name : String
  number : Int
  deriving DecidableEq, Repr

/-- Message `EnumDescriptorProto` of `descriptor.proto`: name 1, value 2. -/
structure EnumDescriptorProto where
  name : String
  value : List EnumValueDescriptorProto
  deriving DecidableEq, Repr

/-- Message `DescriptorProto` of `descriptor.proto`: name 1, field 2, nested_type 3 (kept
serialized), enum_type 4, extension 6. -/
structure DescriptorProto where
  name : String
  field : List FieldDescriptorProto
  nestedType : List Bytes
  enumType : List EnumDescriptorProto
  extension : List FieldDescriptorProto
  deriving DecidableEq, Repr

/-- Message `FileDescriptorProto` of `descriptor.proto`: name 1, package 2, message_type 4,
enum_type 5, service 6 (kept serialized), extension 7, syntax 12. -/
structure FileDescriptorProto where
  name : String
  package : String
  messageType : List DescriptorProto
  enumType : List EnumDescriptorProto
  service : List Bytes
  extension : List FieldDescriptorProto
  syntax_ : String
  deriving DecidableEq, Repr

/-- Reads a serialized `FieldDescriptorProto`. -/
def readFieldDescriptor (b : Bytes) : Option FieldDescriptorProto :=
  (wireFields b.length b).map (fun fs =>
    { name := stringOf 1 fs, number := varintOf 3 fs, label := varintOf 4 fs,
      type := varintOf 5 fs, typeName := stringOf 6 fs, jsonName := stringOf 10 fs })

/-- Reads a serialized `EnumValueDescriptorProto`. -/
def readEnumValueDescriptor (b : Bytes) : Option EnumValueDescriptorProto :=
  (wireFields b.length b).map (fun fs =>
    { name := stringOf 1 fs, number := toInt32 (varintOf 2 fs) })

/-- Reads a serialized `EnumDescriptorProto`. -/
def readEnumDescriptor (b : Bytes) : Option EnumDescriptorProto :=
  match wireFields b.length b with
  | none => none
  | some fs =>
    (allSome ((payloadsOf 2 fs).map readEnumValueDescriptor)).map (fun vs =>
      { name := stringOf 1 fs, value := vs })

/-- Reads a serialized `DescriptorProto`, leaving nested messages serialized. -/
def readDescriptor (b : Bytes) : Option DescriptorProto :=
  match wireFields b.length b with
  | none => none
  | some fs =>
    match allSome ((payloadsOf 2 fs).map readFieldDescriptor),
          allSome ((payloadsOf 4 fs).map readEnumDescriptor),
          allSome ((payloadsOf 6 fs).map readFieldDescriptor) with
    | some fields, some enums, some exts =>
      some { name := stringOf 1 fs, field := fields, nestedType := payloadsOf 3 fs,
             enumType := enums, extension := exts }
    | _, _, _ => none

/-- Reads a serialized `FileDescriptorProto`. -/
def readFileDescriptor (b : Bytes) : Option FileDescriptorProto :=
  match wireFields b.length b with
  | none => none
  | some fs =>
    match allSome ((payloadsOf 4 fs).map readDescriptor),
          allSome ((payloadsOf 5 fs).map readEnumDescriptor),
          allSome ((payloadsOf 7 fs).map readFieldDescriptor) with
    | some msgs, some enums, some exts =>
      some { name := stringOf 1 fs, package := stringOf 2 fs, messageType := msgs,
             enumType := enums, service := payloadsOf 6 fs, extension := exts,
             syntax_ := stringOf 12 fs }
    | _, _, _ => none


/-! ## Field tables: from the descriptor and from the struct tags -/

/-- The type column of the schema's field table. Message and enum names are relative to
the package `tsunami.proto`. -/
inductive FieldType where
  | message (name : String)
  | enum (name : String)
  | string
  | bool
  | uint32
  | other (descriptorType : Nat)
  deriving DecidableEq, Repr

/-- One row of the schema's field table. -/
structure FieldRow where
  name : String
  number : Nat
  repeated : Bool
  type : FieldType
  deriving DecidableEq, Repr

/-- Removes the prefix `p` from `s`, if `s` starts with it. -/
def dropPrefix : List Char → List Char → Option (List Char)
  | [], s => some s
  | _ :: _, [] => none
  | c :: p, d :: s => if c = d then dropPrefix p s else none

/-- The name `full` relative to the package `pkg`: `.pkg.Name` becomes `Name`. -/
def relativeName (pkg full : String) : String :=
  match dropPrefix ('.' :: (pkg.data ++ ['.'])) full.data with
  | some r => String.mk r
  | none => full

/-- The table row a descriptor field stands for: label 3 is `repeated`; type 8 is bool,
9 string, 11 message, 13 uint32, 14 enum. -/
def rowOfDescriptorField (pkg : String) (f : FieldDescriptorProto) : FieldRow :=
  { name := f.name, number := f.number, repeated := decide (f.label = 3),
    type :=
      if f.type = 11 then FieldType.message (relativeName pkg f.typeName)
      else if f.type = 14 then FieldType.enum (relativeName pkg f.typeName)
      else if f.type = 9 then FieldType.string
      else if f.type = 8 then FieldType.bool
      else if f.type = 13 then FieldType.uint32
      else FieldType.other f.type }

/-- The field table the raw descriptor declares: per top-level message, in declaration
order, its name and rows. -/
def descriptorFieldTable (raw : Bytes) : Option (List (String × List FieldRow)) :=
  (readFileDescriptor raw).map (fun fd =>
    fd.messageType.map (fun m => (m.name, m.field.map (rowOfDescriptorField fd.package))))

/-- The Go types that occur as field types and in the type table of the file. -/
inductive GoType where
  | bool
  | uint32
  | string
  | int32Named (name : String)
  | pointer (name : String)
  | slice (elem : GoType)
  deriving DecidableEq, Repr

/-- A field of a generated struct: its Go name, Go type and the text of its
`protobuf:"..."` struct tag. -/
structure GoField where
  goName : String
  goType : GoType
  protobufTag : String
  deriving DecidableEq, Repr

/-- The tagged fields of `struct PluginDefinition`. -/
def PluginDefinition_fields : List GoField :=
  [ { goName := "Info", goType := GoType.pointer "PluginInfo",
      protobufTag := "bytes,1,opt,name=info,proto3" },
    { goName := "TargetServiceName", goType := GoType.pointer "TargetServiceName",
      protobufTag := "bytes,2,opt,name=target_service_name,json=targetServiceName,proto3" },
    { goName := "TargetSoftware", goType := GoType.pointer "TargetSoftware",
      protobufTag := "bytes,3,opt,name=target_software,json=targetSoftware,proto3" },
    { goName := "ForWebService", goType := GoType.bool,
      protobufTag := "varint,4,opt,name=for_web_service,json=forWebService,proto3" },
    { goName := "TargetOperatingSystemClass",
      goType := GoType.pointer "TargetOperatingSystemClass",
      protobufTag :=
        "bytes,5,opt,name=target_operating_system_class,json=targetOperatingSystemClass,proto3" } ]

/-- The tagged fields of `struct PluginInfo`. -/
def PluginInfo_fields : List GoField :=
  [ { goName := "Type", goType := GoType.int32Named "PluginInfo_PluginType",
      protobufTag := "varint,1,opt,name=type,proto3,enum=tsunami.proto.PluginInfo_PluginType" },
    { goName := "Name", goType := GoType.string,
      protobufTag := "bytes,2,opt,name=name,proto3" },
    { goName := "Version", goType := GoType.string,
      protobufTag := "bytes,3,opt,name=version,proto3" },
    { goName := "Description", goType := GoType.string,
      protobufTag := "bytes,4,opt,name=description,proto3" },
    { goName := "Author", goType := GoType.string,
      protobufTag := "bytes,5,opt,name=author,proto3" } ]

/-- The tagged fields of `struct TargetServiceName`. -/
def TargetServiceName_fields : List GoField :=
  [ { goName := "Value", goType := GoType.slice GoType.string,
      protobufTag := "bytes,1,rep,name=value,proto3" } ]

/-- The tagged fields of `struct TargetSoftware`. -/
def TargetSoftware_fields : List GoField :=
  [ { goName := "Name", goType := GoType.string,
      protobufTag := "bytes,1,opt,name=name,proto3" },
    { goName := "Value", goType := GoType.slice GoType.string,
      protobufTag := "bytes,2,rep,name=value,proto3" } ]

/-- The tagged fields of `struct TargetOperatingSystemClass`. -/
def TargetOperatingSystemClass_fields : List GoField :=
  [ { goName := "Vendor", goType := GoType.slice GoType.string,
      protobufTag := "bytes,1,rep,name=vendor,proto3" },
    { goName := "OsFamily", goType := GoType.slice GoType.string,
      protobufTag := "bytes,2,rep,name=os_family,json=osFamily,proto3" },
    { goName := "MinAccuracy", goType := GoType.uint32,
      protobufTag := "varint,3,opt,name=min_accuracy,json=minAccuracy,proto3" } ]

/-- The five generated structs, in the order of the file. -/
def goStructs : List (String × List GoField) :=
  [ ("PluginDefinition", PluginDefinition_fields),
    ("PluginInfo", PluginInfo_fields),
    ("TargetServiceName", TargetServiceName_fields),
    ("TargetSoftware", TargetSoftware_fields),
    ("TargetOperatingSystemClass", TargetOperatingSystemClass_fields) ]

/-- Splits a text at every comma. -/
def splitComma : List Char → List (List Char)
  | [] => [[]]
  | c :: cs =>
    match splitComma cs with
    | [] => [[c]]
    | h :: t => if c = ',' then [] :: h :: t else (c :: h) :: t

/-- The number a text of decimal digits writes; `none` for an empty text or one with
another character. -/
def decimal (s : List Char) : Option Nat :=
  if s = [] then none
  else s.foldl (fun acc c =>
    match acc with
    | none => none
    | some n => if '0' ≤ c ∧ c ≤ '9' then some (10 * n + (c.toNat - 48)) else none) (some 0)

/-- What the items of a struct tag say: name, number, label (opt 1, req 2, rep 3), wire
form (`varint` or `bytes`) and enum name. -/
structure TagInfo where
  name : String
  number : Nat
  label : Nat
  wire : String
  enumName : Option String
  deriving DecidableEq, Repr

/-- Reads one item of a struct tag into `t`. -/
def readTagItem (t : TagInfo) (item : List Char) : TagInfo :=
  match dropPrefix "name=".data item with
  | some r => { t with name := String.mk r }
  | none =>
    match decimal item with
    | some n => { t with number := n }
    | none =>
      if item = "opt".data then { t with label := 1 }
      else if item = "req".data then { t with label := 2 }
      else if item = "rep".data then { t with label := 3 }
      else if item = "varint".data then { t with wire := "varint" }
      else if item = "bytes".data then { t with wire := "bytes" }
      else
        match dropPrefix "enum=".data item with
        | some r => { t with enumName := some (String.mk r) }
        | none => t

/-- Reads a struct tag, item by item. -/
def readTag (tag : String) : TagInfo :=
  (splitComma tag.data).foldl readTagItem
    { name := "", number := 0, label := 0, wire := "", enumName := none }

/-- The element type of a field's Go type: the type itself, or the element of a slice. -/
def GoType.elem : GoType → GoType
  | GoType.slice e => e
  | t => t

/-- The table row a struct field stands for, `none` when tag and Go type do not fit:
`bytes` with a Go string is a string, with a pointer a message; `varint` with a Go bool
is a bool, with a uint32 a uint32, and with an `enum=` item an enum. A slice type goes
with the label `rep` and no other. -/
def rowOfGoField (pkg : String) (f : GoField) : Option FieldRow :=
  let t := readTag f.protobufTag
  let isSlice : Bool := match f.goType with
    | GoType.slice _ => true
    | _ => false
  let type : Option FieldType :=
    match t.wire, f.goType.elem, t.enumName with
    | "bytes", GoType.string, none => some FieldType.string
    | "bytes", GoType.pointer n, none => some (FieldType.message n)
    | "varint", GoType.bool, none => some FieldType.bool
    | "varint", GoType.uint32, none => some FieldType.uint32
    | "varint", GoType.int32Named _, some e =>
      some (FieldType.enum (relativeName pkg (String.mk ('.' :: e.data))))
    | _, _, _ => none
  if isSlice = decide (t.label = 3) then
    type.map (fun ty => { name := t.name, number := t.number, repeated := isSlice, type := ty })
  else none

/-- The field table the struct tags declare: per struct, in the order of the file, its
name and rows. -/
def structFieldTable (pkg : String) (structs : List (String × List GoField)) :
    Option (List (String × List FieldRow)) :=
  allSome (structs.map (fun s => (allSome (s.2.map (rowOfGoField pkg))).map (fun rows => (s.1, rows))))

/-- The field table as the specification gives it (section 6), row by row. The
specification calls the enum `PluginType`; `enumName` is the name under which a source
declares it. -/
def specFieldTable (enumName : String) : List (String × List FieldRow) :=
  [ ("PluginDefinition",
      [ { name := "info", number := 1, repeated := false, type := FieldType.message "PluginInfo" },
        { name := "target_service_name", number := 2, repeated := false,
          type := FieldType.message "TargetServiceName" },
        { name := "target_software", number := 3, repeated := false,
          type := FieldType.message "TargetSoftware" },
        { name := "for_web_service", number := 4, repeated := false, type := FieldType.bool },
        { name := "target_operating_system_class", number := 5, repeated := false,
          type := FieldType.message "TargetOperatingSystemClass" } ]),
    ("PluginInfo",
      [ { name := "type", number := 1, repeated := false,
          type := FieldType.enum enumName },
        { name := "name", number := 2, repeated := false, type := FieldType.string },
        { name := "version", number := 3, repeated := false, type := FieldType.string },
        { name := "description", number := 4, repeated := false, type := FieldType.string },
        { name := "author", number := 5, repeated := false, type := FieldType.string } ]),
    ("TargetServiceName",
      [ { name := "value", number := 1, repeated := true, type := FieldType.string } ]),
    ("TargetSoftware",
      [ { name := "name", number := 1, repeated := false, type := FieldType.string },
        { name := "value", number := 2, repeated := true, type := FieldType.string } ]),
    ("TargetOperatingSystemClass",
      [ { name := "vendor", number := 1, repeated := true, type := FieldType.string },
        { name := "os_family", number := 2, repeated := true, type := FieldType.string },
        { name := "min_accuracy", number := 3, repeated := false, type := FieldType.uint32 } ]) ]


/-! ## The enum, as declared in four places -/

/-- The four Go constants of type `PluginInfo_PluginType`, by name, in source order. -/
def PluginInfo_PluginType_constants : List (String × PluginInfo_PluginType) :=
  [ ("PluginInfo_PLUGIN_TYPE_UNSPECIFIED", PluginInfo_PLUGIN_TYPE_UNSPECIFIED),
    ("PluginInfo_PORT_SCAN", PluginInfo_PORT_SCAN),
    ("PluginInfo_SERVICE_FINGERPRINT", PluginInfo_SERVICE_FINGERPRINT),
    ("PluginInfo_VULN_DETECTION", PluginInfo_VULN_DETECTION) ]

/-- The name/number pairs of an enum descriptor, in declaration order. -/
def enumPairs (e : EnumDescriptorProto) : List (String × Int) :=
  e.value.map (fun v => (v.name, v.number))

/-- The enums the raw descriptor declares at file level and inside its top-level
messages, each with its name relative to the package and its name/number pairs. -/
def descriptorEnums (raw : Bytes) : Option (List (String × List (String × Int))) :=
  (readFileDescriptor raw).map (fun fd =>
    fd.enumType.map (fun e => (e.name, enumPairs e)) ++
    (fd.messageType.map (fun m =>
      m.enumType.map (fun e => (m.name ++ "." ++ e.name, enumPairs e)))).flatten)

/-! ## Declaration counts -/

/-- The numbers of enums, messages and extensions a serialized `DescriptorProto`
declares, itself and its nested messages included. `fuel` bounds the nesting. -/
def countDeclared : Nat → Bytes → Option (Nat × Nat × Nat)
  | 0, _ => none
  | fuel + 1, raw =>
    match readDescriptor raw with
    | none => none
    | some d =>
      (allSome (d.nestedType.map (fun n => countDeclared fuel n))).map (fun cs =>
        cs.foldl (fun acc c => (acc.1 + c.1, acc.2.1 + c.2.1, acc.2.2 + c.2.2))
          (d.enumType.length, 1, d.extension.length))

/-- The numbers of enums, messages, extensions and services a serialized
`FileDescriptorProto` declares, nested declarations included. -/
def countFile (raw : Bytes) : Option (Nat × Nat × Nat × Nat) :=
  match wireFields raw.length raw, readFileDescriptor raw with
  | some fs, some fd =>
    (allSome ((payloadsOf 4 fs).map (fun m => countDeclared (m.length + 1) m))).map (fun cs =>
      let t := cs.foldl (fun acc c => (acc.1 + c.1, acc.2.1 + c.2.1, acc.2.2 + c.2.2))
        (fd.enumType.length, 0, fd.extension.length)
      (t.1, t.2.1, t.2.2, fd.service.length))
  | _, _ => none

/-! ## Package-level metadata and its initialisation -/

/-- Go `protoimpl.DescBuilder`, the fields the file sets. -/
structure DescBuilder where
  GoPackagePath : String
  RawDescriptor : Bytes
  NumEnums : Nat
  NumMessages : Nat
  NumExtensions : Nat
  NumServices : Nat
  deriving DecidableEq, Repr

/-- Go `protoimpl.TypeBuilder`, the fields the file sets. `EI` and `MI` stand for
`protoimpl.EnumInfo` and `protoimpl.MessageInfo`. -/
structure TypeBuilder (EI MI : Type) where
  File : DescBuilder
  GoTypes : Option (List GoType)
  DependencyIndexes : Option (List Int)
  EnumInfos : List EI
  MessageInfos : List MI

/-- What `TypeBuilder.Build` hands back: the file descriptor `out.File`, and the contents
it has written into the `EnumInfos` and `MessageInfos` slices it was given (they share
their storage with the package-level tables). -/
structure BuildOut (FD EI MI : Type) where
  File : FD
  EnumInfos : List EI
  MessageInfos : List MI

/-- The package-level variables the initialisation reads and writes. `FD` stands for a
non-nil `protoreflect.FileDescriptor`. -/
structure Globals (FD EI MI : Type) where
  File_plugin_representation_proto : Option FD
  file_plugin_representation_proto_enumTypes : List EI
  file_plugin_representation_proto_msgTypes : List MI
  file_plugin_representation_proto_goTypes : Option (List GoType)
  file_plugin_representation_proto_depIdxs : Option (List Int)

/-- Go `var file_plugin_representation_proto_goTypes`, as declared. -/
def file_plugin_representation_proto_goTypes : List GoType :=
  [ GoType.int32Named "PluginInfo_PluginType",
    GoType.pointer "PluginDefinition",
    GoType.pointer "PluginInfo",
    GoType.pointer "TargetServiceName",
    GoType.pointer "TargetSoftware",
    GoType.pointer "TargetOperatingSystemClass" ]

/-- Go `var file_plugin_representation_proto_depIdxs`, as declared. -/
def file_plugin_representation_proto_depIdxs : List Int :=
  [2, 3, 4, 5, 0, 5, 5, 5, 5, 0]

/-- The package-level variables as the declarations leave them, before `init` runs:
`make([]protoimpl.EnumInfo, 1)` and `make([]protoimpl.MessageInfo, 5)` of zero values. -/
def initialGlobals (FD : Type) {EI MI : Type} (zeroEI : EI) (zeroMI : MI) : Globals FD EI MI :=
  { File_plugin_representation_proto := none,
    file_plugin_representation_proto_enumTypes := List.replicate 1 zeroEI,
    file_plugin_representation_proto_msgTypes := List.replicate 5 zeroMI,
    file_plugin_representation_proto_goTypes := some file_plugin_representation_proto_goTypes,
    file_plugin_representation_proto_depIdxs := some file_plugin_representation_proto_depIdxs }

/-- The `protoimpl.TypeBuilder` literal of `file_plugin_representation_proto_init`.
`pkgPath` is `reflect.TypeOf(x{}).PkgPath()`. -/
def typeBuilder {FD EI MI : Type} (pkgPath : String) (g : Globals FD EI MI) : TypeBuilder EI MI :=
  { File :=
      { GoPackagePath := pkgPath,
        RawDescriptor := file_plugin_representation_proto_rawDesc,
        NumEnums := 1,
        NumMessages := 5,
        NumExtensions := 0,
        NumServices := 0 },
    GoTypes := g.file_plugin_representation_proto_goTypes,
    DependencyIndexes := g.file_plugin_representation_proto_depIdxs,
    EnumInfos := g.file_plugin_representation_proto_enumTypes,
    MessageInfos := g.file_plugin_representation_proto_msgTypes }

/-- Go `func file_plugin_representation_proto_init()`, as a transformer of the
package-level variables. `build` is `protoimpl.TypeBuilder.Build` of the runtime. -/
def file_plugin_representation_proto_init {FD EI MI : Type}
    (build : TypeBuilder EI MI → BuildOut FD EI MI) (pkgPath : String)
    (g : Globals FD EI MI) : Globals FD EI MI :=
  match g.File_plugin_representation_proto with
  | some _ => g
  | none =>
    let out := build (typeBuilder pkgPath g)
    { File_plugin_representation_proto := some out.File,
      file_plugin_representation_proto_enumTypes := out.EnumInfos,
      file_plugin_representation_proto_msgTypes := out.MessageInfos,
      file_plugin_representation_proto_goTypes := none,
      file_plugin_representation_proto_depIdxs := none }


/-! ## The wire codec of the five messages

The generated file leaves encoding and decoding to the serialization runtime, driven by
the descriptor and the struct tags above. The functions below write that codec out for
this schema (proto3, no presence tracking for scalars, unpacked repeated strings). -/

/-- Modelled from the spec: the UTF-8 check the serialization runtime (not in this
repository) applies to proto3 string fields on encode and decode; Go `utf8.Valid`:
shortest-form encodings of scalar values, surrogates excluded. -/
def utf8Valid : Bytes → Bool
  | [] => true
  | a :: rest =>
    if a < 128 then utf8Valid rest
    else
      match rest with
      | [] => false
      | b :: rest2 =>
        if 194 ≤ a ∧ a ≤ 223 then decide (128 ≤ b ∧ b ≤ 191) && utf8Valid rest2
        else
          match rest2 with
          | [] => false
          | c :: rest3 =>
            if 224 ≤ a ∧ a ≤ 239 then
              decide ((if a = 224 then 160 else 128) ≤ b ∧ b ≤ (if a = 237 then 159 else 191)) &&
              decide (128 ≤ c ∧ c ≤ 191) && utf8Valid rest3
            else
              match rest3 with
              | [] => false
              | d :: rest4 =>
                if 240 ≤ a ∧ a ≤ 244 then
                  decide ((if a = 240 then 144 else 128) ≤ b ∧
                    b ≤ (if a = 244 then 143 else 191)) &&
                  decide (128 ≤ c ∧ c ≤ 191) && decide (128 ≤ d ∧ d ≤ 191) && utf8Valid rest4
                else false

/-- Go conversion `uint64(int64(v))` of an `int32`: sign extension to 64 bits. -/
def toUint64 (v : Int) : Nat := (v % 18446744073709551616).toNat

/-- Go conversion `uint32(v)` of a `uint64`: the low 32 bits. -/
def toUint32 (v : Nat) : Nat := v % 4294967296

/-- Modelled from the spec: field encoder of the serialization runtime (not in this
repository) for a proto3 `bool`: nothing for `false`. -/
def appendBoolNoZero (num : Nat) (v : Bool) : Bytes :=
  if v then appendTag num 0 ++ appendVarint 1 else []

/-- Modelled from the spec: field encoder of the serialization runtime (not in this
repository) for a proto3 `uint32`: nothing for 0. -/
def appendUint32NoZero (num : Nat) (v : Nat) : Bytes :=
  if v = 0 then [] else appendTag num 0 ++ appendVarint v

/-- Modelled from the spec: field encoder of the serialization runtime (not in this
repository) for a proto3 enum: nothing for 0, else the sign-extended number. -/
def appendEnumNoZero (num : Nat) (v : Int) : Bytes :=
  if v = 0 then [] else appendTag num 0 ++ appendVarint (toUint64 v)

/-- Modelled from the spec: field encoder of the serialization runtime (not in this
repository) for a proto3 `string`: nothing for the empty string, an error for text that
is not UTF-8. -/
def appendStringNoZero (num : Nat) (v : GoString) : Option Bytes :=
  if v = [] then some []
  else if utf8Valid v then some (appendTag num 2 ++ appendBytes v)
  else none

/-- Modelled from the spec: field encoder of the serialization runtime (not in this
repository) for the elements of a `repeated string`: one tagged record per element. -/
def appendStrings (num : Nat) : List GoString → Option Bytes
  | [] => some []
  | v :: rest =>
    if utf8Valid v then
      match appendStrings num rest with
      | some r => some (appendTag num 2 ++ appendBytes v ++ r)
      | none => none
    else none

/-- Modelled from the spec: field encoder of the serialization runtime (not in this
repository) for a `repeated string` held in a Go slice: a nil slice and an empty slice
both give no record. -/
def appendStringSlice (num : Nat) (s : StringSlice) : Option Bytes :=
  match s with
  | none => some []
  | some l => appendStrings num l

/-- Modelled from the spec: field encoder of the serialization runtime (not in this
repository) for a sub-message: nothing for a nil pointer, else the tagged,
length-prefixed encoding `sub` of the sub-message. -/
def appendMessage (num : Nat) (sub : Option (Option Bytes)) : Option Bytes :=
  match sub with
  | none => some []
  | some none => none
  | some (some b) => some (appendTag num 2 ++ appendBytes b)

/-- Modelled from the spec: `Marshal` of the serialization runtime (not in this
repository) on a `PluginInfo`: the fields in number order, then the unknown fields. -/
def PluginInfo.marshal (x : PluginInfo) : Option Bytes :=
  match appendStringNoZero 2 x.Name, appendStringNoZero 3 x.Version,
        appendStringNoZero 4 x.Description, appendStringNoZero 5 x.Author with
  | some n, some v, some d, some a =>
    some (appendEnumNoZero 1 x.Type_ ++ n ++ v ++ d ++ a ++ x.unknownFields)
  | _, _, _, _ => none

/-- Modelled from the spec: `Marshal` of the serialization runtime (not in this
repository) on a `TargetServiceName`. -/
def TargetServiceName.marshal (x : TargetServiceName) : Option Bytes :=
  match appendStringSlice 1 x.Value with
  | some v => some (v ++ x.unknownFields)
  | none => none

/-- Modelled from the spec: `Marshal` of the serialization runtime (not in this
repository) on a `TargetSoftware`. -/
def TargetSoftware.marshal (x : TargetSoftware) : Option Bytes :=
  match appendStringNoZero 1 x.Name, appendStringSlice 2 x.Value with
  | some n, some v => some (n ++ v ++ x.unknownFields)
  | _, _ => none

/-- Modelled from the spec: `Marshal` of the serialization runtime (not in this
repository) on a `TargetOperatingSystemClass`. -/
def TargetOperatingSystemClass.marshal (x : TargetOperatingSystemClass) : Option Bytes :=
  match appendStringSlice 1 x.Vendor, appendStringSlice 2 x.OsFamily with
  | some v, some f => some (v ++ f ++ appendUint32NoZero 3 x.MinAccuracy ++ x.unknownFields)
  | _, _ => none

/-- Modelled from the spec: `Marshal` of the serialization runtime (not in this
repository) on a `PluginDefinition`. -/
def PluginDefinition.marshal (x : PluginDefinition) : Option Bytes :=
  match appendMessage 1 (x.Info.map PluginInfo.marshal),
        appendMessage 2 (x.TargetServiceName.map TargetServiceName.marshal),
        appendMessage 3 (x.TargetSoftware.map TargetSoftware.marshal),
        appendMessage 5 (x.TargetOperatingSystemClass.map TargetOperatingSystemClass.marshal) with
  | some i, some n, some s, some o =>
    some (i ++ n ++ s ++ appendBoolNoZero 4 x.ForWebService ++ o ++ x.unknownFields)
  | _, _, _, _ => none

/-- What a field decoder answers: the updated message and the number of bytes read,
`unknown` when the wire type is not the field's, or a decoding error. -/
inductive FieldResult (M : Type) where
  | ok (m : M) (n : Nat)
  | unknown
  | error
  deriving DecidableEq, Repr

/-- Modelled from the spec: the decoding loop of the serialization runtime (not in this
repository): reads tag after tag, offers each field to `field`, and stores the fields it
does not know, with their tag, through `addUnknown`. A field number outside
1 .. 2^29 - 1, an end-group tag or a malformed value is an error. `fuel` bounds the number
of fields. -/
def unmarshalLoop {M : Type} (field : M → Nat → Nat → Bytes → FieldResult M)
    (addUnknown : M → Bytes → M) : Nat → Bytes → M → Option M
  | _, [], m => some m
  | 0, _ :: _, _ => none
  | fuel + 1, x :: xs, m =>
    match consumeVarint (x :: xs) with
    | none => none
    | some (tag, n) =>
      if tag / 8 < 1 ∨ 536870911 < tag / 8 then none
      else if tag % 8 = 4 then none
      else
        match field m (tag / 8) (tag % 8) ((x :: xs).drop n) with
        | FieldResult.error => none
        | FieldResult.ok m2 k => unmarshalLoop field addUnknown fuel (((x :: xs).drop n).drop k) m2
        | FieldResult.unknown =>
          match consumeFieldValue (tag / 8) (tag % 8) ((x :: xs).drop n) with
          | none => none
          | some k =>
            unmarshalLoop field addUnknown fuel (((x :: xs).drop n).drop k)
              (addUnknown m (appendTag (tag / 8) (tag % 8) ++ ((x :: xs).drop n).take k))

/-- Modelled from the spec: varint field decoder of the serialization runtime (not in
this repository): the value and the number of bytes read. -/
def consumeVarintField (wtyp : Nat) (b : Bytes) : FieldResult Nat :=
  if wtyp = 0 then
    match consumeVarint b with
    | none => FieldResult.error
    | some (v, n) => FieldResult.ok v n
  else FieldResult.unknown

/-- Modelled from the spec: proto3 string field decoder of the serialization runtime (not
in this repository): the text, checked to be UTF-8, and the number of bytes read. -/
def consumeStringField (wtyp : Nat) (b : Bytes) : FieldResult GoString :=
  if wtyp = 2 then
    match consumeBytes b with
    | none => FieldResult.error
    | some (v, n) => if utf8Valid v then FieldResult.ok v n else FieldResult.error
  else FieldResult.unknown

/-- Modelled from the spec: sub-message field decoder of the serialization runtime (not
in this repository): the payload and the number of bytes read. -/
def consumeBytesField (wtyp : Nat) (b : Bytes) : FieldResult Bytes :=
  if wtyp = 2 then
    match consumeBytes b with
    | none => FieldResult.error
    | some (v, n) => FieldResult.ok v n
  else FieldResult.unknown

/-- Continues a field decoder's answer with the update of the message. -/
def FieldResult.andThen {A M : Type} (r : FieldResult A) (f : A → Option M) : FieldResult M :=
  match r with
  | FieldResult.ok a n =>
    (match f a with
     | some m => FieldResult.ok m n
     | none => FieldResult.error)
  | FieldResult.unknown => FieldResult.unknown
  | FieldResult.error => FieldResult.error

/-- Go `append(s, v)` on a `[]string`. -/
def appendSlice (s : StringSlice) (v : GoString) : StringSlice :=
  match s with
  | none => some [v]
  | some l => some (l ++ [v])

/-- The zero value `PluginInfo{}`. -/
def PluginInfo.zero : PluginInfo :=
  { Type_ := 0, Name := [], Version := [], Description := [], Author := [], unknownFields := [] }

/-- The zero value `TargetServiceName{}`. -/
def TargetServiceName.zero : TargetServiceName :=
  { Value := none, unknownFields := [] }

/-- The zero value `TargetSoftware{}`. -/
def TargetSoftware.zero : TargetSoftware :=
  { Name := [], Value := none, unknownFields := [] }

/-- The zero value `TargetOperatingSystemClass{}`. -/
def TargetOperatingSystemClass.zero : TargetOperatingSystemClass :=
  { Vendor := none, OsFamily := none, MinAccuracy := 0, unknownFields := [] }

/-- The zero value `PluginDefinition{}`. -/
def PluginDefinition.zero : PluginDefinition :=
  { Info := none, TargetServiceName := none, TargetSoftware := none, ForWebService := false,
    TargetOperatingSystemClass := none, unknownFields := [] }

/-- Modelled from the spec: the field decoders of `PluginInfo`, by field number, as the
serialization runtime (not in this repository) derives them from the descriptor. -/
def PluginInfo.unmarshalField (m : PluginInfo) (num wtyp : Nat) (b : Bytes) :
    FieldResult PluginInfo :=
  if num = 1 then
    (consumeVarintField wtyp b).andThen (fun v => some { m with Type_ := toInt32 v })
  else if num = 2 then (consumeStringField wtyp b).andThen (fun v => some { m with Name := v })
  else if num = 3 then (consumeStringField wtyp b).andThen (fun v => some { m with Version := v })
  else if num = 4 then
    (consumeStringField wtyp b).andThen (fun v => some { m with Description := v })
  else if num = 5 then (consumeStringField wtyp b).andThen (fun v => some { m with Author := v })
  else FieldResult.unknown

/-- Appends a stored unknown field to a `PluginInfo`. -/
def PluginInfo.addUnknown (m : PluginInfo) (u : Bytes) : PluginInfo :=
  { m with unknownFields := m.unknownFields ++ u }

/-- Modelled from the spec: decoding of the serialization runtime (not in this
repository) into an existing `PluginInfo`. -/
def PluginInfo.unmarshalFrom (b : Bytes) (m : PluginInfo) : Option PluginInfo :=
  unmarshalLoop PluginInfo.unmarshalField PluginInfo.addUnknown b.length b m

/-- Modelled from the spec: `Unmarshal` of the serialization runtime (not in this
repository) into a fresh `PluginInfo`. -/
def PluginInfo.unmarshal (b : Bytes) : Option PluginInfo :=
  PluginInfo.unmarshalFrom b PluginInfo.zero

/-- Modelled from the spec: the field decoders of `TargetServiceName`, as the
serialization runtime (not in this repository) derives them from the descriptor. -/
def TargetServiceName.unmarshalField (m : TargetServiceName) (num wtyp : Nat) (b : Bytes) :
    FieldResult TargetServiceName :=
  if num = 1 then
    (consumeStringField wtyp b).andThen (fun v => some { m with Value := appendSlice m.Value v })
  else FieldResult.unknown

/-- Appends a stored unknown field to a `TargetServiceName`. -/
def TargetServiceName.addUnknown (m : TargetServiceName) (u : Bytes) : TargetServiceName :=
  { m with unknownFields := m.unknownFields ++ u }

/-- Modelled from the spec: decoding of the serialization runtime (not in this
repository) into an existing `TargetServiceName`. -/
def TargetServiceName.unmarshalFrom (b : Bytes) (m : TargetServiceName) :
    Option TargetServiceName :=
  unmarshalLoop TargetServiceName.unmarshalField TargetServiceName.addUnknown b.length b m

/-- Modelled from the spec: `Unmarshal` of the serialization runtime (not in this
repository) into a fresh `TargetServiceName`. -/
def TargetServiceName.unmarshal (b : Bytes) : Option TargetServiceName :=
  TargetServiceName.unmarshalFrom b TargetServiceName.zero

/-- Modelled from the spec: the field decoders of `TargetSoftware`, as the serialization
runtime (not in this repository) derives them from the descriptor. -/
def TargetSoftware.unmarshalField (m : TargetSoftware) (num wtyp : Nat) (b : Bytes) :
    FieldResult TargetSoftware :=
  if num = 1 then (consumeStringField wtyp b).andThen (fun v => some { m with Name := v })
  else if num = 2 then
    (consumeStringField wtyp b).andThen (fun v => some { m with Value := appendSlice m.Value v })
  else FieldResult.unknown

/-- Appends a stored unknown field to a `TargetSoftware`. -/
def TargetSoftware.addUnknown (m : TargetSoftware) (u : Bytes) : TargetSoftware :=
  { m with unknownFields := m.unknownFields ++ u }

/-- Modelled from the spec: decoding of the serialization runtime (not in this
repository) into an existing `TargetSoftware`. -/
def TargetSoftware.unmarshalFrom (b : Bytes) (m : TargetSoftware) : Option TargetSoftware :=
  unmarshalLoop TargetSoftware.unmarshalField TargetSoftware.addUnknown b.length b m

/-- Modelled from the spec: `Unmarshal` of the serialization runtime (not in this
repository) into a fresh `TargetSoftware`. -/
def TargetSoftware.unmarshal (b : Bytes) : Option TargetSoftware :=
  TargetSoftware.unmarshalFrom b TargetSoftware.zero

/-- Modelled from the spec: the field decoders of `TargetOperatingSystemClass`, as the
serialization runtime (not in this repository) derives them from the descriptor. -/
def TargetOperatingSystemClass.unmarshalField (m : TargetOperatingSystemClass)
    (num wtyp : Nat) (b : Bytes) : FieldResult TargetOperatingSystemClass :=
  if num = 1 then
    (consumeStringField wtyp b).andThen (fun v => some { m with Vendor := appendSlice m.Vendor v })
  else if num = 2 then
    (consumeStringField wtyp b).andThen
      (fun v => some { m with OsFamily := appendSlice m.OsFamily v })
  else if num = 3 then
    (consumeVarintField wtyp b).andThen (fun v => some { m with MinAccuracy := toUint32 v })
  else FieldResult.unknown

/-- Appends a stored unknown field to a `TargetOperatingSystemClass`. -/
def TargetOperatingSystemClass.addUnknown (m : TargetOperatingSystemClass) (u : Bytes) :
    TargetOperatingSystemClass :=
  { m with unknownFields := m.unknownFields ++ u }

/-- Modelled from the spec: decoding of the serialization runtime (not in this
repository) into an existing `TargetOperatingSystemClass`. -/
def TargetOperatingSystemClass.unmarshalFrom (b : Bytes) (m : TargetOperatingSystemClass) :
    Option TargetOperatingSystemClass :=
  unmarshalLoop TargetOperatingSystemClass.unmarshalField TargetOperatingSystemClass.addUnknown
    b.length b m

/-- Modelled from the spec: `Unmarshal` of the serialization runtime (not in this
repository) into a fresh `TargetOperatingSystemClass`. -/
def TargetOperatingSystemClass.unmarshal (b : Bytes) : Option TargetOperatingSystemClass :=
  TargetOperatingSystemClass.unmarshalFrom b TargetOperatingSystemClass.zero

/-- Modelled from the spec: the field decoders of `PluginDefinition`, as the
serialization runtime (not in this repository) derives them from the descriptor. A
sub-message field decodes into the sub-message already there, or into a fresh one. -/
def PluginDefinition.unmarshalField (m : PluginDefinition) (num wtyp : Nat) (b : Bytes) :
    FieldResult PluginDefinition :=
  if num = 1 then
    (consumeBytesField wtyp b).andThen (fun v =>
      (PluginInfo.unmarshalFrom v (m.Info.getD PluginInfo.zero)).map
        (fun i => { m with Info := some i }))
  else if num = 2 then
    (consumeBytesField wtyp b).andThen (fun v =>
      (TargetServiceName.unmarshalFrom v (m.TargetServiceName.getD TargetServiceName.zero)).map
        (fun i => { m with TargetServiceName := some i }))
  else if num = 3 then
    (consumeBytesField wtyp b).andThen (fun v =>
      (TargetSoftware.unmarshalFrom v (m.TargetSoftware.getD TargetSoftware.zero)).map
        (fun i => { m with TargetSoftware := some i }))
  else if num = 4 then
    (consumeVarintField wtyp b).andThen (fun v => some { m with ForWebService := decide (v ≠ 0) })
  else if num = 5 then
    (consumeBytesField wtyp b).andThen (fun v =>
      (TargetOperatingSystemClass.unmarshalFrom v
        (m.TargetOperatingSystemClass.getD TargetOperatingSystemClass.zero)).map
        (fun i => { m with TargetOperatingSystemClass := some i }))
  else FieldResult.unknown

/-- Appends a stored unknown field to a `PluginDefinition`. -/
def PluginDefinition.addUnknown (m : PluginDefinition) (u : Bytes) : PluginDefinition :=
  { m with unknownFields := m.unknownFields ++ u }

/-- Modelled from the spec: decoding of the serialization runtime (not in this
repository) into an existing `PluginDefinition`. -/
def PluginDefinition.unmarshalFrom (b : Bytes) (m : PluginDefinition) : Option PluginDefinition :=
  unmarshalLoop PluginDefinition.unmarshalField PluginDefinition.addUnknown b.length b m

/-- Modelled from the spec: `Unmarshal` of the serialization runtime (not in this
repository) into a fresh `PluginDefinition`. -/
def PluginDefinition.unmarshal (b : Bytes) : Option PluginDefinition :=
  PluginDefinition.unmarshalFrom b PluginDefinition.zero


/-! ## The matching predicate

The repository holds no matching code: the predicate below is written from sections 3
and 4.1 of the specification. -/

/-- Modelled from the spec: the target descriptor of section 4.1 (detected service name,
software name and version, web-service classification, OS vendor, family and accuracy);
no such type is in the repository. -/
structure TargetDescriptor where
  serviceName : GoString
  softwareName : GoString
  softwareVersion : GoString
  isWebService : Bool
  osVendor : GoString
  osFamily : GoString
  osAccuracy : Nat
  deriving DecidableEq, Repr

/-- Modelled from the spec: ASCII case folding of one byte (section 4.1: "ASCII fold at
minimum"); no such function is in the repository. -/
def asciiLower (c : Nat) : Nat := if 65 ≤ c ∧ c ≤ 90 then c + 32 else c

/-- Modelled from the spec: equality of two texts up to ASCII case; no such function is
in the repository. -/
def equalFold (a b : GoString) : Bool := decide (a.map asciiLower = b.map asciiLower)

/-- The elements of a Go slice, none for the nil slice. -/
def elements (s : StringSlice) : List GoString :=
  match s with
  | none => []
  | some l => l

/-- Modelled from the spec: an acceptance list of section 3 (not coded in the
repository): an empty list does not constrain, otherwise the value must be a member,
compared byte for byte. -/
def accepts (l : StringSlice) (v : GoString) : Bool :=
  match elements l with
  | [] => true
  | e :: es => decide (v ∈ e :: es)

/-- Modelled from the spec: matching of a `TargetServiceName` filter (section 3; not
coded in the repository): the service name is a case-sensitive member of `value`, an
empty list matching everything. -/
def TargetServiceName.matchesTarget (f : TargetServiceName) (t : TargetDescriptor) : Bool :=
  accepts f.Value t.serviceName

/-- Modelled from the spec: matching of a `TargetSoftware` filter (not coded in the
repository). A filter whose fields are all empty (no name, no values) does not constrain
and matches every target, like an absent filter (section 3, Relationships; section 9;
Glossary, vacuous truth). Otherwise (section 3, Matching) the software name equals `name`
up to case, and, when `value` is not empty, the version satisfies at least one entry; an
empty `value` leaves the version unconstrained (section 4.1). `satisfies version entry`
is the version-range check, which the specification leaves to a collaborator. -/
def TargetSoftware.matchesTarget (satisfies : GoString → GoString → Bool) (f : TargetSoftware)
    (t : TargetDescriptor) : Bool :=
  if f.Name = [] ∧ elements f.Value = [] then true
  else if equalFold t.softwareName f.Name then
    (match elements f.Value with
     | [] => true
     | e :: es => (e :: es).any (fun entry => satisfies t.softwareVersion entry))
  else false

/-- Modelled from the spec: matching of a `TargetOperatingSystemClass` filter (section 3;
not coded in the repository): vendor and family accepted by their lists, and the
accuracy at least `min_accuracy`. -/
def TargetOperatingSystemClass.matchesTarget (f : TargetOperatingSystemClass)
    (t : TargetDescriptor) : Bool :=
  if accepts f.Vendor t.osVendor then
    (if accepts f.OsFamily t.osFamily then decide (f.MinAccuracy ≤ t.osAccuracy) else false)
  else false

/-- Modelled from the spec: `matches(definition, targetDescriptor)` of section 4.1 (not
coded in the repository): the filters are tried in field order and the first one that
fails rejects the target. -/
def pluginMatches (satisfies : GoString → GoString → Bool) (d : PluginDefinition)
    (t : TargetDescriptor) : Bool :=
  let serviceOk : Bool :=
    match d.TargetServiceName with
    | none => true
    | some f => f.matchesTarget t
  if !serviceOk then false
  else
    let softwareOk : Bool :=
      match d.TargetSoftware with
      | none => true
      | some f => f.matchesTarget satisfies t
    if !softwareOk then false
    else if d.ForWebService && !t.isWebService then false
    else
      match d.TargetOperatingSystemClass with
      | none => true
      | some f => f.matchesTarget t

/-! ## Rendering of enum values -/

/-- Modelled from the spec: `protoimpl.X.EnumStringOf` of the serialization runtime (not
in this repository): the name of the first value of the descriptor numbered `n`, or the
decimal text of `n` when there is none. -/
def EnumStringOf (ed : EnumDescriptorProto) (n : Int) : String :=
  match ed.value.find? (fun v => decide (v.number = n)) with
  | some v => v.name
  | none => toString n

/-- The enum descriptors of the raw descriptor in declaration order (file level, then
inside the top-level messages), as the type builder numbers them for
`file_plugin_representation_proto_enumTypes`. -/
def enumDescriptors (raw : Bytes) : Option (List EnumDescriptorProto) :=
  (readFileDescriptor raw).map (fun fd =>
    fd.enumType ++ (fd.messageType.map (fun m => m.enumType)).flatten)

/-- Go `func (PluginInfo_PluginType) Descriptor()`: the descriptor of
`file_plugin_representation_proto_enumTypes[0]`; `none` stands for a panic. -/
def PluginInfo_PluginType.Descriptor : Option EnumDescriptorProto :=
  match enumDescriptors file_plugin_representation_proto_rawDesc with
  | some (ed :: _) => some ed
  | _ => none

/-- Go `func (x PluginInfo_PluginType) String() string`; `none` stands for a panic. -/
def PluginInfo_PluginType.String (x : PluginInfo_PluginType) : Option String :=
  PluginInfo_PluginType.Descriptor.map (fun ed => EnumStringOf ed x)

/-! ## Validity of values, unknown fields, and the five messages as one type -/

/-- The field numbers and wire types `PluginInfo` has a decoder for. -/
def PluginInfo.declared (num typ : Nat) : Bool :=
  (num == 1 && typ == 0) || ((num == 2 || num == 3 || num == 4 || num == 5) && typ == 2)

/-- The field numbers and wire types `TargetServiceName` has a decoder for. -/
def TargetServiceName.declared (num typ : Nat) : Bool := num == 1 && typ == 2

/-- The field numbers and wire types `TargetSoftware` has a decoder for. -/
def TargetSoftware.declared (num typ : Nat) : Bool := (num == 1 || num == 2) && typ == 2

/-- The field numbers and wire types `TargetOperatingSystemClass` has a decoder for. -/
def TargetOperatingSystemClass.declared (num typ : Nat) : Bool :=
  ((num == 1 || num == 2) && typ == 2) || (num == 3 && typ == 0)

/-- The field numbers and wire types `PluginDefinition` has a decoder for. -/
def PluginDefinition.declared (num typ : Nat) : Bool :=
  ((num == 1 || num == 2 || num == 3 || num == 5) && typ == 2) || (num == 4 && typ == 0)

/-- One field of a serialized message as the decoding loop cuts it: number, wire type and
the bytes of its value. -/
structure RawField where
  num : Nat
  typ : Nat
  raw : Bytes
  deriving DecidableEq, Repr

/-- The fields of a serialized message as the decoding loop cuts them, whatever the
schema: a tag with a number in 1 .. 2^29 - 1 and a wire type other than end-group, then
the value. `fuel` bounds the number of fields. -/
def rawFields : Nat → Bytes → Option (List RawField)
  | _, [] => some []
  | 0, _ :: _ => none
  | fuel + 1, x :: xs =>
    match consumeVarint (x :: xs) with
    | none => none
    | some (tag, n) =>
      if tag / 8 < 1 ∨ 536870911 < tag / 8 then none
      else if tag % 8 = 4 then none
      else
        match consumeFieldValue (tag / 8) (tag % 8) ((x :: xs).drop n) with
        | none => none
        | some k =>
          match rawFields fuel (((x :: xs).drop n).drop k) with
          | none => none
          | some l =>
            some ({ num := tag / 8, typ := tag % 8, raw := ((x :: xs).drop n).take k } :: l)

/-- What the decoding loop stores of the fields `fs`: those `declared` does not know,
each as its tag followed by the bytes of its value, in wire order. -/
def storedUnknown (declared : Nat → Nat → Bool) : List RawField → Bytes
  | [] => []
  | f :: fs =>
    if declared f.num f.typ then storedUnknown declared fs
    else appendTag f.num f.typ ++ f.raw ++ storedUnknown declared fs

/-- A store of unknown fields is well formed when it is a sequence of complete fields,
each with its tag in shortest form, a number in 1 .. 2^29 - 1, a wire type other than
end-group, and no decoder in `declared`. `fuel` bounds the number of fields. -/
def wellFormedUnknown (declared : Nat → Nat → Bool) : Nat → Bytes → Bool
  | _, [] => true
  | 0, _ :: _ => false
  | fuel + 1, x :: xs =>
    match consumeVarint (x :: xs) with
    | none => false
    | some (tag, n) =>
      if tag / 8 < 1 ∨ 536870911 < tag / 8 then false
      else if tag % 8 = 4 then false
      else if declared (tag / 8) (tag % 8) then false
      else if (x :: xs).take n ≠ appendVarint tag then false
      else
        match consumeFieldValue (tag / 8) (tag % 8) ((x :: xs).drop n) with
        | none => false
        | some k => wellFormedUnknown declared fuel (((x :: xs).drop n).drop k)

/-- A Go `[]string` that survives the wire: nil, or non-empty with UTF-8 elements. -/
def validSlice (s : StringSlice) : Bool :=
  match s with
  | none => true
  | some [] => false
  | some (e :: es) => (e :: es).all utf8Valid

/-- A valid `PluginInfo`: the type is an `int32`, the texts are UTF-8, the unknown
fields are well formed. -/
def PluginInfo.valid (x : PluginInfo) : Bool :=
  decide (-2147483648 ≤ x.Type_ ∧ x.Type_ ≤ 2147483647) &&
  utf8Valid x.Name && utf8Valid x.Version && utf8Valid x.Description && utf8Valid x.Author &&
  wellFormedUnknown PluginInfo.declared x.unknownFields.length x.unknownFields

/-- A valid `TargetServiceName`. -/
def TargetServiceName.valid (x : TargetServiceName) : Bool :=
  validSlice x.Value &&
  wellFormedUnknown TargetServiceName.declared x.unknownFields.length x.unknownFields

/-- A valid `TargetSoftware`. -/
def TargetSoftware.valid (x : TargetSoftware) : Bool :=
  utf8Valid x.Name && validSlice x.Value &&
  wellFormedUnknown TargetSoftware.declared x.unknownFields.length x.unknownFields

/-- A valid `TargetOperatingSystemClass`: the accuracy is a `uint32`. -/
def TargetOperatingSystemClass.valid (x : TargetOperatingSystemClass) : Bool :=
  validSlice x.Vendor && validSlice x.OsFamily && decide (x.MinAccuracy < 4294967296) &&
  wellFormedUnknown TargetOperatingSystemClass.declared x.unknownFields.length x.unknownFields

/-- Whether an optional sub-message is absent or satisfies `p`. -/
def validOpt {α : Type} (p : α → Bool) (x : Option α) : Bool :=
  match x with
  | none => true
  | some a => p a

/-- A valid `PluginDefinition`: every sub-message present is valid and the unknown fields
are well formed. -/
def PluginDefinition.valid (x : PluginDefinition) : Bool :=
  validOpt PluginInfo.valid x.Info &&
  validOpt TargetServiceName.valid x.TargetServiceName &&
  validOpt TargetSoftware.valid x.TargetSoftware &&
  validOpt TargetOperatingSystemClass.valid x.TargetOperatingSystemClass &&
  wellFormedUnknown PluginDefinition.declared x.unknownFields.length x.unknownFields

/-- Encoding followed by decoding. -/
def PluginDefinition.roundTrip (d : PluginDefinition) : Option PluginDefinition :=
  match d.marshal with
  | none => none
  | some b => PluginDefinition.unmarshal b

/-- The five message types of the schema. -/
inductive MessageKind where
  | PluginDefinition
  | PluginInfo
  | TargetServiceName
  | TargetSoftware
  | TargetOperatingSystemClass
  deriving DecidableEq, Repr

/-- A message of one of the five types. -/
inductive Message where
  | definition (x : PluginDefinition)
  | info (x : PluginInfo)
  | serviceName (x : TargetServiceName)
  | software (x : TargetSoftware)
  | operatingSystemClass (x : TargetOperatingSystemClass)
  deriving DecidableEq, Repr

/-- Decoding of a message of the given type. -/
def Message.unmarshal (k : MessageKind) (b : Bytes) : Option Message :=
  match k with
  | MessageKind.PluginDefinition => (PluginDefinition.unmarshal b).map Message.definition
  | MessageKind.PluginInfo => (PluginInfo.unmarshal b).map Message.info
  | MessageKind.TargetServiceName => (TargetServiceName.unmarshal b).map Message.serviceName
  | MessageKind.TargetSoftware => (TargetSoftware.unmarshal b).map Message.software
  | MessageKind.TargetOperatingSystemClass =>
    (TargetOperatingSystemClass.unmarshal b).map Message.operatingSystemClass

/-- Encoding of a message. -/
def Message.marshal (m : Message) : Option Bytes :=
  match m with
  | Message.definition x => x.marshal
  | Message.info x => x.marshal
  | Message.serviceName x => x.marshal
  | Message.software x => x.marshal
  | Message.operatingSystemClass x => x.marshal

/-- The unknown-field store of a message. -/
def Message.unknownFields (m : Message) : Bytes :=
  match m with
  | Message.definition x => x.unknownFields
  | Message.info x => x.unknownFields
  | Message.serviceName x => x.unknownFields
  | Message.software x => x.unknownFields
  | Message.operatingSystemClass x => x.unknownFields

/-- The field numbers and wire types a message type has a decoder for. -/
def MessageKind.declared (k : MessageKind) : Nat → Nat → Bool :=
  match k with
  | MessageKind.PluginDefinition => PluginDefinition.declared
  | MessageKind.PluginInfo => PluginInfo.declared
  | MessageKind.TargetServiceName => TargetServiceName.declared
  | MessageKind.TargetSoftware => TargetSoftware.declared
  | MessageKind.TargetOperatingSystemClass => TargetOperatingSystemClass.declared



/-! ## Texts that can be encoded -/

/-- Every element of a Go `[]string` is UTF-8. -/
def validTexts (s : StringSlice) : Bool := (elements s).all utf8Valid

/-- Every text of a `PluginInfo` is UTF-8. -/
def PluginInfo.textsValid (x : PluginInfo) : Bool :=
  utf8Valid x.Name && utf8Valid x.Version && utf8Valid x.Description && utf8Valid x.Author

/-- Every text of a `TargetServiceName` is UTF-8. -/
def TargetServiceName.textsValid (x : TargetServiceName) : Bool := validTexts x.Value

/-- Every text of a `TargetSoftware` is UTF-8. -/
def TargetSoftware.textsValid (x : TargetSoftware) : Bool :=
  utf8Valid x.Name && validTexts x.Value

/-- Every text of a `TargetOperatingSystemClass` is UTF-8. -/
def TargetOperatingSystemClass.textsValid (x : TargetOperatingSystemClass) : Bool :=
  validTexts x.Vendor && validTexts x.OsFamily

/-- Every text of a `PluginDefinition`, sub-messages included, is UTF-8. -/
def PluginDefinition.textsValid (x : PluginDefinition) : Bool :=
  validOpt PluginInfo.textsValid x.Info &&
  validOpt TargetServiceName.textsValid x.TargetServiceName &&
  validOpt TargetSoftware.textsValid x.TargetSoftware &&
  validOpt TargetOperatingSystemClass.textsValid x.TargetOperatingSystemClass

/-! ## Go map lookups -/

/-- Go `v, ok := m[k]` on a map given by the entries of its literal: the value of the
entry with key `k`, `none` when `ok` is false. -/
def goMapLookup {K V : Type} [DecidableEq K] (m : List (K × V)) (k : K) : Option V :=
  match m.find? (fun e => decide (e.1 = k)) with
  | some e => some e.2
  | none => none

/-- Go `m[k]`: the value of the entry with key `k`, the zero value of the value type when
there is no such entry. -/
def goMapIndex {K V : Type} [DecidableEq K] (zero : V) (m : List (K × V)) (k : K) : V :=
  match goMapLookup m k with
  | some v => v
  | none => zero

/-! ## Type indices -/

/-- The indices a generated message type uses: the path its deprecated `Descriptor()`
returns, and the index into `file_plugin_representation_proto_msgTypes` in its `Reset`
and in its `ProtoReflect`. -/
structure MessageIndices where
  goName : String
  descriptorPath : List Nat
  resetIndex : Nat
  protoReflectIndex : Nat
  deriving DecidableEq, Repr

/-- The indices of the five message types, as written in the file. -/
def messageIndices : List MessageIndices :=
  [ { goName := "PluginDefinition", descriptorPath := [0], resetIndex := 0,
      protoReflectIndex := 0 },
    { goName := "PluginInfo", descriptorPath := [1], resetIndex := 1, protoReflectIndex := 1 },
    { goName := "TargetServiceName", descriptorPath := [2], resetIndex := 2,
      protoReflectIndex := 2 },
    { goName := "TargetSoftware", descriptorPath := [3], resetIndex := 3,
      protoReflectIndex := 3 },
    { goName := "TargetOperatingSystemClass", descriptorPath := [4], resetIndex := 4,
      protoReflectIndex := 4 } ]

/-- Go `func (PluginInfo_PluginType) EnumDescriptor()`: the path it returns. -/
def PluginInfo_PluginType.EnumDescriptor_path : List Nat := [1, 0]

/-- The index into `file_plugin_representation_proto_enumTypes` that `Descriptor()` and
`Type()` of `PluginInfo_PluginType` use. -/
def PluginInfo_PluginType.enumTypesIndex : Nat := 0

/-- The position of the first element of a list that satisfies `p`. -/
def positionOf {α : Type} (p : α → Bool) : List α → Option Nat
  | [] => none
  | a :: rest =>
    if p a then some 0
    else
      match positionOf p rest with
      | some i => some (i + 1)
      | none => none

/-- Per message type of the file: its Go name, descriptor path, `Reset` index,
`ProtoReflect` index, and the position of the message of that name among the top-level
messages of the raw descriptor (`none` when there is none). -/
structure MessageIndexRow where
  goName : String
  descriptorPath : List Nat
  resetIndex : Nat
  protoReflectIndex : Nat
  position : Option Nat
  deriving DecidableEq, Repr

/-- The indices of the five message types next to the positions of their messages in
the raw descriptor. -/
def messageIndexTable (raw : Bytes) : Option (List MessageIndexRow) :=
  (readFileDescriptor raw).map (fun fd =>
    messageIndices.map (fun m =>
      { goName := m.goName, descriptorPath := m.descriptorPath, resetIndex := m.resetIndex,
        protoReflectIndex := m.protoReflectIndex,
        position := positionOf (fun d => decide (d.name = m.goName)) fd.messageType }))

/-- The enum a descriptor path names: `[i]` is the `i`-th enum of the file, `[m, e]` the
`e`-th enum nested in the `m`-th message; the result is the name of the enclosing message
(empty at file level) and the enum. -/
def enumAtPath (fd : FileDescriptorProto) (path : List Nat) :
    Option (String × EnumDescriptorProto) :=
  match path with
  | [i] => (fd.enumType.get? i).map (fun e => ("", e))
  | [m, e] =>
    (match fd.messageType.get? m with
     | some d => (d.enumType.get? e).map (fun x => (d.name, x))
     | none => none)
  | _ => none

/-- The Go identifier the generator gives a declaration with the name `rel` relative to
the package: the names on the way joined by `_`. -/
def goIdent (rel : String) : String :=
  String.mk (rel.data.map (fun c => if c = '.' then '_' else c))

/-- The name by which a Go type of the type table is declared. -/
def GoType.ident : GoType → String
  | GoType.int32Named n => n
  | GoType.pointer n => n
  | GoType.slice e => GoType.ident e
  | GoType.bool => "bool"
  | GoType.uint32 => "uint32"
  | GoType.string => "string"

/-- The full names (with leading dot) of the declarations of the raw descriptor in the
order of the Go type table: the enums (file level, then nested in the top-level
messages), then the messages. -/
def declaredFullNames (raw : Bytes) : Option (List String) :=
  (readFileDescriptor raw).map (fun fd =>
    (fd.enumType.map (fun e => "." ++ fd.package ++ "." ++ e.name)) ++
    (fd.messageType.map (fun m =>
      m.enumType.map (fun e => "." ++ fd.package ++ "." ++ m.name ++ "." ++ e.name))).flatten ++
    fd.messageType.map (fun m => "." ++ fd.package ++ "." ++ m.name))

/-- The fields of the raw descriptor that name a type, in declaration order: the field
as `Message.field`, and its `type_name`. -/
def typeNameFields (raw : Bytes) : Option (List (String × String)) :=
  (readFileDescriptor raw).map (fun fd =>
    (fd.messageType.map (fun m =>
      (m.field.filter (fun f => decide (f.typeName ≠ ""))).map
        (fun f => (m.name ++ "." ++ f.name, f.typeName)))).flatten)

/-- One entry of the field part of the dependency index list: the field, its
`type_name`, the index the list holds for it, and the Go type and full name the index
resolves to in the type table (`none` when the index is out of range). -/
structure DependencyRow where
  field : String
  typeName : String
  index : Int
  goType : Option GoType
  fullName : Option String
  deriving DecidableEq, Repr

/-- The entries `depIdxs[0:n]` for the `n` fields that name a type, each resolved in the
type table `goTypes`; `none` when the list is shorter than the fields. -/
def dependencyRows (raw : Bytes) (goTypes : List GoType) (depIdxs : List Int) :
    Option (List DependencyRow) :=
  match typeNameFields raw, declaredFullNames raw with
  | some fields, some names =>
    if depIdxs.length < fields.length then none
    else
      some ((fields.zip depIdxs).map (fun p =>
        { field := p.1.1, typeName := p.1.2, index := p.2,
          goType := if p.2 < (0 : Int) then none else goTypes.get? p.2.toNat,
          fullName := if p.2 < (0 : Int) then none else names.get? p.2.toNat }))
  | _, _ => none

/-! ## Messages without their unknown fields, and the stores of sub-messages -/

/-- A `PluginInfo` with its unknown-field store cleared. -/
def PluginInfo.withoutUnknown (x : PluginInfo) : PluginInfo := { x with unknownFields := [] }

/-- A `TargetServiceName` with its unknown-field store cleared. -/
def TargetServiceName.withoutUnknown (x : TargetServiceName) : TargetServiceName :=
  { x with unknownFields := [] }

/-- A `TargetSoftware` with its unknown-field store cleared. -/
def TargetSoftware.withoutUnknown (x : TargetSoftware) : TargetSoftware :=
  { x with unknownFields := [] }

/-- A `TargetOperatingSystemClass` with its unknown-field store cleared. -/
def TargetOperatingSystemClass.withoutUnknown (x : TargetOperatingSystemClass) :
    TargetOperatingSystemClass :=
  { x with unknownFields := [] }

/-- A `PluginDefinition` with its own unknown-field store cleared (those of its
sub-messages stay). -/
def PluginDefinition.withoutUnknown (x : PluginDefinition) : PluginDefinition :=
  { x with unknownFields := [] }

/-- A message with its own unknown-field store cleared. -/
def Message.withoutUnknown (m : Message) : Message :=
  match m with
  | Message.definition x => Message.definition x.withoutUnknown
  | Message.info x => Message.info x.withoutUnknown
  | Message.serviceName x => Message.serviceName x.withoutUnknown
  | Message.software x => Message.software x.withoutUnknown
  | Message.operatingSystemClass x => Message.operatingSystemClass x.withoutUnknown

/-- The type of a message. -/
def Message.kind (m : Message) : MessageKind :=
  match m with
  | Message.definition _ => MessageKind.PluginDefinition
  | Message.info _ => MessageKind.PluginInfo
  | Message.serviceName _ => MessageKind.TargetServiceName
  | Message.software _ => MessageKind.TargetSoftware
  | Message.operatingSystemClass _ => MessageKind.TargetOperatingSystemClass

/-- Validity of a message of any of the five types. -/
def Message.valid (m : Message) : Bool :=
  match m with
  | Message.definition x => x.valid
  | Message.info x => x.valid
  | Message.serviceName x => x.valid
  | Message.software x => x.valid
  | Message.operatingSystemClass x => x.valid

/-- The zero value of a message type, holding the unknown-field store `u`. -/
def Message.ofStore (k : MessageKind) (u : Bytes) : Message :=
  match k with
  | MessageKind.PluginDefinition =>
    Message.definition { PluginDefinition.zero with unknownFields := u }
  | MessageKind.PluginInfo => Message.info { PluginInfo.zero with unknownFields := u }
  | MessageKind.TargetServiceName =>
    Message.serviceName { TargetServiceName.zero with unknownFields := u }
  | MessageKind.TargetSoftware =>
    Message.software { TargetSoftware.zero with unknownFields := u }
  | MessageKind.TargetOperatingSystemClass =>
    Message.operatingSystemClass { TargetOperatingSystemClass.zero with unknownFields := u }

/-- What a sub-message decoder stores of the payload of a length-delimited field whose
value bytes are `raw`: the fields of the payload that `declared` has no decoder for. -/
def payloadStored (declared : Nat → Nat → Bool) (raw : Bytes) : Bytes :=
  match consumeBytes raw with
  | none => []
  | some (v, _) =>
    match rawFields v.length v with
    | none => []
    | some gs => storedUnknown declared gs

/-- What the field `f` of an enclosing message adds to the unknown-field store of the
sub-message held in field `num`: the stored fields of its payload when `f` is that field
in length-delimited form, nothing otherwise. -/
def fieldStored (declared : Nat → Nat → Bool) (num : Nat) (f : RawField) : Bytes :=
  if f.num = num ∧ f.typ = 2 then payloadStored declared f.raw else []

/-- What the fields `fs` of an enclosing message add, in wire order, to the unknown-field
store of the sub-message held in field `num`. -/
def nestedStored (declared : Nat → Nat → Bool) (num : Nat) (fs : List RawField) : Bytes :=
  (fs.map (fieldStored declared num)).flatten

/-- The unknown-field store of an optional sub-message, empty when it is absent. -/
def storeOf {S : Type} (unk : S → Bytes) (x : Option S) : Bytes :=
  match x with
  | none => []
  | some a => unk a

/-! ## Example values -/

/-- A definition whose service-name filter is present with an empty, non-nil list. -/
def definitionWithEmptyList : PluginDefinition :=
  { PluginDefinition.zero with
    TargetServiceName := some { Value := some [], unknownFields := [] } }

/-- A definition with a vulnerability-detection plugin, a service-name filter, a software
filter that is present with no version list, no operating-system filter, and one stored
unknown field (number 99, varint 7). -/
def exampleDefinition : PluginDefinition :=
  { Info := some { Type_ := 3, Name := ascii "example", Version := ascii "1.0",
                   Description := [], Author := ascii "author", unknownFields := [] },
    TargetServiceName := some { Value := some [ascii "http", ascii "https"], unknownFields := [] },
    TargetSoftware := some { Name := ascii "nginx", Value := none, unknownFields := [] },
    ForWebService := true,
    TargetOperatingSystemClass := none,
    unknownFields := [152, 6, 7] }

/-- The encoding of a `PluginInfo` with name `x`, followed by a field numbered 99 of wire
type varint and value 7, which the schema does not declare. -/
def bytesWithUnknownField : Bytes := [18, 1, 120, 152, 6, 7]

/-- The `PluginInfo` that `bytesWithUnknownField` decodes to: the name `x`, and the
undeclared field in the unknown-field store. -/
def infoWithUnknownField : PluginInfo :=
  { PluginInfo.zero with Name := [120], unknownFields := [152, 6, 7] }


/-- A `PluginDefinition` for web services, followed by an undeclared field 99 (varint 7). -/
def definitionBytesWithUnknownField : Bytes := [32, 1, 152, 6, 7]

/-- A `PluginDefinition` whose `info` field holds `bytesWithUnknownField`: the undeclared
field lies inside the sub-message. -/
def definitionBytesWithNestedUnknownField : Bytes := [10, 6, 18, 1, 120, 152, 6, 7]

/-- A `TargetServiceName` with the entry `http`, followed by an undeclared field 99. -/
def serviceNameBytesWithUnknownField : Bytes := [10, 4, 104, 116, 116, 112, 152, 6, 7]

/-- A `TargetSoftware` with the name `x`, followed by an undeclared field 99. -/
def softwareBytesWithUnknownField : Bytes := [10, 1, 120, 152, 6, 7]

/-- A `TargetOperatingSystemClass` with accuracy 90, followed by an undeclared field 99. -/
def operatingSystemClassBytesWithUnknownField : Bytes := [24, 90, 152, 6, 7]

/-! # Theorems -/

/-! ## Lemmas on the wire primitives -/

theorem consumeVarintAux_appendVarintAux (f : Nat) :
    ∀ (v : Nat) (rest : Bytes), v < 2 ^ (7 * f + 1) →
      consumeVarintAux (f + 1) (appendVarintAux f v ++ rest)
        = some (v, (appendVarintAux f v).length) := by
  induction f with
  | zero =>
    intro v rest hv
    have hv2 : v < 2 := by simpa using hv
    have h128 : v % 128 = v := Nat.mod_eq_of_lt (by omega)
    simp only [appendVarintAux, h128, List.singleton_append, consumeVarintAux, List.length_singleton]
    rw [if_pos (by omega), if_neg (by omega)]
  | succ f ih =>
    intro v rest hv
    by_cases h : v < 128
    · simp only [appendVarintAux, if_pos h, List.singleton_append, consumeVarintAux,
        List.length_singleton]
      rw [if_neg (by omega)]
    · have hq : v / 128 < 2 ^ (7 * f + 1) := by
        have : 2 ^ (7 * (f + 1) + 1) = 128 * 2 ^ (7 * f + 1) := by
          rw [show 7 * (f + 1) + 1 = 7 + (7 * f + 1) by ring, pow_add]; norm_num
        rw [this] at hv
        exact Nat.div_lt_of_lt_mul hv
      simp only [appendVarintAux, if_neg h, List.cons_append, consumeVarintAux, List.length_cons]
      rw [if_neg (by omega), ih (v / 128) rest hq]
      simp only [Option.some.injEq, Prod.mk.injEq, and_true]
      omega

theorem consumeVarint_appendVarint (v : Nat) (rest : Bytes) (hv : v < 18446744073709551616) :
    consumeVarint (appendVarint v ++ rest) = some (v, (appendVarint v).length) := by
  unfold consumeVarint appendVarint
  exact consumeVarintAux_appendVarintAux 9 v rest (by norm_num; exact hv)

theorem appendVarintAux_length_pos (f v : Nat) : 0 < (appendVarintAux f v).length := by
  cases f with
  | zero => simp [appendVarintAux]
  | succ f =>
    unfold appendVarintAux
    split_ifs <;> simp

theorem appendVarint_length_pos (v : Nat) : 0 < (appendVarint v).length :=
  appendVarintAux_length_pos 9 v

theorem consumeVarintAux_bounds (f : Nat) :
    ∀ (b : Bytes) (v n : Nat), consumeVarintAux f b = some (v, n) → 0 < n ∧ n ≤ b.length := by
  induction f with
  | zero => intro b v n h; simp [consumeVarintAux] at h
  | succ f ih =>
    intro b v n h
    cases b with
    | nil => simp [consumeVarintAux] at h
    | cons x xs =>
      simp only [consumeVarintAux] at h
      split_ifs at h with h1 h2
      · simp only [Option.some.injEq, Prod.mk.injEq] at h
        simp only [List.length_cons]
        omega
      · cases hr : consumeVarintAux f xs with
        | none => simp [hr] at h
        | some p =>
          obtain ⟨v', n'⟩ := p
          simp only [hr, Option.some.injEq, Prod.mk.injEq] at h
          have := ih xs v' n' hr
          simp only [List.length_cons]
          omega

theorem consumeVarint_bounds (b : Bytes) (v n : Nat) (h : consumeVarint b = some (v, n)) :
    0 < n ∧ n ≤ b.length :=
  consumeVarintAux_bounds 10 b v n h

theorem consumeBytes_appendBytes (p rest : Bytes) (hp : p.length < 18446744073709551616) :
    consumeBytes (appendBytes p ++ rest) = some (p, (appendBytes p).length) := by
  unfold consumeBytes appendBytes
  rw [List.append_assoc, consumeVarint_appendVarint _ _ hp]
  simp only [List.drop_left, List.length_append]
  rw [if_neg (by omega)]
  simp

theorem appendTag_value (num typ : Nat) (htyp : typ < 8) :
    (num * 8 + typ % 8) / 8 = num ∧ (num * 8 + typ % 8) % 8 = typ := by
  omega

theorem consumeVarint_appendTag (num typ : Nat) (rest : Bytes) (hnum : num ≤ 536870911) :
    consumeVarint (appendTag num typ ++ rest)
      = some (num * 8 + typ % 8, (appendTag num typ).length) := by
  unfold appendTag
  exact consumeVarint_appendVarint _ _ (by omega)

theorem appendTag_length_pos (num typ : Nat) : 0 < (appendTag num typ).length :=
  appendVarint_length_pos _

/-! ## Lemmas on the decoding loop -/

theorem unmarshalLoop_nil {M : Type} (field : M → Nat → Nat → Bytes → FieldResult M)
    (addUnknown : M → Bytes → M) (fuel : Nat) (m : M) :
    unmarshalLoop field addUnknown fuel [] m = some m := by
  cases fuel <;> rfl

theorem unmarshalLoop_fuel {M : Type} (field : M → Nat → Nat → Bytes → FieldResult M)
    (addUnknown : M → Bytes → M) (f1 : Nat) :
    ∀ (f2 : Nat) (b : Bytes) (m : M), b.length ≤ f1 → b.length ≤ f2 →
      unmarshalLoop field addUnknown f1 b m = unmarshalLoop field addUnknown f2 b m := by
  induction f1 with
  | zero =>
    intro f2 b m h1 _
    have : b = [] := List.length_eq_zero.mp (by omega)
    subst this
    rw [unmarshalLoop_nil, unmarshalLoop_nil]
  | succ f1 ih =>
    intro f2 b m h1 h2
    cases b with
    | nil => rw [unmarshalLoop_nil, unmarshalLoop_nil]
    | cons x xs =>
      cases f2 with
      | zero => simp at h2
      | succ f2 =>
        simp only [unmarshalLoop]
        cases hc : consumeVarint (x :: xs) with
        | none => rfl
        | some p =>
          obtain ⟨tag, n⟩ := p
          have hb := consumeVarint_bounds _ _ _ hc
          have hlen : ∀ k, (((x :: xs).drop n).drop k).length ≤ f1 ∧
              (((x :: xs).drop n).drop k).length ≤ f2 := by
            intro k
            simp only [List.length_drop, List.length_cons] at *
            omega
          simp only
          split_ifs
          · rfl
          · rfl
          · cases field m (tag / 8) (tag % 8) ((x :: xs).drop n) with
            | error => rfl
            | ok m2 k => exact ih f2 _ m2 (hlen k).1 (hlen k).2
            | unknown =>
              simp only
              cases consumeFieldValue (tag / 8) (tag % 8) ((x :: xs).drop n) with
              | none => rfl
              | some k => exact ih f2 _ _ (hlen k).1 (hlen k).2

/-- One decoded field: when `field` accepts the value `enc` of the field `num`, `typ` at
the head of the input, the loop goes on with the rest and the updated message. -/
theorem unmarshalLoop_field {M : Type} (field : M → Nat → Nat → Bytes → FieldResult M)
    (addUnknown : M → Bytes → M) (num typ : Nat) (enc rest : Bytes) (m m2 : M)
    (hnum1 : 1 ≤ num) (hnum2 : num ≤ 536870911) (htyp : typ < 8) (htyp4 : typ ≠ 4)
    (hfield : field m num typ (enc ++ rest) = FieldResult.ok m2 enc.length) :
    unmarshalLoop field addUnknown (appendTag num typ ++ enc ++ rest).length
        (appendTag num typ ++ enc ++ rest) m
      = unmarshalLoop field addUnknown rest.length rest m2 := by
  have hpos := appendTag_length_pos num typ
  have hc := consumeVarint_appendTag num typ (enc ++ rest) hnum2
  have hv := appendTag_value num typ htyp
  cases ht : appendTag num typ with
  | nil => simp [ht] at hpos
  | cons x xs =>
    rw [ht] at hc
    simp only [List.cons_append, List.length_cons, List.append_assoc] at hc ⊢
    simp only [unmarshalLoop, hc, hv.1, hv.2]
    rw [if_neg (by omega), if_neg htyp4]
    have hdrop : List.drop (xs.length + 1) (x :: (xs ++ (enc ++ rest))) = enc ++ rest := by
      simp
    rw [hdrop, hfield]
    simp only [List.drop_left]
    apply unmarshalLoop_fuel
    · simp only [List.length_append]; omega
    · exact le_refl _

/-- A well-formed store of unknown fields at the end of the input is decoded back into
the store, byte for byte. -/
theorem unmarshalLoop_unknown {M : Type} (field : M → Nat → Nat → Bytes → FieldResult M)
    (addUnknown : M → Bytes → M) (declared : Nat → Nat → Bool)
    (hdecl : ∀ m num typ b, declared num typ = false → field m num typ b = FieldResult.unknown)
    (hadd0 : ∀ m, addUnknown m [] = m)
    (hadd : ∀ m u v, addUnknown (addUnknown m u) v = addUnknown m (u ++ v)) (fuel : Nat) :
    ∀ (u : Bytes) (m : M), wellFormedUnknown declared fuel u = true →
      unmarshalLoop field addUnknown fuel u m = some (addUnknown m u) := by
  induction fuel with
  | zero =>
    intro u m h
    cases u with
    | nil => rw [unmarshalLoop_nil, hadd0]
    | cons x xs => simp [wellFormedUnknown] at h
  | succ fuel ih =>
    intro u m h
    cases u with
    | nil => rw [unmarshalLoop_nil, hadd0]
    | cons x xs =>
      simp only [wellFormedUnknown] at h
      simp only [unmarshalLoop]
      cases hc : consumeVarint (x :: xs) with
      | none => simp [hc] at h
      | some p =>
        obtain ⟨tag, n⟩ := p
        simp only [hc] at h ⊢
        split_ifs at h with h1 h2 h3 h4
        rw [if_neg h1, if_neg h2]
        have hd : declared (tag / 8) (tag % 8) = false := by simpa using h3
        rw [hdecl m _ _ _ hd]
        simp only
        cases hv : consumeFieldValue (tag / 8) (tag % 8) (List.drop n (x :: xs)) with
        | none => simp [hv] at h
        | some k =>
          simp only [hv] at h ⊢
          rw [ih _ _ h, hadd]
          have htag : appendTag (tag / 8) (tag % 8) = List.take n (x :: xs) := by
            have h4' : List.take n (x :: xs) = appendVarint tag := by simpa using h4
            rw [h4']
            unfold appendTag
            congr 1
            omega
          rw [htag, List.append_assoc, List.take_append_drop, List.take_append_drop]

/-- A property of the message that every field decoder and the unknown-field store keep
holds of the decoded message. -/
theorem unmarshalLoop_invariant {M : Type} (field : M → Nat → Nat → Bytes → FieldResult M)
    (addUnknown : M → Bytes → M) (P : M → Prop)
    (hok : ∀ m num typ b m2 k, P m → field m num typ b = FieldResult.ok m2 k → P m2)
    (hadd : ∀ m u, P m → P (addUnknown m u)) (fuel : Nat) :
    ∀ (b : Bytes) (m m' : M), P m → unmarshalLoop field addUnknown fuel b m = some m' → P m' := by
  induction fuel with
  | zero =>
    intro b m m' hP h
    cases b with
    | nil => rw [unmarshalLoop_nil] at h; cases h; exact hP
    | cons x xs => simp [unmarshalLoop] at h
  | succ fuel ih =>
    intro b m m' hP h
    cases b with
    | nil => rw [unmarshalLoop_nil] at h; cases h; exact hP
    | cons x xs =>
      simp only [unmarshalLoop] at h
      cases hc : consumeVarint (x :: xs) with
      | none => simp [hc] at h
      | some p =>
        obtain ⟨tag, n⟩ := p
        simp only [hc] at h
        split_ifs at h with h1 h2
        cases hf : field m (tag / 8) (tag % 8) (List.drop n (x :: xs)) with
        | error => simp [hf] at h
        | ok m2 k =>
          simp only [hf] at h
          exact ih _ _ _ (hok _ _ _ _ _ _ hP hf) h
        | unknown =>
          simp only [hf] at h
          cases hv : consumeFieldValue (tag / 8) (tag % 8) (List.drop n (x :: xs)) with
          | none => simp [hv] at h
          | some k =>
            simp only [hv] at h
            exact ih _ _ _ (hadd _ _ hP) h

/-- What the loop stores: the decoded message holds, after what it held before, exactly
the fields of the input that have no decoder, each as its tag and the bytes of its
value. -/
theorem unmarshalLoop_stores {M : Type} (field : M → Nat → Nat → Bytes → FieldResult M)
    (addUnknown : M → Bytes → M) (declared : Nat → Nat → Bool) (unk : M → Bytes)
    (hok : ∀ m num typ b m2 k, field m num typ b = FieldResult.ok m2 k →
      consumeFieldValue num typ b = some k ∧ unk m2 = unk m ∧ declared num typ = true)
    (hunk : ∀ m num typ b, field m num typ b = FieldResult.unknown → declared num typ = false)
    (hadd : ∀ m u, unk (addUnknown m u) = unk m ++ u) (fuel : Nat) :
    ∀ (b : Bytes) (m m' : M), unmarshalLoop field addUnknown fuel b m = some m' →
      ∃ fs, rawFields fuel b = some fs ∧ unk m' = unk m ++ storedUnknown declared fs := by
  induction fuel with
  | zero =>
    intro b m m' h
    cases b with
    | nil =>
      rw [unmarshalLoop_nil] at h; cases h
      exact ⟨[], rfl, by simp [storedUnknown]⟩
    | cons x xs => simp [unmarshalLoop] at h
  | succ fuel ih =>
    intro b m m' h
    cases b with
    | nil =>
      rw [unmarshalLoop_nil] at h; cases h
      exact ⟨[], rfl, by simp [storedUnknown]⟩
    | cons x xs =>
      simp only [unmarshalLoop] at h
      simp only [rawFields]
      cases hc : consumeVarint (x :: xs) with
      | none => simp [hc] at h
      | some p =>
        obtain ⟨tag, n⟩ := p
        simp only [hc] at h ⊢
        split_ifs at h with h1 h2
        rw [if_neg h1, if_neg h2]
        cases hf : field m (tag / 8) (tag % 8) (List.drop n (x :: xs)) with
        | error => simp [hf] at h
        | ok m2 k =>
          simp only [hf] at h
          obtain ⟨hv, hu, hd⟩ := hok _ _ _ _ _ _ hf
          obtain ⟨fs, hfs, hst⟩ := ih _ _ _ h
          refine ⟨{ num := tag / 8, typ := tag % 8, raw := List.take k (List.drop n (x :: xs)) } :: fs,
            by simp only [hv, hfs], ?_⟩
          simp only [storedUnknown, hd, if_true, hst, hu]
        | unknown =>
          simp only [hf] at h
          have hd := hunk _ _ _ _ hf
          cases hv : consumeFieldValue (tag / 8) (tag % 8) (List.drop n (x :: xs)) with
          | none => simp [hv] at h
          | some k =>
            simp only [hv] at h
            obtain ⟨fs, hfs, hst⟩ := ih _ _ _ h
            refine ⟨{ num := tag / 8, typ := tag % 8, raw := List.take k (List.drop n (x :: xs)) } :: fs,
              by simp only [hfs], ?_⟩
            simp only [storedUnknown, hd, hst, hadd, List.append_assoc]
            simp

/-! ## Lemmas on the field coders -/

theorem toInt32_toUint64 (n : Int) (hlo : -2147483648 ≤ n) (hhi : n ≤ 2147483647) :
    toInt32 (toUint64 n) = n := by
  unfold toInt32 toUint64
  have h1 : (0 : Int) ≤ n % 18446744073709551616 := Int.emod_nonneg _ (by norm_num)
  have h2 : ((n % 18446744073709551616).toNat : Int) = n % 18446744073709551616 :=
    Int.toNat_of_nonneg h1
  split_ifs with h <;> omega

theorem toUint64_lt (n : Int) : toUint64 n < 18446744073709551616 := by
  unfold toUint64
  have h1 : (0 : Int) ≤ n % 18446744073709551616 := Int.emod_nonneg _ (by norm_num)
  have h3 : n % 18446744073709551616 < 18446744073709551616 := Int.emod_lt_of_pos _ (by norm_num)
  omega

theorem consumeVarintField_appendVarint (v : Nat) (rest : Bytes)
    (hv : v < 18446744073709551616) :
    consumeVarintField 0 (appendVarint v ++ rest) = FieldResult.ok v (appendVarint v).length := by
  simp [consumeVarintField, consumeVarint_appendVarint v rest hv]

theorem consumeStringField_appendBytes (s rest : Bytes) (hs : utf8Valid s = true)
    (hlen : s.length < 18446744073709551616) :
    consumeStringField 2 (appendBytes s ++ rest) = FieldResult.ok s (appendBytes s).length := by
  simp [consumeStringField, consumeBytes_appendBytes s rest hlen, hs]

theorem consumeBytesField_appendBytes (p rest : Bytes) (hlen : p.length < 18446744073709551616) :
    consumeBytesField 2 (appendBytes p ++ rest) = FieldResult.ok p (appendBytes p).length := by
  simp [consumeBytesField, consumeBytes_appendBytes p rest hlen]

theorem appendBytes_length (p : Bytes) : p.length ≤ (appendBytes p).length := by
  simp [appendBytes]

/-- A varint field at the head of the input. -/
theorem unmarshalLoop_varintField {M : Type} (field : M → Nat → Nat → Bytes → FieldResult M)
    (addUnknown : M → Bytes → M) (num v : Nat) (rest : Bytes) (m m2 : M) (g : Nat → Option M)
    (hnum1 : 1 ≤ num) (hnum2 : num ≤ 536870911) (hv : v < 18446744073709551616)
    (hfield : field m num 0 (appendVarint v ++ rest)
      = (consumeVarintField 0 (appendVarint v ++ rest)).andThen g)
    (hg : g v = some m2) :
    unmarshalLoop field addUnknown (appendTag num 0 ++ appendVarint v ++ rest).length
        (appendTag num 0 ++ appendVarint v ++ rest) m
      = unmarshalLoop field addUnknown rest.length rest m2 := by
  apply unmarshalLoop_field field addUnknown num 0 _ rest m m2 hnum1 hnum2 (by norm_num)
    (by norm_num)
  rw [hfield, consumeVarintField_appendVarint v rest hv]
  simp [FieldResult.andThen, hg]

/-- A string field at the head of the input. -/
theorem unmarshalLoop_stringField {M : Type} (field : M → Nat → Nat → Bytes → FieldResult M)
    (addUnknown : M → Bytes → M) (num : Nat) (s rest : Bytes) (m m2 : M)
    (g : GoString → Option M)
    (hnum1 : 1 ≤ num) (hnum2 : num ≤ 536870911) (hs : utf8Valid s = true)
    (hlen : s.length < 18446744073709551616)
    (hfield : field m num 2 (appendBytes s ++ rest)
      = (consumeStringField 2 (appendBytes s ++ rest)).andThen g)
    (hg : g s = some m2) :
    unmarshalLoop field addUnknown (appendTag num 2 ++ appendBytes s ++ rest).length
        (appendTag num 2 ++ appendBytes s ++ rest) m
      = unmarshalLoop field addUnknown rest.length rest m2 := by
  apply unmarshalLoop_field field addUnknown num 2 _ rest m m2 hnum1 hnum2 (by norm_num)
    (by norm_num)
  rw [hfield, consumeStringField_appendBytes s rest hs hlen]
  simp [FieldResult.andThen, hg]

/-- A sub-message field at the head of the input. -/
theorem unmarshalLoop_bytesField {M : Type} (field : M → Nat → Nat → Bytes → FieldResult M)
    (addUnknown : M → Bytes → M) (num : Nat) (p rest : Bytes) (m m2 : M)
    (g : Bytes → Option M)
    (hnum1 : 1 ≤ num) (hnum2 : num ≤ 536870911)
    (hlen : p.length < 18446744073709551616)
    (hfield : field m num 2 (appendBytes p ++ rest)
      = (consumeBytesField 2 (appendBytes p ++ rest)).andThen g)
    (hg : g p = some m2) :
    unmarshalLoop field addUnknown (appendTag num 2 ++ appendBytes p ++ rest).length
        (appendTag num 2 ++ appendBytes p ++ rest) m
      = unmarshalLoop field addUnknown rest.length rest m2 := by
  apply unmarshalLoop_field field addUnknown num 2 _ rest m m2 hnum1 hnum2 (by norm_num)
    (by norm_num)
  rw [hfield, consumeBytesField_appendBytes p rest hlen]
  simp [FieldResult.andThen, hg]

/-- The elements of a repeated string field at the head of the input. -/
theorem unmarshalLoop_strings {M : Type} (field : M → Nat → Nat → Bytes → FieldResult M)
    (addUnknown : M → Bytes → M) (num : Nat) (upd : M → GoString → M)
    (hnum1 : 1 ≤ num) (hnum2 : num ≤ 536870911)
    (hfield : ∀ m b, field m num 2 b = (consumeStringField 2 b).andThen (fun v => some (upd m v))) :
    ∀ (l : List GoString) (e rest : Bytes) (m : M), appendStrings num l = some e →
      (e ++ rest).length < 18446744073709551616 →
      unmarshalLoop field addUnknown (e ++ rest).length (e ++ rest) m
        = unmarshalLoop field addUnknown rest.length rest (l.foldl upd m) := by
  intro l
  induction l with
  | nil =>
    intro e rest m he _
    simp only [appendStrings, Option.some.injEq] at he
    subst he
    simp
  | cons s l ih =>
    intro e rest m he hlen
    simp only [appendStrings] at he
    split_ifs at he with hs
    cases hr : appendStrings num l with
    | none => simp [hr] at he
    | some r =>
      simp only [hr, Option.some.injEq] at he
      subst he
      have hlen' : (appendTag num 2).length + ((appendBytes s).length + (r.length + rest.length))
          < 18446744073709551616 := by
        simpa [List.length_append, Nat.add_assoc] using hlen
      have hsl := appendBytes_length s
      have h1 := unmarshalLoop_stringField field addUnknown num s (r ++ rest) m (upd m s)
        (fun v => some (upd m v)) hnum1 hnum2 hs (by omega) (hfield m _) rfl
      simp only [List.append_assoc] at h1 ⊢
      rw [h1]
      simp only [List.foldl_cons]
      exact ih r rest (upd m s) hr (by simp only [List.length_append]; omega)

/-! ## Lemmas on the proto3 field encoders -/

theorem appendStringNoZero_valid (num : Nat) (s : GoString) (hs : utf8Valid s = true) :
    appendStringNoZero num s
      = some (if s = [] then [] else appendTag num 2 ++ appendBytes s) := by
  unfold appendStringNoZero
  split_ifs <;> rfl

theorem appendStrings_valid (num : Nat) (l : List GoString) (hl : l.all utf8Valid = true) :
    ∃ e, appendStrings num l = some e := by
  induction l with
  | nil => exact ⟨[], rfl⟩
  | cons s l ih =>
    simp only [List.all_cons, Bool.and_eq_true] at hl
    obtain ⟨r, hr⟩ := ih hl.2
    exact ⟨appendTag num 2 ++ appendBytes s ++ r, by simp [appendStrings, hl.1, hr]⟩

theorem appendStringSlice_valid (num : Nat) (s : StringSlice) (hs : validSlice s = true) :
    ∃ e, appendStringSlice num s = some e := by
  cases s with
  | none => exact ⟨[], rfl⟩
  | some l =>
    cases l with
    | nil => simp [validSlice] at hs
    | cons a l => exact appendStrings_valid num (a :: l) hs

/-- A proto3 string field at the head of the input, present or left out as empty. -/
theorem unmarshalLoop_stringNoZero {M : Type} (field : M → Nat → Nat → Bytes → FieldResult M)
    (addUnknown : M → Bytes → M) (num : Nat) (s e rest : Bytes) (m : M) (set : GoString → M)
    (hnum1 : 1 ≤ num) (hnum2 : num ≤ 536870911) (hs : utf8Valid s = true)
    (he : appendStringNoZero num s = some e)
    (hlen : (e ++ rest).length < 18446744073709551616)
    (hfield : ∀ b, field m num 2 b = (consumeStringField 2 b).andThen (fun v => some (set v)))
    (hzero : set [] = m) :
    unmarshalLoop field addUnknown (e ++ rest).length (e ++ rest) m
      = unmarshalLoop field addUnknown rest.length rest (set s) := by
  rw [appendStringNoZero_valid num s hs] at he
  simp only [Option.some.injEq] at he
  subst he
  by_cases h : s = []
  · subst h
    simp [hzero]
  · simp only [if_neg h] at hlen ⊢
    have hsl := appendBytes_length s
    simp only [List.length_append] at hlen
    exact unmarshalLoop_stringField field addUnknown num s rest m (set s)
      (fun v => some (set v)) hnum1 hnum2 hs (by omega) (hfield _) rfl

/-- A proto3 enum field at the head of the input, present or left out as zero. -/
theorem unmarshalLoop_enumNoZero {M : Type} (field : M → Nat → Nat → Bytes → FieldResult M)
    (addUnknown : M → Bytes → M) (num : Nat) (n : Int) (rest : Bytes) (m : M) (set : Int → M)
    (hnum1 : 1 ≤ num) (hnum2 : num ≤ 536870911)
    (hlo : -2147483648 ≤ n) (hhi : n ≤ 2147483647)
    (hfield : ∀ b, field m num 0 b
      = (consumeVarintField 0 b).andThen (fun v => some (set (toInt32 v))))
    (hzero : set 0 = m) :
    unmarshalLoop field addUnknown (appendEnumNoZero num n ++ rest).length
        (appendEnumNoZero num n ++ rest) m
      = unmarshalLoop field addUnknown rest.length rest (set n) := by
  unfold appendEnumNoZero
  by_cases h : n = 0
  · subst h
    simp [hzero]
  · simp only [if_neg h]
    exact unmarshalLoop_varintField field addUnknown num (toUint64 n) rest m (set n)
      (fun v => some (set (toInt32 v))) hnum1 hnum2 (toUint64_lt n) (hfield _)
      (by simp only [toInt32_toUint64 n hlo hhi])

/-- A proto3 uint32 field at the head of the input, present or left out as zero. -/
theorem unmarshalLoop_uint32NoZero {M : Type} (field : M → Nat → Nat → Bytes → FieldResult M)
    (addUnknown : M → Bytes → M) (num n : Nat) (rest : Bytes) (m : M) (set : Nat → M)
    (hnum1 : 1 ≤ num) (hnum2 : num ≤ 536870911) (hn : n < 4294967296)
    (hfield : ∀ b, field m num 0 b
      = (consumeVarintField 0 b).andThen (fun v => some (set (toUint32 v))))
    (hzero : set 0 = m) :
    unmarshalLoop field addUnknown (appendUint32NoZero num n ++ rest).length
        (appendUint32NoZero num n ++ rest) m
      = unmarshalLoop field addUnknown rest.length rest (set n) := by
  unfold appendUint32NoZero
  by_cases h : n = 0
  · subst h
    simp [hzero]
  · simp only [if_neg h]
    exact unmarshalLoop_varintField field addUnknown num n rest m (set n)
      (fun v => some (set (toUint32 v))) hnum1 hnum2 (by omega) (hfield _)
      (by simp only [toUint32, Nat.mod_eq_of_lt hn])

/-- A proto3 bool field at the head of the input, present or left out as false. -/
theorem unmarshalLoop_boolNoZero {M : Type} (field : M → Nat → Nat → Bytes → FieldResult M)
    (addUnknown : M → Bytes → M) (num : Nat) (v : Bool) (rest : Bytes) (m : M) (set : Bool → M)
    (hnum1 : 1 ≤ num) (hnum2 : num ≤ 536870911)
    (hfield : ∀ b, field m num 0 b
      = (consumeVarintField 0 b).andThen (fun w => some (set (decide (w ≠ 0)))))
    (hzero : set false = m) :
    unmarshalLoop field addUnknown (appendBoolNoZero num v ++ rest).length
        (appendBoolNoZero num v ++ rest) m
      = unmarshalLoop field addUnknown rest.length rest (set v) := by
  unfold appendBoolNoZero
  cases v with
  | false => simp [hzero]
  | true =>
    simp only [if_true]
    exact unmarshalLoop_varintField field addUnknown num 1 rest m (set true)
      (fun w => some (set (decide (w ≠ 0)))) hnum1 hnum2 (by norm_num) (hfield _)
      (by simp)

/-- A repeated string field held in a Go slice at the head of the input. -/
theorem unmarshalLoop_stringSlice {M : Type} (field : M → Nat → Nat → Bytes → FieldResult M)
    (addUnknown : M → Bytes → M) (num : Nat) (upd : M → GoString → M)
    (hnum1 : 1 ≤ num) (hnum2 : num ≤ 536870911)
    (hfield : ∀ m b, field m num 2 b = (consumeStringField 2 b).andThen (fun v => some (upd m v)))
    (s : StringSlice) (e rest : Bytes) (m : M) (he : appendStringSlice num s = some e)
    (hlen : (e ++ rest).length < 18446744073709551616) :
    unmarshalLoop field addUnknown (e ++ rest).length (e ++ rest) m
      = unmarshalLoop field addUnknown rest.length rest ((elements s).foldl upd m) := by
  cases s with
  | none =>
    simp only [appendStringSlice, Option.some.injEq] at he
    subst he
    simp [elements]
  | some l =>
    exact unmarshalLoop_strings field addUnknown num upd hnum1 hnum2 hfield l e rest m he hlen

theorem foldl_appendSlice (l : List GoString) :
    ∀ s : StringSlice, l.foldl appendSlice s
      = match l with
        | [] => s
        | a :: r => some (elements s ++ a :: r) := by
  induction l with
  | nil => intro s; rfl
  | cons a l ih =>
    intro s
    rw [List.foldl_cons, ih]
    cases l with
    | nil => cases s <;> simp [appendSlice, elements]
    | cons b r => cases s <;> simp [appendSlice, elements]

theorem foldl_appendSlice_valid (s : StringSlice) (hs : validSlice s = true) :
    (elements s).foldl appendSlice none = s := by
  rw [foldl_appendSlice]
  cases s with
  | none => rfl
  | some l =>
    cases l with
    | nil => simp [validSlice] at hs
    | cons a r => simp [elements]

/-! ## Round trip of the four leaf messages -/

theorem PluginInfo_declared_unknown (m : PluginInfo) (num typ : Nat) (b : Bytes)
    (h : PluginInfo.declared num typ = false) :
    PluginInfo.unmarshalField m num typ b = FieldResult.unknown := by
  unfold PluginInfo.declared at h
  unfold PluginInfo.unmarshalField consumeVarintField consumeStringField
  simp only [Bool.or_eq_false_iff, Bool.and_eq_false_iff, beq_eq_false_iff_ne, ne_eq] at h
  split_ifs <;> first | rfl | (exfalso; simp_all)

theorem PluginInfo_roundTrip_ok (x : PluginInfo) (hv : x.valid = true) :
    ∃ b, x.marshal = some b ∧
      (b.length < 18446744073709551616 → PluginInfo.unmarshal b = some x) := by
  obtain ⟨ty, name, ver, desc, auth, u⟩ := x
  simp only [PluginInfo.valid, Bool.and_eq_true, decide_eq_true_eq] at hv
  obtain ⟨⟨⟨⟨⟨⟨hlo, hhi⟩, hn⟩, hver⟩, hd⟩, ha⟩, hu⟩ := hv
  obtain ⟨en, hen⟩ : ∃ e, appendStringNoZero 2 name = some e := ⟨_, appendStringNoZero_valid 2 name hn⟩
  obtain ⟨ev, hev⟩ : ∃ e, appendStringNoZero 3 ver = some e := ⟨_, appendStringNoZero_valid 3 ver hver⟩
  obtain ⟨ed, hed⟩ : ∃ e, appendStringNoZero 4 desc = some e := ⟨_, appendStringNoZero_valid 4 desc hd⟩
  obtain ⟨ea, hea⟩ : ∃ e, appendStringNoZero 5 auth = some e := ⟨_, appendStringNoZero_valid 5 auth ha⟩
  refine ⟨appendEnumNoZero 1 ty ++ en ++ ev ++ ed ++ ea ++ u, ?_, ?_⟩
  · simp only [PluginInfo.marshal, hen, hev, hed, hea]
  · intro hlen
    simp only [List.length_append] at hlen
    have h1 : unmarshalLoop PluginInfo.unmarshalField PluginInfo.addUnknown
          (appendEnumNoZero 1 ty ++ (en ++ (ev ++ (ed ++ (ea ++ u))))).length
          (appendEnumNoZero 1 ty ++ (en ++ (ev ++ (ed ++ (ea ++ u))))) PluginInfo.zero
        = unmarshalLoop PluginInfo.unmarshalField PluginInfo.addUnknown
          (en ++ (ev ++ (ed ++ (ea ++ u)))).length (en ++ (ev ++ (ed ++ (ea ++ u))))
          ⟨ty, [], [], [], [], []⟩ :=
      unmarshalLoop_enumNoZero PluginInfo.unmarshalField PluginInfo.addUnknown 1 ty _
        PluginInfo.zero (fun t => ⟨t, [], [], [], [], []⟩) (by norm_num) (by norm_num)
        hlo hhi (fun _ => rfl) rfl
    have h2 : unmarshalLoop PluginInfo.unmarshalField PluginInfo.addUnknown
          (en ++ (ev ++ (ed ++ (ea ++ u)))).length (en ++ (ev ++ (ed ++ (ea ++ u))))
          ⟨ty, [], [], [], [], []⟩
        = unmarshalLoop PluginInfo.unmarshalField PluginInfo.addUnknown
          (ev ++ (ed ++ (ea ++ u))).length (ev ++ (ed ++ (ea ++ u)))
          ⟨ty, name, [], [], [], []⟩ :=
      unmarshalLoop_stringNoZero PluginInfo.unmarshalField PluginInfo.addUnknown 2 name en _
        ⟨ty, [], [], [], [], []⟩ (fun s => ⟨ty, s, [], [], [], []⟩)
        (by norm_num) (by norm_num) hn hen (by simp only [List.length_append]; omega)
        (fun _ => rfl) rfl
    have h3 : unmarshalLoop PluginInfo.unmarshalField PluginInfo.addUnknown
          (ev ++ (ed ++ (ea ++ u))).length (ev ++ (ed ++ (ea ++ u)))
          ⟨ty, name, [], [], [], []⟩
        = unmarshalLoop PluginInfo.unmarshalField PluginInfo.addUnknown
          (ed ++ (ea ++ u)).length (ed ++ (ea ++ u)) ⟨ty, name, ver, [], [], []⟩ :=
      unmarshalLoop_stringNoZero PluginInfo.unmarshalField PluginInfo.addUnknown 3 ver ev _
        ⟨ty, name, [], [], [], []⟩ (fun s => ⟨ty, name, s, [], [], []⟩)
        (by norm_num) (by norm_num) hver hev (by simp only [List.length_append]; omega)
        (fun _ => rfl) rfl
    have h4 : unmarshalLoop PluginInfo.unmarshalField PluginInfo.addUnknown
          (ed ++ (ea ++ u)).length (ed ++ (ea ++ u)) ⟨ty, name, ver, [], [], []⟩
        = unmarshalLoop PluginInfo.unmarshalField PluginInfo.addUnknown
          (ea ++ u).length (ea ++ u) ⟨ty, name, ver, desc, [], []⟩ :=
      unmarshalLoop_stringNoZero PluginInfo.unmarshalField PluginInfo.addUnknown 4 desc ed _
        ⟨ty, name, ver, [], [], []⟩ (fun s => ⟨ty, name, ver, s, [], []⟩)
        (by norm_num) (by norm_num) hd hed (by simp only [List.length_append]; omega)
        (fun _ => rfl) rfl
    have h5 : unmarshalLoop PluginInfo.unmarshalField PluginInfo.addUnknown
          (ea ++ u).length (ea ++ u) ⟨ty, name, ver, desc, [], []⟩
        = unmarshalLoop PluginInfo.unmarshalField PluginInfo.addUnknown
          u.length u ⟨ty, name, ver, desc, auth, []⟩ :=
      unmarshalLoop_stringNoZero PluginInfo.unmarshalField PluginInfo.addUnknown 5 auth ea _
        ⟨ty, name, ver, desc, [], []⟩ (fun s => ⟨ty, name, ver, desc, s, []⟩)
        (by norm_num) (by norm_num) ha hea (by simp only [List.length_append]; omega)
        (fun _ => rfl) rfl
    have h6 : unmarshalLoop PluginInfo.unmarshalField PluginInfo.addUnknown
          u.length u ⟨ty, name, ver, desc, auth, []⟩
        = some ⟨ty, name, ver, desc, auth, u⟩ := by
      rw [unmarshalLoop_unknown PluginInfo.unmarshalField PluginInfo.addUnknown
        PluginInfo.declared PluginInfo_declared_unknown (fun _ => by simp [PluginInfo.addUnknown])
        (fun _ _ _ => by simp [PluginInfo.addUnknown]) _ u _ hu]
      simp [PluginInfo.addUnknown]
    unfold PluginInfo.unmarshal PluginInfo.unmarshalFrom
    simp only [List.append_assoc]
    rw [h1, h2, h3, h4, h5, h6]

theorem TargetServiceName_declared_unknown (m : TargetServiceName) (num typ : Nat) (b : Bytes)
    (h : TargetServiceName.declared num typ = false) :
    TargetServiceName.unmarshalField m num typ b = FieldResult.unknown := by
  unfold TargetServiceName.declared at h
  unfold TargetServiceName.unmarshalField consumeStringField
  simp only [Bool.and_eq_false_iff, beq_eq_false_iff_ne, ne_eq] at h
  split_ifs <;> first | rfl | (exfalso; simp_all)

theorem TargetServiceName_foldl_value (l : List GoString) :
    ∀ m : TargetServiceName,
      l.foldl (fun m s => { m with Value := appendSlice m.Value s }) m
        = { m with Value := l.foldl appendSlice m.Value } := by
  induction l with
  | nil => intro m; rfl
  | cons a l ih => intro m; simp only [List.foldl_cons]; rw [ih]

theorem TargetServiceName_roundTrip_ok (x : TargetServiceName) (hv : x.valid = true) :
    ∃ b, x.marshal = some b ∧
      (b.length < 18446744073709551616 → TargetServiceName.unmarshal b = some x) := by
  obtain ⟨val, u⟩ := x
  simp only [TargetServiceName.valid, Bool.and_eq_true] at hv
  obtain ⟨hval, hu⟩ := hv
  obtain ⟨e, he⟩ := appendStringSlice_valid 1 val hval
  refine ⟨e ++ u, by simp only [TargetServiceName.marshal, he], ?_⟩
  intro hlen
  have h1 := unmarshalLoop_stringSlice TargetServiceName.unmarshalField
    TargetServiceName.addUnknown 1 (fun m s => { m with Value := appendSlice m.Value s })
    (by norm_num) (by norm_num) (fun _ _ => rfl) val e u TargetServiceName.zero he hlen
  rw [TargetServiceName_foldl_value] at h1
  have hz : (elements val).foldl appendSlice TargetServiceName.zero.Value = val :=
    foldl_appendSlice_valid val hval
  rw [hz] at h1
  have h2 : unmarshalLoop TargetServiceName.unmarshalField TargetServiceName.addUnknown
        u.length u ⟨val, []⟩ = some ⟨val, u⟩ := by
    rw [unmarshalLoop_unknown TargetServiceName.unmarshalField TargetServiceName.addUnknown
      TargetServiceName.declared TargetServiceName_declared_unknown
      (fun _ => by simp [TargetServiceName.addUnknown])
      (fun _ _ _ => by simp [TargetServiceName.addUnknown]) _ u _ hu]
    simp [TargetServiceName.addUnknown]
  unfold TargetServiceName.unmarshal TargetServiceName.unmarshalFrom
  rw [h1]
  exact h2

theorem TargetSoftware_declared_unknown (m : TargetSoftware) (num typ : Nat) (b : Bytes)
    (h : TargetSoftware.declared num typ = false) :
    TargetSoftware.unmarshalField m num typ b = FieldResult.unknown := by
  unfold TargetSoftware.declared at h
  unfold TargetSoftware.unmarshalField consumeStringField
  simp only [Bool.or_eq_false_iff, Bool.and_eq_false_iff, beq_eq_false_iff_ne, ne_eq] at h
  split_ifs <;> first | rfl | (exfalso; simp_all)

theorem TargetSoftware_foldl_value (l : List GoString) :
    ∀ m : TargetSoftware,
      l.foldl (fun m s => { m with Value := appendSlice m.Value s }) m
        = { m with Value := l.foldl appendSlice m.Value } := by
  induction l with
  | nil => intro m; rfl
  | cons a l ih => intro m; simp only [List.foldl_cons]; rw [ih]

theorem TargetSoftware_roundTrip_ok (x : TargetSoftware) (hv : x.valid = true) :
    ∃ b, x.marshal = some b ∧
      (b.length < 18446744073709551616 → TargetSoftware.unmarshal b = some x) := by
  obtain ⟨name, val, u⟩ := x
  simp only [TargetSoftware.valid, Bool.and_eq_true] at hv
  obtain ⟨⟨hn, hval⟩, hu⟩ := hv
  obtain ⟨en, hen⟩ : ∃ e, appendStringNoZero 1 name = some e :=
    ⟨_, appendStringNoZero_valid 1 name hn⟩
  obtain ⟨e, he⟩ := appendStringSlice_valid 2 val hval
  refine ⟨en ++ e ++ u, by simp only [TargetSoftware.marshal, hen, he], ?_⟩
  intro hlen
  simp only [List.length_append] at hlen
  have h1 : unmarshalLoop TargetSoftware.unmarshalField TargetSoftware.addUnknown
        (en ++ (e ++ u)).length (en ++ (e ++ u)) TargetSoftware.zero
      = unmarshalLoop TargetSoftware.unmarshalField TargetSoftware.addUnknown
        (e ++ u).length (e ++ u) ⟨name, none, []⟩ :=
    unmarshalLoop_stringNoZero TargetSoftware.unmarshalField TargetSoftware.addUnknown 1 name en _
      TargetSoftware.zero (fun s => ⟨s, none, []⟩)
      (by norm_num) (by norm_num) hn hen (by simp only [List.length_append]; omega)
      (fun _ => rfl) rfl
  have h2 := unmarshalLoop_stringSlice TargetSoftware.unmarshalField
    TargetSoftware.addUnknown 2 (fun m s => { m with Value := appendSlice m.Value s })
    (by norm_num) (by norm_num) (fun _ _ => rfl) val e u ⟨name, none, []⟩ he
    (by simp only [List.length_append]; omega)
  rw [TargetSoftware_foldl_value] at h2
  have hz : (elements val).foldl appendSlice none = val := foldl_appendSlice_valid val hval
  simp only [hz] at h2
  have h3 : unmarshalLoop TargetSoftware.unmarshalField TargetSoftware.addUnknown
        u.length u ⟨name, val, []⟩ = some ⟨name, val, u⟩ := by
    rw [unmarshalLoop_unknown TargetSoftware.unmarshalField TargetSoftware.addUnknown
      TargetSoftware.declared TargetSoftware_declared_unknown
      (fun _ => by simp [TargetSoftware.addUnknown])
      (fun _ _ _ => by simp [TargetSoftware.addUnknown]) _ u _ hu]
    simp [TargetSoftware.addUnknown]
  unfold TargetSoftware.unmarshal TargetSoftware.unmarshalFrom
  simp only [List.append_assoc]
  rw [h1, h2]
  exact h3

theorem TargetOperatingSystemClass_declared_unknown (m : TargetOperatingSystemClass)
    (num typ : Nat) (b : Bytes) (h : TargetOperatingSystemClass.declared num typ = false) :
    TargetOperatingSystemClass.unmarshalField m num typ b = FieldResult.unknown := by
  unfold TargetOperatingSystemClass.declared at h
  unfold TargetOperatingSystemClass.unmarshalField consumeStringField consumeVarintField
  simp only [Bool.or_eq_false_iff, Bool.and_eq_false_iff, beq_eq_false_iff_ne, ne_eq] at h
  split_ifs <;> first | rfl | (exfalso; simp_all)

theorem TargetOperatingSystemClass_foldl_vendor (l : List GoString) :
    ∀ m : TargetOperatingSystemClass,
      l.foldl (fun m s => { m with Vendor := appendSlice m.Vendor s }) m
        = { m with Vendor := l.foldl appendSlice m.Vendor } := by
  induction l with
  | nil => intro m; rfl
  | cons a l ih => intro m; simp only [List.foldl_cons]; rw [ih]

theorem TargetOperatingSystemClass_foldl_osFamily (l : List GoString) :
    ∀ m : TargetOperatingSystemClass,
      l.foldl (fun m s => { m with OsFamily := appendSlice m.OsFamily s }) m
        = { m with OsFamily := l.foldl appendSlice m.OsFamily } := by
  induction l with
  | nil => intro m; rfl
  | cons a l ih => intro m; simp only [List.foldl_cons]; rw [ih]

theorem TargetOperatingSystemClass_roundTrip_ok (x : TargetOperatingSystemClass)
    (hv : x.valid = true) :
    ∃ b, x.marshal = some b ∧
      (b.length < 18446744073709551616 → TargetOperatingSystemClass.unmarshal b = some x) := by
  obtain ⟨ven, fam, acc, u⟩ := x
  simp only [TargetOperatingSystemClass.valid, Bool.and_eq_true, decide_eq_true_eq] at hv
  obtain ⟨⟨⟨hven, hfam⟩, hacc⟩, hu⟩ := hv
  obtain ⟨e1, he1⟩ := appendStringSlice_valid 1 ven hven
  obtain ⟨e2, he2⟩ := appendStringSlice_valid 2 fam hfam
  refine ⟨e1 ++ e2 ++ appendUint32NoZero 3 acc ++ u,
    by simp only [TargetOperatingSystemClass.marshal, he1, he2], ?_⟩
  intro hlen
  simp only [List.length_append] at hlen
  have h1 := unmarshalLoop_stringSlice TargetOperatingSystemClass.unmarshalField
    TargetOperatingSystemClass.addUnknown 1
    (fun m s => { m with Vendor := appendSlice m.Vendor s })
    (by norm_num) (by norm_num) (fun _ _ => rfl) ven e1 (e2 ++ (appendUint32NoZero 3 acc ++ u))
    TargetOperatingSystemClass.zero he1 (by simp only [List.length_append]; omega)
  rw [TargetOperatingSystemClass_foldl_vendor] at h1
  have hz1 : (elements ven).foldl appendSlice TargetOperatingSystemClass.zero.Vendor = ven :=
    foldl_appendSlice_valid ven hven
  rw [hz1] at h1
  have h2 := unmarshalLoop_stringSlice TargetOperatingSystemClass.unmarshalField
    TargetOperatingSystemClass.addUnknown 2
    (fun m s => { m with OsFamily := appendSlice m.OsFamily s })
    (by norm_num) (by norm_num) (fun _ _ => rfl) fam e2 (appendUint32NoZero 3 acc ++ u)
    ⟨ven, none, 0, []⟩ he2 (by simp only [List.length_append]; omega)
  rw [TargetOperatingSystemClass_foldl_osFamily] at h2
  have hz2 : (elements fam).foldl appendSlice none = fam := foldl_appendSlice_valid fam hfam
  simp only [hz2] at h2
  have h3 : unmarshalLoop TargetOperatingSystemClass.unmarshalField
        TargetOperatingSystemClass.addUnknown
        (appendUint32NoZero 3 acc ++ u).length (appendUint32NoZero 3 acc ++ u)
        ⟨ven, fam, 0, []⟩
      = unmarshalLoop TargetOperatingSystemClass.unmarshalField
        TargetOperatingSystemClass.addUnknown u.length u ⟨ven, fam, acc, []⟩ :=
    unmarshalLoop_uint32NoZero TargetOperatingSystemClass.unmarshalField
      TargetOperatingSystemClass.addUnknown 3 acc u ⟨ven, fam, 0, []⟩
      (fun n => ⟨ven, fam, n, []⟩) (by norm_num) (by norm_num) hacc (fun _ => rfl) rfl
  have h4 : unmarshalLoop TargetOperatingSystemClass.unmarshalField
        TargetOperatingSystemClass.addUnknown u.length u ⟨ven, fam, acc, []⟩
      = some ⟨ven, fam, acc, u⟩ := by
    rw [unmarshalLoop_unknown TargetOperatingSystemClass.unmarshalField
      TargetOperatingSystemClass.addUnknown TargetOperatingSystemClass.declared
      TargetOperatingSystemClass_declared_unknown
      (fun _ => by simp [TargetOperatingSystemClass.addUnknown])
      (fun _ _ _ => by simp [TargetOperatingSystemClass.addUnknown]) _ u _ hu]
    simp [TargetOperatingSystemClass.addUnknown]
  unfold TargetOperatingSystemClass.unmarshal TargetOperatingSystemClass.unmarshalFrom
  simp only [List.append_assoc]
  have h1' : unmarshalLoop TargetOperatingSystemClass.unmarshalField
        TargetOperatingSystemClass.addUnknown
        (e1 ++ (e2 ++ (appendUint32NoZero 3 acc ++ u))).length
        (e1 ++ (e2 ++ (appendUint32NoZero 3 acc ++ u))) TargetOperatingSystemClass.zero
      = unmarshalLoop TargetOperatingSystemClass.unmarshalField
        TargetOperatingSystemClass.addUnknown
        (e2 ++ (appendUint32NoZero 3 acc ++ u)).length
        (e2 ++ (appendUint32NoZero 3 acc ++ u)) ⟨ven, none, 0, []⟩ := h1
  rw [h1', h2, h3]
  exact h4

/-! ## Round trip of `PluginDefinition` -/

theorem appendMessage_valid {S : Type} (num : Nat) (sub : Option S) (marshalS : S → Option Bytes)
    (hsub : ∀ a, sub = some a → ∃ sb, marshalS a = some sb) :
    ∃ e, appendMessage num (sub.map marshalS) = some e := by
  cases sub with
  | none => exact ⟨[], rfl⟩
  | some a =>
    obtain ⟨sb, hsb⟩ := hsub a rfl
    exact ⟨appendTag num 2 ++ appendBytes sb, by simp [appendMessage, hsb]⟩

/-- An optional sub-message field at the head of the input, present or left out. -/
theorem unmarshalLoop_messageOpt {M S : Type} (field : M → Nat → Nat → Bytes → FieldResult M)
    (addUnknown : M → Bytes → M) (num : Nat) (sub : Option S) (marshalS : S → Option Bytes)
    (unmarshalS : Bytes → Option S) (e rest : Bytes) (m : M) (set : Option S → M)
    (hnum1 : 1 ≤ num) (hnum2 : num ≤ 536870911)
    (hsub : ∀ a, sub = some a → ∃ sb, marshalS a = some sb ∧
      (sb.length < 18446744073709551616 → unmarshalS sb = some a))
    (he : appendMessage num (sub.map marshalS) = some e)
    (hlen : (e ++ rest).length < 18446744073709551616)
    (hfield : ∀ b, field m num 2 b
      = (consumeBytesField 2 b).andThen (fun v => (unmarshalS v).map (fun i => set (some i))))
    (hzero : set none = m) :
    unmarshalLoop field addUnknown (e ++ rest).length (e ++ rest) m
      = unmarshalLoop field addUnknown rest.length rest (set sub) := by
  cases sub with
  | none =>
    simp only [Option.map_none', appendMessage, Option.some.injEq] at he
    subst he
    simp [hzero]
  | some a =>
    obtain ⟨sb, hsb, hrt⟩ := hsub a rfl
    simp only [Option.map_some', hsb, appendMessage, Option.some.injEq] at he
    subst he
    have hsl := appendBytes_length sb
    simp only [List.length_append] at hlen
    exact unmarshalLoop_bytesField field addUnknown num sb rest m (set (some a))
      (fun v => (unmarshalS v).map (fun i => set (some i))) hnum1 hnum2 (by omega) (hfield _)
      (by simp only [hrt (by omega), Option.map_some'])

theorem PluginDefinition_declared_unknown (m : PluginDefinition) (num typ : Nat) (b : Bytes)
    (h : PluginDefinition.declared num typ = false) :
    PluginDefinition.unmarshalField m num typ b = FieldResult.unknown := by
  unfold PluginDefinition.declared at h
  unfold PluginDefinition.unmarshalField consumeBytesField consumeVarintField
  simp only [Bool.or_eq_false_iff, Bool.and_eq_false_iff, beq_eq_false_iff_ne, ne_eq] at h
  split_ifs <;> first | rfl | (exfalso; simp_all)

theorem validOpt_roundTrip {S : Type} (valid : S → Bool) (marshalS : S → Option Bytes)
    (unmarshalS : Bytes → Option S)
    (hrt : ∀ a, valid a = true → ∃ sb, marshalS a = some sb ∧
      (sb.length < 18446744073709551616 → unmarshalS sb = some a))
    (sub : Option S) (hv : validOpt valid sub = true) :
    ∀ a, sub = some a → ∃ sb, marshalS a = some sb ∧
      (sb.length < 18446744073709551616 → unmarshalS sb = some a) := by
  intro a ha
  subst ha
  exact hrt a hv

theorem PluginDefinition_roundTrip_ok (x : PluginDefinition) (hv : x.valid = true) :
    ∃ b, x.marshal = some b ∧
      (b.length < 18446744073709551616 → PluginDefinition.unmarshal b = some x) := by
  obtain ⟨info, sn, sw, web, os, u⟩ := x
  simp only [PluginDefinition.valid, Bool.and_eq_true] at hv
  obtain ⟨⟨⟨⟨hi, hsn⟩, hsw⟩, hos⟩, hu⟩ := hv
  have ri := validOpt_roundTrip PluginInfo.valid PluginInfo.marshal PluginInfo.unmarshal
    PluginInfo_roundTrip_ok info hi
  have rsn := validOpt_roundTrip TargetServiceName.valid TargetServiceName.marshal
    TargetServiceName.unmarshal TargetServiceName_roundTrip_ok sn hsn
  have rsw := validOpt_roundTrip TargetSoftware.valid TargetSoftware.marshal
    TargetSoftware.unmarshal TargetSoftware_roundTrip_ok sw hsw
  have ros := validOpt_roundTrip TargetOperatingSystemClass.valid
    TargetOperatingSystemClass.marshal TargetOperatingSystemClass.unmarshal
    TargetOperatingSystemClass_roundTrip_ok os hos
  obtain ⟨ei, hei⟩ := appendMessage_valid 1 info PluginInfo.marshal
    (fun a ha => (ri a ha).imp (fun _ h => h.1))
  obtain ⟨esn, hesn⟩ := appendMessage_valid 2 sn TargetServiceName.marshal
    (fun a ha => (rsn a ha).imp (fun _ h => h.1))
  obtain ⟨esw, hesw⟩ := appendMessage_valid 3 sw TargetSoftware.marshal
    (fun a ha => (rsw a ha).imp (fun _ h => h.1))
  obtain ⟨eos, heos⟩ := appendMessage_valid 5 os TargetOperatingSystemClass.marshal
    (fun a ha => (ros a ha).imp (fun _ h => h.1))
  refine ⟨ei ++ esn ++ esw ++ appendBoolNoZero 4 web ++ eos ++ u,
    by simp only [PluginDefinition.marshal, hei, hesn, hesw, heos], ?_⟩
  intro hlen
  simp only [List.length_append] at hlen
  have h1 : unmarshalLoop PluginDefinition.unmarshalField PluginDefinition.addUnknown
        (ei ++ (esn ++ (esw ++ (appendBoolNoZero 4 web ++ (eos ++ u))))).length
        (ei ++ (esn ++ (esw ++ (appendBoolNoZero 4 web ++ (eos ++ u))))) PluginDefinition.zero
      = unmarshalLoop PluginDefinition.unmarshalField PluginDefinition.addUnknown
        (esn ++ (esw ++ (appendBoolNoZero 4 web ++ (eos ++ u)))).length
        (esn ++ (esw ++ (appendBoolNoZero 4 web ++ (eos ++ u))))
        ⟨info, none, none, false, none, []⟩ :=
    unmarshalLoop_messageOpt PluginDefinition.unmarshalField PluginDefinition.addUnknown 1 info
      PluginInfo.marshal PluginInfo.unmarshal ei _ PluginDefinition.zero
      (fun i => ⟨i, none, none, false, none, []⟩) (by norm_num) (by norm_num) ri hei
      (by simp only [List.length_append]; omega) (fun _ => rfl) rfl
  have h2 : unmarshalLoop PluginDefinition.unmarshalField PluginDefinition.addUnknown
        (esn ++ (esw ++ (appendBoolNoZero 4 web ++ (eos ++ u)))).length
        (esn ++ (esw ++ (appendBoolNoZero 4 web ++ (eos ++ u))))
        ⟨info, none, none, false, none, []⟩
      = unmarshalLoop PluginDefinition.unmarshalField PluginDefinition.addUnknown
        (esw ++ (appendBoolNoZero 4 web ++ (eos ++ u))).length
        (esw ++ (appendBoolNoZero 4 web ++ (eos ++ u)))
        ⟨info, sn, none, false, none, []⟩ :=
    unmarshalLoop_messageOpt PluginDefinition.unmarshalField PluginDefinition.addUnknown 2 sn
      TargetServiceName.marshal TargetServiceName.unmarshal esn _
      ⟨info, none, none, false, none, []⟩
      (fun i => ⟨info, i, none, false, none, []⟩) (by norm_num) (by norm_num) rsn hesn
      (by simp only [List.length_append]; omega) (fun _ => rfl) rfl
  have h3 : unmarshalLoop PluginDefinition.unmarshalField PluginDefinition.addUnknown
        (esw ++ (appendBoolNoZero 4 web ++ (eos ++ u))).length
        (esw ++ (appendBoolNoZero 4 web ++ (eos ++ u)))
        ⟨info, sn, none, false, none, []⟩
      = unmarshalLoop PluginDefinition.unmarshalField PluginDefinition.addUnknown
        (appendBoolNoZero 4 web ++ (eos ++ u)).length
        (appendBoolNoZero 4 web ++ (eos ++ u))
        ⟨info, sn, sw, false, none, []⟩ :=
    unmarshalLoop_messageOpt PluginDefinition.unmarshalField PluginDefinition.addUnknown 3 sw
      TargetSoftware.marshal TargetSoftware.unmarshal esw _
      ⟨info, sn, none, false, none, []⟩
      (fun i => ⟨info, sn, i, false, none, []⟩) (by norm_num) (by norm_num) rsw hesw
      (by simp only [List.length_append]; omega) (fun _ => rfl) rfl
  have h4 : unmarshalLoop PluginDefinition.unmarshalField PluginDefinition.addUnknown
        (appendBoolNoZero 4 web ++ (eos ++ u)).length
        (appendBoolNoZero 4 web ++ (eos ++ u))
        ⟨info, sn, sw, false, none, []⟩
      = unmarshalLoop PluginDefinition.unmarshalField PluginDefinition.addUnknown
        (eos ++ u).length (eos ++ u) ⟨info, sn, sw, web, none, []⟩ :=
    unmarshalLoop_boolNoZero PluginDefinition.unmarshalField PluginDefinition.addUnknown 4 web _
      ⟨info, sn, sw, false, none, []⟩ (fun w => ⟨info, sn, sw, w, none, []⟩)
      (by norm_num) (by norm_num) (fun _ => rfl) rfl
  have h5 : unmarshalLoop PluginDefinition.unmarshalField PluginDefinition.addUnknown
        (eos ++ u).length (eos ++ u) ⟨info, sn, sw, web, none, []⟩
      = unmarshalLoop PluginDefinition.unmarshalField PluginDefinition.addUnknown
        u.length u ⟨info, sn, sw, web, os, []⟩ :=
    unmarshalLoop_messageOpt PluginDefinition.unmarshalField PluginDefinition.addUnknown 5 os
      TargetOperatingSystemClass.marshal TargetOperatingSystemClass.unmarshal eos _
      ⟨info, sn, sw, web, none, []⟩
      (fun i => ⟨info, sn, sw, web, i, []⟩) (by norm_num) (by norm_num) ros heos
      (by simp only [List.length_append]; omega) (fun _ => rfl) rfl
  have h6 : unmarshalLoop PluginDefinition.unmarshalField PluginDefinition.addUnknown
        u.length u ⟨info, sn, sw, web, os, []⟩ = some ⟨info, sn, sw, web, os, u⟩ := by
    rw [unmarshalLoop_unknown PluginDefinition.unmarshalField PluginDefinition.addUnknown
      PluginDefinition.declared PluginDefinition_declared_unknown
      (fun _ => by simp [PluginDefinition.addUnknown])
      (fun _ _ _ => by simp [PluginDefinition.addUnknown]) _ u _ hu]
    simp [PluginDefinition.addUnknown]
  unfold PluginDefinition.unmarshal PluginDefinition.unmarshalFrom
  simp only [List.append_assoc]
  rw [h1, h2, h3, h4, h5, h6]

/-! ## What the field decoders read -/

theorem FieldResult.andThen_ok {A M : Type} (r : FieldResult A) (f : A → Option M) (m : M)
    (n : Nat) (h : r.andThen f = FieldResult.ok m n) :
    ∃ a, r = FieldResult.ok a n ∧ f a = some m := by
  cases r with
  | ok a k =>
    simp only [FieldResult.andThen] at h
    cases hf : f a with
    | none => simp [hf] at h
    | some m' =>
      simp only [hf, FieldResult.ok.injEq] at h
      exact ⟨a, by rw [h.2], by rw [hf, h.1]⟩
  | unknown => simp [FieldResult.andThen] at h
  | error => simp [FieldResult.andThen] at h

theorem FieldResult.andThen_unknown {A M : Type} (r : FieldResult A) (f : A → Option M)
    (h : r.andThen f = FieldResult.unknown) : r = FieldResult.unknown := by
  cases r with
  | ok a k =>
    simp only [FieldResult.andThen] at h
    cases hf : f a <;> simp [hf] at h
  | unknown => rfl
  | error => simp [FieldResult.andThen] at h

theorem consumeVarintField_ok (wtyp : Nat) (b : Bytes) (v n : Nat)
    (h : consumeVarintField wtyp b = FieldResult.ok v n) :
    wtyp = 0 ∧ consumeVarint b = some (v, n) := by
  unfold consumeVarintField at h
  split_ifs at h with hw
  cases hc : consumeVarint b with
  | none => simp [hc] at h
  | some p =>
    obtain ⟨v', n'⟩ := p
    simp only [hc, FieldResult.ok.injEq] at h
    exact ⟨hw, by rw [h.1, h.2]⟩

theorem consumeVarintField_unknown (wtyp : Nat) (b : Bytes)
    (h : consumeVarintField wtyp b = FieldResult.unknown) : wtyp ≠ 0 := by
  unfold consumeVarintField at h
  split_ifs at h with hw
  · cases hc : consumeVarint b with
    | none => simp [hc] at h
    | some p => simp [hc] at h
  · exact hw

theorem consumeStringField_ok (wtyp : Nat) (b v : Bytes) (n : Nat)
    (h : consumeStringField wtyp b = FieldResult.ok v n) :
    wtyp = 2 ∧ utf8Valid v = true ∧ consumeBytes b = some (v, n) := by
  unfold consumeStringField at h
  split_ifs at h with hw
  cases hc : consumeBytes b with
  | none => simp [hc] at h
  | some p =>
    obtain ⟨v', n'⟩ := p
    simp only [hc] at h
    split_ifs at h with hu
    simp only [FieldResult.ok.injEq] at h
    exact ⟨hw, by rw [← h.1]; exact hu, by rw [h.1, h.2]⟩

theorem consumeStringField_unknown (wtyp : Nat) (b : Bytes)
    (h : consumeStringField wtyp b = FieldResult.unknown) : wtyp ≠ 2 := by
  unfold consumeStringField at h
  split_ifs at h with hw
  · cases hc : consumeBytes b with
    | none => simp [hc] at h
    | some p =>
      simp only [hc] at h
      split_ifs at h
  · exact hw

theorem consumeBytesField_ok (wtyp : Nat) (b v : Bytes) (n : Nat)
    (h : consumeBytesField wtyp b = FieldResult.ok v n) :
    wtyp = 2 ∧ consumeBytes b = some (v, n) := by
  unfold consumeBytesField at h
  split_ifs at h with hw
  cases hc : consumeBytes b with
  | none => simp [hc] at h
  | some p =>
    obtain ⟨v', n'⟩ := p
    simp only [hc, FieldResult.ok.injEq] at h
    exact ⟨hw, by rw [h.1, h.2]⟩

theorem consumeBytesField_unknown (wtyp : Nat) (b : Bytes)
    (h : consumeBytesField wtyp b = FieldResult.unknown) : wtyp ≠ 2 := by
  unfold consumeBytesField at h
  split_ifs at h with hw
  · cases hc : consumeBytes b with
    | none => simp [hc] at h
    | some p => simp [hc] at h
  · exact hw

theorem consumeFieldValue_varint (num : Nat) (b : Bytes) (v n : Nat)
    (h : consumeVarint b = some (v, n)) : consumeFieldValue num 0 b = some n := by
  simp [consumeFieldValue, consumeScalarValue, h]

theorem consumeFieldValue_bytes (num : Nat) (b v : Bytes) (n : Nat)
    (h : consumeBytes b = some (v, n)) : consumeFieldValue num 2 b = some n := by
  simp [consumeFieldValue, consumeScalarValue, h]

/-- What a string field decoder answers, in one statement. -/
theorem stringField_ok {M : Type} (wtyp : Nat) (b : Bytes) (g : GoString → M) (m2 : M)
    (k num : Nat)
    (h : (consumeStringField wtyp b).andThen (fun v => some (g v)) = FieldResult.ok m2 k) :
    ∃ v, wtyp = 2 ∧ utf8Valid v = true ∧ m2 = g v ∧ consumeFieldValue num wtyp b = some k := by
  obtain ⟨v, hr, hg⟩ := FieldResult.andThen_ok _ _ _ _ h
  obtain ⟨hw, hu, hc⟩ := consumeStringField_ok _ _ _ _ hr
  subst hw
  simp only [Option.some.injEq] at hg
  exact ⟨v, rfl, hu, hg.symm, consumeFieldValue_bytes num b v k hc⟩

/-- What a varint field decoder answers, in one statement. -/
theorem varintField_ok {M : Type} (wtyp : Nat) (b : Bytes) (g : Nat → M) (m2 : M) (k num : Nat)
    (h : (consumeVarintField wtyp b).andThen (fun v => some (g v)) = FieldResult.ok m2 k) :
    ∃ v, wtyp = 0 ∧ m2 = g v ∧ consumeFieldValue num wtyp b = some k := by
  obtain ⟨v, hr, hg⟩ := FieldResult.andThen_ok _ _ _ _ h
  obtain ⟨hw, hc⟩ := consumeVarintField_ok _ _ _ _ hr
  subst hw
  simp only [Option.some.injEq] at hg
  exact ⟨v, rfl, hg.symm, consumeFieldValue_varint num b v k hc⟩

/-- What a sub-message field decoder answers, in one statement. -/
theorem bytesField_ok {M : Type} (wtyp : Nat) (b : Bytes) (g : Bytes → Option M) (m2 : M)
    (k num : Nat)
    (h : (consumeBytesField wtyp b).andThen g = FieldResult.ok m2 k) :
    ∃ v, wtyp = 2 ∧ g v = some m2 ∧ consumeFieldValue num wtyp b = some k := by
  obtain ⟨v, hr, hg⟩ := FieldResult.andThen_ok _ _ _ _ h
  obtain ⟨hw, hc⟩ := consumeBytesField_ok _ _ _ _ hr
  subst hw
  exact ⟨v, rfl, hg, consumeFieldValue_bytes num b v k hc⟩

theorem validTexts_appendSlice (s : StringSlice) (v : GoString) (hs : validTexts s = true)
    (hv : utf8Valid v = true) : validTexts (appendSlice s v) = true := by
  cases s with
  | none => simp [validTexts, appendSlice, elements, hv]
  | some l =>
    simp only [validTexts, elements] at hs
    simp [validTexts, appendSlice, elements, hv, List.all_append, hs]

theorem appendStringSlice_texts (num : Nat) (s : StringSlice) (hs : validTexts s = true) :
    ∃ e, appendStringSlice num s = some e := by
  cases s with
  | none => exact ⟨[], rfl⟩
  | some l => exact appendStrings_valid num l hs

theorem storedUnknown_mem (declared : Nat → Nat → Bool) (fs : List RawField) (f : RawField)
    (hf : f ∈ fs) (hd : declared f.num f.typ = false) :
    ∃ pre post, storedUnknown declared fs = pre ++ (appendTag f.num f.typ ++ f.raw) ++ post := by
  induction fs with
  | nil => simp at hf
  | cons g fs ih =>
    rcases List.mem_cons.mp hf with h | h
    · subst h
      exact ⟨[], storedUnknown declared fs, by simp [storedUnknown, hd]⟩
    · obtain ⟨pre, post, hpp⟩ := ih h
      by_cases hg : declared g.num g.typ = true
      · exact ⟨pre, post, by simp [storedUnknown, hg, hpp]⟩
      · exact ⟨appendTag g.num g.typ ++ g.raw ++ pre, post, by simp [storedUnknown, hg, hpp]⟩

/-! ## What decoding stores, message by message -/

theorem PluginInfo_field_ok (m : PluginInfo) (num typ : Nat) (b : Bytes) (m2 : PluginInfo)
    (k : Nat) (h : PluginInfo.unmarshalField m num typ b = FieldResult.ok m2 k) :
    consumeFieldValue num typ b = some k ∧ m2.unknownFields = m.unknownFields ∧
      PluginInfo.declared num typ = true ∧ (m.textsValid = true → m2.textsValid = true) := by
  unfold PluginInfo.unmarshalField at h
  split_ifs at h with h1 h2 h3 h4 h5
  · obtain ⟨v, hw, hm, hc⟩ := varintField_ok typ b _ m2 k num h
    subst hm hw h1
    exact ⟨hc, rfl, rfl, fun ht => ht⟩
  · obtain ⟨v, hw, hu, hm, hc⟩ := stringField_ok typ b _ m2 k num h
    subst hm hw h2
    refine ⟨hc, rfl, rfl, fun ht => ?_⟩
    simp only [PluginInfo.textsValid, Bool.and_eq_true] at ht ⊢
    exact ⟨⟨⟨hu, ht.1.1.2⟩, ht.1.2⟩, ht.2⟩
  · obtain ⟨v, hw, hu, hm, hc⟩ := stringField_ok typ b _ m2 k num h
    subst hm hw h3
    refine ⟨hc, rfl, rfl, fun ht => ?_⟩
    simp only [PluginInfo.textsValid, Bool.and_eq_true] at ht ⊢
    exact ⟨⟨⟨ht.1.1.1, hu⟩, ht.1.2⟩, ht.2⟩
  · obtain ⟨v, hw, hu, hm, hc⟩ := stringField_ok typ b _ m2 k num h
    subst hm hw h4
    refine ⟨hc, rfl, rfl, fun ht => ?_⟩
    simp only [PluginInfo.textsValid, Bool.and_eq_true] at ht ⊢
    exact ⟨⟨ht.1.1, hu⟩, ht.2⟩
  · obtain ⟨v, hw, hu, hm, hc⟩ := stringField_ok typ b _ m2 k num h
    subst hm hw h5
    refine ⟨hc, rfl, rfl, fun ht => ?_⟩
    simp only [PluginInfo.textsValid, Bool.and_eq_true] at ht ⊢
    exact ⟨ht.1, hu⟩

theorem PluginInfo_field_unknown (m : PluginInfo) (num typ : Nat) (b : Bytes)
    (h : PluginInfo.unmarshalField m num typ b = FieldResult.unknown) :
    PluginInfo.declared num typ = false := by
  unfold PluginInfo.unmarshalField at h
  unfold PluginInfo.declared
  split_ifs at h with h1 h2 h3 h4 h5
  · have := consumeVarintField_unknown _ _ (FieldResult.andThen_unknown _ _ h)
    simp [h1, this]
  · have := consumeStringField_unknown _ _ (FieldResult.andThen_unknown _ _ h)
    simp [h2, this]
  · have := consumeStringField_unknown _ _ (FieldResult.andThen_unknown _ _ h)
    simp [h3, this]
  · have := consumeStringField_unknown _ _ (FieldResult.andThen_unknown _ _ h)
    simp [h4, this]
  · have := consumeStringField_unknown _ _ (FieldResult.andThen_unknown _ _ h)
    simp [h5, this]
  · simp [h1, h2, h3, h4, h5]

theorem PluginInfo_marshal_texts (m : PluginInfo) (ht : m.textsValid = true) :
    ∃ known, m.marshal = some (known ++ m.unknownFields) := by
  simp only [PluginInfo.textsValid, Bool.and_eq_true] at ht
  obtain ⟨⟨⟨h1, h2⟩, h3⟩, h4⟩ := ht
  obtain ⟨en, hen⟩ : ∃ e, appendStringNoZero 2 m.Name = some e :=
    ⟨_, appendStringNoZero_valid 2 _ h1⟩
  obtain ⟨ev, hev⟩ : ∃ e, appendStringNoZero 3 m.Version = some e :=
    ⟨_, appendStringNoZero_valid 3 _ h2⟩
  obtain ⟨ed, hed⟩ : ∃ e, appendStringNoZero 4 m.Description = some e :=
    ⟨_, appendStringNoZero_valid 4 _ h3⟩
  obtain ⟨ea, hea⟩ : ∃ e, appendStringNoZero 5 m.Author = some e :=
    ⟨_, appendStringNoZero_valid 5 _ h4⟩
  exact ⟨appendEnumNoZero 1 m.Type_ ++ en ++ ev ++ ed ++ ea,
    by simp only [PluginInfo.marshal, hen, hev, hed, hea]⟩

/-- Decoding into a `PluginInfo` keeps its texts UTF-8 and stores exactly the fields
without decoder. -/
theorem PluginInfo_unmarshalFrom_stores (b : Bytes) (m m' : PluginInfo)
    (h : PluginInfo.unmarshalFrom b m = some m') :
    (m.textsValid = true → m'.textsValid = true) ∧
    ∃ fs, rawFields b.length b = some fs ∧
      m'.unknownFields = m.unknownFields ++ storedUnknown PluginInfo.declared fs := by
  unfold PluginInfo.unmarshalFrom at h
  refine ⟨fun ht => ?_, ?_⟩
  · exact unmarshalLoop_invariant PluginInfo.unmarshalField PluginInfo.addUnknown
      (fun x => x.textsValid = true)
      (fun m num typ b m2 k hP hf => (PluginInfo_field_ok m num typ b m2 k hf).2.2.2 hP)
      (fun m u hP => hP) _ b m m' ht h
  · exact unmarshalLoop_stores PluginInfo.unmarshalField PluginInfo.addUnknown
      PluginInfo.declared (fun x => x.unknownFields)
      (fun m num typ b m2 k hf =>
        ⟨(PluginInfo_field_ok m num typ b m2 k hf).1, (PluginInfo_field_ok m num typ b m2 k hf).2.1,
          (PluginInfo_field_ok m num typ b m2 k hf).2.2.1⟩)
      PluginInfo_field_unknown (fun _ _ => rfl) _ b m m' h

theorem TargetServiceName_field_ok (m : TargetServiceName) (num typ : Nat) (b : Bytes)
    (m2 : TargetServiceName) (k : Nat)
    (h : TargetServiceName.unmarshalField m num typ b = FieldResult.ok m2 k) :
    consumeFieldValue num typ b = some k ∧ m2.unknownFields = m.unknownFields ∧
      TargetServiceName.declared num typ = true ∧
      (m.textsValid = true → m2.textsValid = true) := by
  unfold TargetServiceName.unmarshalField at h
  split_ifs at h with h1
  obtain ⟨v, hw, hu, hm, hc⟩ := stringField_ok typ b _ m2 k num h
  subst hm hw h1
  exact ⟨hc, rfl, rfl, fun ht => validTexts_appendSlice _ _ ht hu⟩

theorem TargetServiceName_field_unknown (m : TargetServiceName) (num typ : Nat) (b : Bytes)
    (h : TargetServiceName.unmarshalField m num typ b = FieldResult.unknown) :
    TargetServiceName.declared num typ = false := by
  unfold TargetServiceName.unmarshalField at h
  unfold TargetServiceName.declared
  split_ifs at h with h1
  · have := consumeStringField_unknown _ _ (FieldResult.andThen_unknown _ _ h)
    simp [h1, this]
  · simp [h1]

theorem TargetServiceName_marshal_texts (m : TargetServiceName) (ht : m.textsValid = true) :
    ∃ known, m.marshal = some (known ++ m.unknownFields) := by
  obtain ⟨e, he⟩ := appendStringSlice_texts 1 m.Value ht
  exact ⟨e, by simp only [TargetServiceName.marshal, he]⟩

/-- Decoding into a `TargetServiceName` keeps its texts UTF-8 and stores exactly the
fields without decoder. -/
theorem TargetServiceName_unmarshalFrom_stores (b : Bytes) (m m' : TargetServiceName)
    (h : TargetServiceName.unmarshalFrom b m = some m') :
    (m.textsValid = true → m'.textsValid = true) ∧
    ∃ fs, rawFields b.length b = some fs ∧
      m'.unknownFields = m.unknownFields ++ storedUnknown TargetServiceName.declared fs := by
  unfold TargetServiceName.unmarshalFrom at h
  refine ⟨fun ht => ?_, ?_⟩
  · exact unmarshalLoop_invariant TargetServiceName.unmarshalField TargetServiceName.addUnknown
      (fun x => x.textsValid = true)
      (fun m num typ b m2 k hP hf => (TargetServiceName_field_ok m num typ b m2 k hf).2.2.2 hP)
      (fun m u hP => hP) _ b m m' ht h
  · exact unmarshalLoop_stores TargetServiceName.unmarshalField TargetServiceName.addUnknown
      TargetServiceName.declared (fun x => x.unknownFields)
      (fun m num typ b m2 k hf =>
        ⟨(TargetServiceName_field_ok m num typ b m2 k hf).1,
          (TargetServiceName_field_ok m num typ b m2 k hf).2.1,
          (TargetServiceName_field_ok m num typ b m2 k hf).2.2.1⟩)
      TargetServiceName_field_unknown (fun _ _ => rfl) _ b m m' h

theorem TargetSoftware_field_ok (m : TargetSoftware) (num typ : Nat) (b : Bytes)
    (m2 : TargetSoftware) (k : Nat)
    (h : TargetSoftware.unmarshalField m num typ b = FieldResult.ok m2 k) :
    consumeFieldValue num typ b = some k ∧ m2.unknownFields = m.unknownFields ∧
      TargetSoftware.declared num typ = true ∧
      (m.textsValid = true → m2.textsValid = true) := by
  unfold TargetSoftware.unmarshalField at h
  split_ifs at h with h1 h2
  · obtain ⟨v, hw, hu, hm, hc⟩ := stringField_ok typ b _ m2 k num h
    subst hm hw h1
    refine ⟨hc, rfl, rfl, fun ht => ?_⟩
    simp only [TargetSoftware.textsValid, Bool.and_eq_true] at ht ⊢
    exact ⟨hu, ht.2⟩
  · obtain ⟨v, hw, hu, hm, hc⟩ := stringField_ok typ b _ m2 k num h
    subst hm hw h2
    refine ⟨hc, rfl, rfl, fun ht => ?_⟩
    simp only [TargetSoftware.textsValid, Bool.and_eq_true] at ht ⊢
    exact ⟨ht.1, validTexts_appendSlice _ _ ht.2 hu⟩

theorem TargetSoftware_field_unknown (m : TargetSoftware) (num typ : Nat) (b : Bytes)
    (h : TargetSoftware.unmarshalField m num typ b = FieldResult.unknown) :
    TargetSoftware.declared num typ = false := by
  unfold TargetSoftware.unmarshalField at h
  unfold TargetSoftware.declared
  split_ifs at h with h1 h2
  · have := consumeStringField_unknown _ _ (FieldResult.andThen_unknown _ _ h)
    simp [h1, this]
  · have := consumeStringField_unknown _ _ (FieldResult.andThen_unknown _ _ h)
    simp [h2, this]
  · simp [h1, h2]

theorem TargetSoftware_marshal_texts (m : TargetSoftware) (ht : m.textsValid = true) :
    ∃ known, m.marshal = some (known ++ m.unknownFields) := by
  simp only [TargetSoftware.textsValid, Bool.and_eq_true] at ht
  obtain ⟨en, hen⟩ : ∃ e, appendStringNoZero 1 m.Name = some e :=
    ⟨_, appendStringNoZero_valid 1 _ ht.1⟩
  obtain ⟨e, he⟩ := appendStringSlice_texts 2 m.Value ht.2
  exact ⟨en ++ e, by simp only [TargetSoftware.marshal, hen, he]⟩

/-- Decoding into a `TargetSoftware` keeps its texts UTF-8 and stores exactly the fields
without decoder. -/
theorem TargetSoftware_unmarshalFrom_stores (b : Bytes) (m m' : TargetSoftware)
    (h : TargetSoftware.unmarshalFrom b m = some m') :
    (m.textsValid = true → m'.textsValid = true) ∧
    ∃ fs, rawFields b.length b = some fs ∧
      m'.unknownFields = m.unknownFields ++ storedUnknown TargetSoftware.declared fs := by
  unfold TargetSoftware.unmarshalFrom at h
  refine ⟨fun ht => ?_, ?_⟩
  · exact unmarshalLoop_invariant TargetSoftware.unmarshalField TargetSoftware.addUnknown
      (fun x => x.textsValid = true)
      (fun m num typ b m2 k hP hf => (TargetSoftware_field_ok m num typ b m2 k hf).2.2.2 hP)
      (fun m u hP => hP) _ b m m' ht h
  · exact unmarshalLoop_stores TargetSoftware.unmarshalField TargetSoftware.addUnknown
      TargetSoftware.declared (fun x => x.unknownFields)
      (fun m num typ b m2 k hf =>
        ⟨(TargetSoftware_field_ok m num typ b m2 k hf).1,
          (TargetSoftware_field_ok m num typ b m2 k hf).2.1,
          (TargetSoftware_field_ok m num typ b m2 k hf).2.2.1⟩)
      TargetSoftware_field_unknown (fun _ _ => rfl) _ b m m' h

theorem TargetOperatingSystemClass_field_ok (m : TargetOperatingSystemClass) (num typ : Nat)
    (b : Bytes) (m2 : TargetOperatingSystemClass) (k : Nat)
    (h : TargetOperatingSystemClass.unmarshalField m num typ b = FieldResult.ok m2 k) :
    consumeFieldValue num typ b = some k ∧ m2.unknownFields = m.unknownFields ∧
      TargetOperatingSystemClass.declared num typ = true ∧
      (m.textsValid = true → m2.textsValid = true) := by
  unfold TargetOperatingSystemClass.unmarshalField at h
  split_ifs at h with h1 h2 h3
  · obtain ⟨v, hw, hu, hm, hc⟩ := stringField_ok typ b _ m2 k num h
    subst hm hw h1
    refine ⟨hc, rfl, rfl, fun ht => ?_⟩
    simp only [TargetOperatingSystemClass.textsValid, Bool.and_eq_true] at ht ⊢
    exact ⟨validTexts_appendSlice _ _ ht.1 hu, ht.2⟩
  · obtain ⟨v, hw, hu, hm, hc⟩ := stringField_ok typ b _ m2 k num h
    subst hm hw h2
    refine ⟨hc, rfl, rfl, fun ht => ?_⟩
    simp only [TargetOperatingSystemClass.textsValid, Bool.and_eq_true] at ht ⊢
    exact ⟨ht.1, validTexts_appendSlice _ _ ht.2 hu⟩
  · obtain ⟨v, hw, hm, hc⟩ := varintField_ok typ b _ m2 k num h
    subst hm hw h3
    exact ⟨hc, rfl, rfl, fun ht => ht⟩

theorem TargetOperatingSystemClass_field_unknown (m : TargetOperatingSystemClass)
    (num typ : Nat) (b : Bytes)
    (h : TargetOperatingSystemClass.unmarshalField m num typ b = FieldResult.unknown) :
    TargetOperatingSystemClass.declared num typ = false := by
  unfold TargetOperatingSystemClass.unmarshalField at h
  unfold TargetOperatingSystemClass.declared
  split_ifs at h with h1 h2 h3
  · have := consumeStringField_unknown _ _ (FieldResult.andThen_unknown _ _ h)
    simp [h1, this]
  · have := consumeStringField_unknown _ _ (FieldResult.andThen_unknown _ _ h)
    simp [h2, this]
  · have := consumeVarintField_unknown _ _ (FieldResult.andThen_unknown _ _ h)
    simp [h3, this]
  · simp [h1, h2, h3]

theorem TargetOperatingSystemClass_marshal_texts (m : TargetOperatingSystemClass)
    (ht : m.textsValid = true) : ∃ known, m.marshal = some (known ++ m.unknownFields) := by
  simp only [TargetOperatingSystemClass.textsValid, Bool.and_eq_true] at ht
  obtain ⟨e1, he1⟩ := appendStringSlice_texts 1 m.Vendor ht.1
  obtain ⟨e2, he2⟩ := appendStringSlice_texts 2 m.OsFamily ht.2
  exact ⟨e1 ++ e2 ++ appendUint32NoZero 3 m.MinAccuracy,
    by simp only [TargetOperatingSystemClass.marshal, he1, he2]⟩

/-- Decoding into a `TargetOperatingSystemClass` keeps its texts UTF-8 and stores exactly
the fields without decoder. -/
theorem TargetOperatingSystemClass_unmarshalFrom_stores (b : Bytes)
    (m m' : TargetOperatingSystemClass)
    (h : TargetOperatingSystemClass.unmarshalFrom b m = some m') :
    (m.textsValid = true → m'.textsValid = true) ∧
    ∃ fs, rawFields b.length b = some fs ∧
      m'.unknownFields
        = m.unknownFields ++ storedUnknown TargetOperatingSystemClass.declared fs := by
  unfold TargetOperatingSystemClass.unmarshalFrom at h
  refine ⟨fun ht => ?_, ?_⟩
  · exact unmarshalLoop_invariant TargetOperatingSystemClass.unmarshalField
      TargetOperatingSystemClass.addUnknown (fun x => x.textsValid = true)
      (fun m num typ b m2 k hP hf =>
        (TargetOperatingSystemClass_field_ok m num typ b m2 k hf).2.2.2 hP)
      (fun m u hP => hP) _ b m m' ht h
  · exact unmarshalLoop_stores TargetOperatingSystemClass.unmarshalField
      TargetOperatingSystemClass.addUnknown TargetOperatingSystemClass.declared
      (fun x => x.unknownFields)
      (fun m num typ b m2 k hf =>
        ⟨(TargetOperatingSystemClass_field_ok m num typ b m2 k hf).1,
          (TargetOperatingSystemClass_field_ok m num typ b m2 k hf).2.1,
          (TargetOperatingSystemClass_field_ok m num typ b m2 k hf).2.2.1⟩)
      TargetOperatingSystemClass_field_unknown (fun _ _ => rfl) _ b m m' h

theorem validOpt_getD {S : Type} (p : S → Bool) (sub : Option S) (zero : S)
    (hz : p zero = true) (hv : validOpt p sub = true) : p (sub.getD zero) = true := by
  cases sub with
  | none => exact hz
  | some a => exact hv

theorem PluginDefinition_field_ok (m : PluginDefinition) (num typ : Nat) (b : Bytes)
    (m2 : PluginDefinition) (k : Nat)
    (h : PluginDefinition.unmarshalField m num typ b = FieldResult.ok m2 k) :
    consumeFieldValue num typ b = some k ∧ m2.unknownFields = m.unknownFields ∧
      PluginDefinition.declared num typ = true ∧
      (m.textsValid = true → m2.textsValid = true) := by
  unfold PluginDefinition.unmarshalField at h
  split_ifs at h with h1 h2 h3 h4 h5
  · obtain ⟨v, hw, hg, hc⟩ := bytesField_ok typ b _ m2 k num h
    subst hw h1
    cases hs : PluginInfo.unmarshalFrom v (m.Info.getD PluginInfo.zero) with
    | none => simp [hs] at hg
    | some i =>
      simp only [hs, Option.map_some', Option.some.injEq] at hg
      subst hg
      refine ⟨hc, rfl, rfl, fun ht => ?_⟩
      simp only [PluginDefinition.textsValid, Bool.and_eq_true] at ht ⊢
      exact ⟨⟨⟨(PluginInfo_unmarshalFrom_stores v _ i hs).1
        (validOpt_getD _ _ _ rfl ht.1.1.1), ht.1.1.2⟩, ht.1.2⟩, ht.2⟩
  · obtain ⟨v, hw, hg, hc⟩ := bytesField_ok typ b _ m2 k num h
    subst hw h2
    cases hs : TargetServiceName.unmarshalFrom v
        (m.TargetServiceName.getD TargetServiceName.zero) with
    | none => simp [hs] at hg
    | some i =>
      simp only [hs, Option.map_some', Option.some.injEq] at hg
      subst hg
      refine ⟨hc, rfl, rfl, fun ht => ?_⟩
      simp only [PluginDefinition.textsValid, Bool.and_eq_true] at ht ⊢
      exact ⟨⟨⟨ht.1.1.1, (TargetServiceName_unmarshalFrom_stores v _ i hs).1
        (validOpt_getD _ _ _ rfl ht.1.1.2)⟩, ht.1.2⟩, ht.2⟩
  · obtain ⟨v, hw, hg, hc⟩ := bytesField_ok typ b _ m2 k num h
    subst hw h3
    cases hs : TargetSoftware.unmarshalFrom v (m.TargetSoftware.getD TargetSoftware.zero) with
    | none => simp [hs] at hg
    | some i =>
      simp only [hs, Option.map_some', Option.some.injEq] at hg
      subst hg
      refine ⟨hc, rfl, rfl, fun ht => ?_⟩
      simp only [PluginDefinition.textsValid, Bool.and_eq_true] at ht ⊢
      exact ⟨⟨ht.1.1, (TargetSoftware_unmarshalFrom_stores v _ i hs).1
        (validOpt_getD _ _ _ rfl ht.1.2)⟩, ht.2⟩
  · obtain ⟨v, hw, hm, hc⟩ := varintField_ok typ b _ m2 k num h
    subst hm hw h4
    exact ⟨hc, rfl, rfl, fun ht => ht⟩
  · obtain ⟨v, hw, hg, hc⟩ := bytesField_ok typ b _ m2 k num h
    subst hw h5
    cases hs : TargetOperatingSystemClass.unmarshalFrom v
        (m.TargetOperatingSystemClass.getD TargetOperatingSystemClass.zero) with
    | none => simp [hs] at hg
    | some i =>
      simp only [hs, Option.map_some', Option.some.injEq] at hg
      subst hg
      refine ⟨hc, rfl, rfl, fun ht => ?_⟩
      simp only [PluginDefinition.textsValid, Bool.and_eq_true] at ht ⊢
      exact ⟨ht.1, (TargetOperatingSystemClass_unmarshalFrom_stores v _ i hs).1
        (validOpt_getD _ _ _ rfl ht.2)⟩

theorem PluginDefinition_field_unknown (m : PluginDefinition) (num typ : Nat) (b : Bytes)
    (h : PluginDefinition.unmarshalField m num typ b = FieldResult.unknown) :
    PluginDefinition.declared num typ = false := by
  unfold PluginDefinition.unmarshalField at h
  unfold PluginDefinition.declared
  split_ifs at h with h1 h2 h3 h4 h5
  · have := consumeBytesField_unknown _ _ (FieldResult.andThen_unknown _ _ h)
    simp [h1, this]
  · have := consumeBytesField_unknown _ _ (FieldResult.andThen_unknown _ _ h)
    simp [h2, this]
  · have := consumeBytesField_unknown _ _ (FieldResult.andThen_unknown _ _ h)
    simp [h3, this]
  · have := consumeVarintField_unknown _ _ (FieldResult.andThen_unknown _ _ h)
    simp [h4, this]
  · have := consumeBytesField_unknown _ _ (FieldResult.andThen_unknown _ _ h)
    simp [h5, this]
  · simp [h1, h2, h3, h4, h5]

theorem validOpt_marshal {S : Type} (p : S → Bool) (marshalS : S → Option Bytes)
    (unk : S → Bytes)
    (hm : ∀ a, p a = true → ∃ known, marshalS a = some (known ++ unk a))
    (sub : Option S) (hv : validOpt p sub = true) :
    ∀ a, sub = some a → ∃ sb, marshalS a = some sb := by
  intro a ha
  subst ha
  obtain ⟨known, hk⟩ := hm a hv
  exact ⟨_, hk⟩

theorem PluginDefinition_marshal_texts (m : PluginDefinition) (ht : m.textsValid = true) :
    ∃ known, m.marshal = some (known ++ m.unknownFields) := by
  simp only [PluginDefinition.textsValid, Bool.and_eq_true] at ht
  obtain ⟨⟨⟨hi, hsn⟩, hsw⟩, hos⟩ := ht
  obtain ⟨ei, hei⟩ := appendMessage_valid 1 m.Info PluginInfo.marshal
    (validOpt_marshal _ _ _ PluginInfo_marshal_texts _ hi)
  obtain ⟨esn, hesn⟩ := appendMessage_valid 2 m.TargetServiceName TargetServiceName.marshal
    (validOpt_marshal _ _ _ TargetServiceName_marshal_texts _ hsn)
  obtain ⟨esw, hesw⟩ := appendMessage_valid 3 m.TargetSoftware TargetSoftware.marshal
    (validOpt_marshal _ _ _ TargetSoftware_marshal_texts _ hsw)
  obtain ⟨eos, heos⟩ := appendMessage_valid 5 m.TargetOperatingSystemClass
    TargetOperatingSystemClass.marshal
    (validOpt_marshal _ _ _ TargetOperatingSystemClass_marshal_texts _ hos)
  exact ⟨ei ++ esn ++ esw ++ appendBoolNoZero 4 m.ForWebService ++ eos,
    by simp only [PluginDefinition.marshal, hei, hesn, hesw, heos]⟩

/-- Decoding into a `PluginDefinition` keeps its texts UTF-8 and stores exactly the
fields without decoder. -/
theorem PluginDefinition_unmarshalFrom_stores (b : Bytes) (m m' : PluginDefinition)
    (h : PluginDefinition.unmarshalFrom b m = some m') :
    (m.textsValid = true → m'.textsValid = true) ∧
    ∃ fs, rawFields b.length b = some fs ∧
      m'.unknownFields = m.unknownFields ++ storedUnknown PluginDefinition.declared fs := by
  unfold PluginDefinition.unmarshalFrom at h
  refine ⟨fun ht => ?_, ?_⟩
  · exact unmarshalLoop_invariant PluginDefinition.unmarshalField PluginDefinition.addUnknown
      (fun x => x.textsValid = true)
      (fun m num typ b m2 k hP hf => (PluginDefinition_field_ok m num typ b m2 k hf).2.2.2 hP)
      (fun m u hP => hP) _ b m m' ht h
  · exact unmarshalLoop_stores PluginDefinition.unmarshalField PluginDefinition.addUnknown
      PluginDefinition.declared (fun x => x.unknownFields)
      (fun m num typ b m2 k hf =>
        ⟨(PluginDefinition_field_ok m num typ b m2 k hf).1,
          (PluginDefinition_field_ok m num typ b m2 k hf).2.1,
          (PluginDefinition_field_ok m num typ b m2 k hf).2.2.1⟩)
      PluginDefinition_field_unknown (fun _ _ => rfl) _ b m m' h

/-- Decoding, then encoding, for one message type: the shape shared by the five cases. -/
theorem stores_then_marshal {S : Type} (declared : Nat → Nat → Bool) (zero : S)
    (unmarshalFromS : Bytes → S → Option S) (marshalS : S → Option Bytes) (unk : S → Bytes)
    (texts : S → Bool) (hz : texts zero = true) (hzu : unk zero = [])
    (hst : ∀ b m m', unmarshalFromS b m = some m' →
      (texts m = true → texts m' = true) ∧
      ∃ fs, rawFields b.length b = some fs ∧ unk m' = unk m ++ storedUnknown declared fs)
    (hm : ∀ a, texts a = true → ∃ known, marshalS a = some (known ++ unk a))
    (b : Bytes) (m : S) (h : unmarshalFromS b zero = some m) :
    ∃ fs known, rawFields b.length b = some fs ∧ unk m = storedUnknown declared fs ∧
      marshalS m = some (known ++ storedUnknown declared fs) := by
  obtain ⟨ht, fs, hfs, hu⟩ := hst b zero m h
  obtain ⟨known, hk⟩ := hm m (ht hz)
  rw [hzu, List.nil_append] at hu
  exact ⟨fs, known, hfs, hu, by rw [hk, hu]⟩

/-! ## Stores of sub-messages and inputs made of undeclared fields -/

theorem consumeVarintAux_prefix (f : Nat) :
    ∀ (b : Bytes) (v n : Nat), consumeVarintAux f b = some (v, n) →
      ∀ r : Bytes, consumeVarintAux f (b.take n ++ r) = some (v, n) := by
  induction f with
  | zero => intro b v n h; simp [consumeVarintAux] at h
  | succ f ih =>
    intro b v n h r
    cases b with
    | nil => simp [consumeVarintAux] at h
    | cons x xs =>
      simp only [consumeVarintAux] at h
      split_ifs at h with h1 h2
      · simp only [Option.some.injEq, Prod.mk.injEq] at h
        obtain ⟨hv, hn⟩ := h
        subst hv hn
        simp only [List.take_succ_cons, List.take_zero, List.singleton_append, consumeVarintAux]
        rw [if_pos h1, if_neg h2]
      · cases hr : consumeVarintAux f xs with
        | none => simp [hr] at h
        | some p =>
          obtain ⟨v', n'⟩ := p
          simp only [hr, Option.some.injEq, Prod.mk.injEq] at h
          obtain ⟨hv, hn⟩ := h
          subst hv hn
          have hi := ih xs v' n' hr r
          simp only [List.take_succ_cons, List.cons_append, consumeVarintAux, List.append_eq]
          rw [if_neg h1, hi]

theorem consumeBytes_prefix (b v : Bytes) (k : Nat) (h : consumeBytes b = some (v, k)) :
    consumeBytes (b.take k) = some (v, k) := by
  unfold consumeBytes at h ⊢
  cases hc : consumeVarint b with
  | none => simp [hc] at h
  | some p =>
    obtain ⟨m, n⟩ := p
    simp only [hc] at h
    split_ifs at h with hl
    simp only [Option.some.injEq, Prod.mk.injEq] at h
    obtain ⟨hv, hk⟩ := h
    have hb := consumeVarint_bounds b m n hc
    have hsplit : b.take k = b.take n ++ (b.drop n).take m := by
      rw [← hk, List.take_add]
    have hc' : consumeVarint (b.take n ++ (b.drop n).take m) = some (m, n) :=
      consumeVarintAux_prefix 10 b m n hc _
    have hlen : (b.take n).length = n := by
      rw [List.length_take]; omega
    have hdrop : List.drop n (b.take n ++ (b.drop n).take m) = (b.drop n).take m := by
      rw [List.drop_append_eq_append_drop, hlen, Nat.sub_self, List.drop_zero,
        List.drop_of_length_le (by omega), List.nil_append]
    have hm : ((b.drop n).take m).length = m := by
      rw [List.length_take]; omega
    rw [hsplit, hc']
    simp only [hdrop, hm, lt_irrefl, if_false, hk, Option.some.injEq, Prod.mk.injEq, and_true]
    rw [← hv]
    exact List.take_of_length_le (by omega)

/-- What the loop adds to a part of the message: when every decoded field adds its
contribution to `acc` and undeclared fields add none, the decoded message holds, after
what it held before, the contributions of the fields of the input in wire order. -/
theorem unmarshalLoop_accumulates {M : Type} (field : M → Nat → Nat → Bytes → FieldResult M)
    (addUnknown : M → Bytes → M) (acc : M → Bytes) (contrib : RawField → Bytes)
    (hok : ∀ m num typ b m2 k, field m num typ b = FieldResult.ok m2 k →
      consumeFieldValue num typ b = some k ∧
      acc m2 = acc m ++ contrib { num := num, typ := typ, raw := b.take k })
    (hunk : ∀ m num typ b, field m num typ b = FieldResult.unknown →
      (∀ u, acc (addUnknown m u) = acc m) ∧
      ∀ raw, contrib { num := num, typ := typ, raw := raw } = []) (fuel : Nat) :
    ∀ (b : Bytes) (m m' : M), unmarshalLoop field addUnknown fuel b m = some m' →
      ∃ fs, rawFields fuel b = some fs ∧ acc m' = acc m ++ (fs.map contrib).flatten := by
  induction fuel with
  | zero =>
    intro b m m' h
    cases b with
    | nil =>
      rw [unmarshalLoop_nil] at h; cases h
      exact ⟨[], rfl, by simp⟩
    | cons x xs => simp [unmarshalLoop] at h
  | succ fuel ih =>
    intro b m m' h
    cases b with
    | nil =>
      rw [unmarshalLoop_nil] at h; cases h
      exact ⟨[], rfl, by simp⟩
    | cons x xs =>
      simp only [unmarshalLoop] at h
      simp only [rawFields]
      cases hc : consumeVarint (x :: xs) with
      | none => simp [hc] at h
      | some p =>
        obtain ⟨tag, n⟩ := p
        simp only [hc] at h ⊢
        split_ifs at h with h1 h2
        rw [if_neg h1, if_neg h2]
        cases hf : field m (tag / 8) (tag % 8) (List.drop n (x :: xs)) with
        | error => simp [hf] at h
        | ok m2 k =>
          simp only [hf] at h
          obtain ⟨hv, hu⟩ := hok _ _ _ _ _ _ hf
          obtain ⟨fs, hfs, hst⟩ := ih _ _ _ h
          refine ⟨{ num := tag / 8, typ := tag % 8,
                    raw := List.take k (List.drop n (x :: xs)) } :: fs,
            by simp only [hv, hfs], ?_⟩
          simp only [List.map_cons, List.flatten_cons, hst, hu, List.append_assoc]
        | unknown =>
          simp only [hf] at h
          obtain ⟨hu, hz⟩ := hunk _ _ _ _ hf
          cases hv : consumeFieldValue (tag / 8) (tag % 8) (List.drop n (x :: xs)) with
          | none => simp [hv] at h
          | some k =>
            simp only [hv] at h
            obtain ⟨fs, hfs, hst⟩ := ih _ _ _ h
            refine ⟨{ num := tag / 8, typ := tag % 8,
                      raw := List.take k (List.drop n (x :: xs)) } :: fs,
              by simp only [hfs], ?_⟩
            simp only [List.map_cons, List.flatten_cons, hst, hu, hz, List.nil_append]

/-- An input made only of complete fields without decoder is decoded, whatever the form
of its tags, into the store of these fields. -/
theorem unmarshalLoop_all_unknown {M : Type} (field : M → Nat → Nat → Bytes → FieldResult M)
    (addUnknown : M → Bytes → M) (declared : Nat → Nat → Bool)
    (hdecl : ∀ m num typ b, declared num typ = false → field m num typ b = FieldResult.unknown)
    (hadd0 : ∀ m, addUnknown m [] = m)
    (hadd : ∀ m u v, addUnknown (addUnknown m u) v = addUnknown m (u ++ v)) (fuel : Nat) :
    ∀ (b : Bytes) (m : M) (fs : List RawField), rawFields fuel b = some fs →
      (∀ f, f ∈ fs → declared f.num f.typ = false) →
      unmarshalLoop field addUnknown fuel b m = some (addUnknown m (storedUnknown declared fs)) := by
  induction fuel with
  | zero =>
    intro b m fs h _
    cases b with
    | nil =>
      simp only [rawFields, Option.some.injEq] at h
      subst h
      rw [unmarshalLoop_nil]
      simp [storedUnknown, hadd0]
    | cons x xs => simp [rawFields] at h
  | succ fuel ih =>
    intro b m fs h hall
    cases b with
    | nil =>
      simp only [rawFields, Option.some.injEq] at h
      subst h
      rw [unmarshalLoop_nil]
      simp [storedUnknown, hadd0]
    | cons x xs =>
      simp only [rawFields] at h
      simp only [unmarshalLoop]
      cases hc : consumeVarint (x :: xs) with
      | none => simp [hc] at h
      | some p =>
        obtain ⟨tag, n⟩ := p
        simp only [hc] at h ⊢
        split_ifs at h with h1 h2
        rw [if_neg h1, if_neg h2]
        have hd0 : ∀ (k : Nat) (l : List RawField),
            fs = RawField.mk (tag / 8) (tag % 8) (List.take k (List.drop n (x :: xs))) :: l →
            declared (tag / 8) (tag % 8) = false := by
          intro k l hfs
          exact hall _ (by rw [hfs]; exact List.mem_cons_self _ _)
        cases hv : consumeFieldValue (tag / 8) (tag % 8) (List.drop n (x :: xs)) with
        | none => simp [hv] at h
        | some k =>
          simp only [hv, List.drop_drop] at h
          cases hr : rawFields fuel (List.drop (n + k) (x :: xs)) with
          | none => simp [hr] at h
          | some l =>
            simp only [hr, Option.some.injEq] at h
            have hd := hd0 k l h.symm
            rw [hdecl m _ _ _ hd]
            simp only [List.drop_drop]
            rw [ih _ _ l hr (fun f hf => hall f (by rw [← h]; exact List.mem_cons_of_mem _ hf)),
              hadd, ← h]
            simp only [storedUnknown, hd, Bool.false_eq_true, if_false, List.append_assoc]

theorem PluginInfo_marshal_withoutUnknown (x : PluginInfo) :
    x.marshal = (x.withoutUnknown.marshal).map (fun known => known ++ x.unknownFields) := by
  simp only [PluginInfo.marshal, PluginInfo.withoutUnknown]
  cases appendStringNoZero 2 x.Name <;> cases appendStringNoZero 3 x.Version <;>
    cases appendStringNoZero 4 x.Description <;> cases appendStringNoZero 5 x.Author <;> simp

theorem TargetServiceName_marshal_withoutUnknown (x : TargetServiceName) :
    x.marshal = (x.withoutUnknown.marshal).map (fun known => known ++ x.unknownFields) := by
  simp only [TargetServiceName.marshal, TargetServiceName.withoutUnknown]
  cases appendStringSlice 1 x.Value <;> simp

theorem TargetSoftware_marshal_withoutUnknown (x : TargetSoftware) :
    x.marshal = (x.withoutUnknown.marshal).map (fun known => known ++ x.unknownFields) := by
  simp only [TargetSoftware.marshal, TargetSoftware.withoutUnknown]
  cases appendStringNoZero 1 x.Name <;> cases appendStringSlice 2 x.Value <;> simp

theorem TargetOperatingSystemClass_marshal_withoutUnknown (x : TargetOperatingSystemClass) :
    x.marshal = (x.withoutUnknown.marshal).map (fun known => known ++ x.unknownFields) := by
  simp only [TargetOperatingSystemClass.marshal, TargetOperatingSystemClass.withoutUnknown]
  cases appendStringSlice 1 x.Vendor <;> cases appendStringSlice 2 x.OsFamily <;> simp

theorem PluginDefinition_marshal_withoutUnknown (x : PluginDefinition) :
    x.marshal = (x.withoutUnknown.marshal).map (fun known => known ++ x.unknownFields) := by
  simp only [PluginDefinition.marshal, PluginDefinition.withoutUnknown]
  cases appendMessage 1 (x.Info.map PluginInfo.marshal) <;>
    cases appendMessage 2 (x.TargetServiceName.map TargetServiceName.marshal) <;>
    cases appendMessage 3 (x.TargetSoftware.map TargetSoftware.marshal) <;>
    cases appendMessage 5
      (x.TargetOperatingSystemClass.map TargetOperatingSystemClass.marshal) <;> simp

theorem Message_marshal_withoutUnknown (m : Message) :
    m.marshal = (m.withoutUnknown.marshal).map (fun known => known ++ m.unknownFields) := by
  cases m with
  | definition x => exact PluginDefinition_marshal_withoutUnknown x
  | info x => exact PluginInfo_marshal_withoutUnknown x
  | serviceName x => exact TargetServiceName_marshal_withoutUnknown x
  | software x => exact TargetSoftware_marshal_withoutUnknown x
  | operatingSystemClass x => exact TargetOperatingSystemClass_marshal_withoutUnknown x

/-- A valid message of any of the five types, unknown-field store included, is encoded,
and decoding an encoding shorter than 2^64 bytes gives it back. -/
theorem Message_roundTrip_ok (m : Message) (hv : m.valid = true) :
    ∃ b, m.marshal = some b ∧
      (b.length < 18446744073709551616 → Message.unmarshal m.kind b = some m) := by
  cases m with
  | definition x =>
    obtain ⟨b, hb, hrt⟩ := PluginDefinition_roundTrip_ok x hv
    exact ⟨b, hb, fun hl => by simp [Message.unmarshal, Message.kind, hrt hl]⟩
  | info x =>
    obtain ⟨b, hb, hrt⟩ := PluginInfo_roundTrip_ok x hv
    exact ⟨b, hb, fun hl => by simp [Message.unmarshal, Message.kind, hrt hl]⟩
  | serviceName x =>
    obtain ⟨b, hb, hrt⟩ := TargetServiceName_roundTrip_ok x hv
    exact ⟨b, hb, fun hl => by simp [Message.unmarshal, Message.kind, hrt hl]⟩
  | software x =>
    obtain ⟨b, hb, hrt⟩ := TargetSoftware_roundTrip_ok x hv
    exact ⟨b, hb, fun hl => by simp [Message.unmarshal, Message.kind, hrt hl]⟩
  | operatingSystemClass x =>
    obtain ⟨b, hb, hrt⟩ := TargetOperatingSystemClass_roundTrip_ok x hv
    exact ⟨b, hb, fun hl => by simp [Message.unmarshal, Message.kind, hrt hl]⟩

/-- An input made only of complete fields that a message type has no decoder for is
decoded, for each of the five types, into the zero message holding these fields. -/
theorem Message_unmarshal_all_unknown (k : MessageKind) (b : Bytes) (fs : List RawField)
    (hfs : rawFields b.length b = some fs)
    (hall : ∀ f, f ∈ fs → k.declared f.num f.typ = false) :
    Message.unmarshal k b = some (Message.ofStore k (storedUnknown k.declared fs)) := by
  cases k with
  | PluginDefinition =>
    have h := unmarshalLoop_all_unknown PluginDefinition.unmarshalField
      PluginDefinition.addUnknown PluginDefinition.declared PluginDefinition_declared_unknown
      (fun _ => by simp [PluginDefinition.addUnknown])
      (fun _ _ _ => by simp [PluginDefinition.addUnknown]) _ b PluginDefinition.zero fs hfs hall
    simp only [Message.unmarshal, PluginDefinition.unmarshal, PluginDefinition.unmarshalFrom, h,
      Option.map_some', Message.ofStore, MessageKind.declared]
    simp [PluginDefinition.addUnknown, PluginDefinition.zero]
  | PluginInfo =>
    have h := unmarshalLoop_all_unknown PluginInfo.unmarshalField
      PluginInfo.addUnknown PluginInfo.declared PluginInfo_declared_unknown
      (fun _ => by simp [PluginInfo.addUnknown])
      (fun _ _ _ => by simp [PluginInfo.addUnknown]) _ b PluginInfo.zero fs hfs hall
    simp only [Message.unmarshal, PluginInfo.unmarshal, PluginInfo.unmarshalFrom, h,
      Option.map_some', Message.ofStore, MessageKind.declared]
    simp [PluginInfo.addUnknown, PluginInfo.zero]
  | TargetServiceName =>
    have h := unmarshalLoop_all_unknown TargetServiceName.unmarshalField
      TargetServiceName.addUnknown TargetServiceName.declared TargetServiceName_declared_unknown
      (fun _ => by simp [TargetServiceName.addUnknown])
      (fun _ _ _ => by simp [TargetServiceName.addUnknown]) _ b TargetServiceName.zero fs hfs hall
    simp only [Message.unmarshal, TargetServiceName.unmarshal, TargetServiceName.unmarshalFrom, h,
      Option.map_some', Message.ofStore, MessageKind.declared]
    simp [TargetServiceName.addUnknown, TargetServiceName.zero]
  | TargetSoftware =>
    have h := unmarshalLoop_all_unknown TargetSoftware.unmarshalField
      TargetSoftware.addUnknown TargetSoftware.declared TargetSoftware_declared_unknown
      (fun _ => by simp [TargetSoftware.addUnknown])
      (fun _ _ _ => by simp [TargetSoftware.addUnknown]) _ b TargetSoftware.zero fs hfs hall
    simp only [Message.unmarshal, TargetSoftware.unmarshal, TargetSoftware.unmarshalFrom, h,
      Option.map_some', Message.ofStore, MessageKind.declared]
    simp [TargetSoftware.addUnknown, TargetSoftware.zero]
  | TargetOperatingSystemClass =>
    have h := unmarshalLoop_all_unknown TargetOperatingSystemClass.unmarshalField
      TargetOperatingSystemClass.addUnknown TargetOperatingSystemClass.declared
      TargetOperatingSystemClass_declared_unknown
      (fun _ => by simp [TargetOperatingSystemClass.addUnknown])
      (fun _ _ _ => by simp [TargetOperatingSystemClass.addUnknown]) _ b
      TargetOperatingSystemClass.zero fs hfs hall
    simp only [Message.unmarshal, TargetOperatingSystemClass.unmarshal,
      TargetOperatingSystemClass.unmarshalFrom, h, Option.map_some', Message.ofStore,
      MessageKind.declared]
    simp [TargetOperatingSystemClass.addUnknown, TargetOperatingSystemClass.zero]

/-! ## The stores of the sub-messages of a `PluginDefinition` -/

theorem subMessage_ok {M S : Type} (wtyp : Nat) (b : Bytes) (sub : Bytes → Option S)
    (set : S → M) (m2 : M) (k : Nat)
    (h : (consumeBytesField wtyp b).andThen (fun v => (sub v).map set) = FieldResult.ok m2 k) :
    wtyp = 2 ∧ ∃ v i, consumeBytes b = some (v, k) ∧ sub v = some i ∧ m2 = set i := by
  obtain ⟨v, hr, hg⟩ := FieldResult.andThen_ok _ _ _ _ h
  obtain ⟨hw, hc⟩ := consumeBytesField_ok _ _ _ _ hr
  cases hs : sub v with
  | none => simp [hs] at hg
  | some i =>
    simp only [hs, Option.map_some', Option.some.injEq] at hg
    exact ⟨hw, v, i, hc, hs, hg.symm⟩

/-- What a decoded field of a `PluginDefinition` is: one of the four sub-message fields,
decoded from its payload into the sub-message already there, or the web-service flag. -/
theorem PluginDefinition_field_cases (m : PluginDefinition) (num typ : Nat) (b : Bytes)
    (m2 : PluginDefinition) (k : Nat)
    (h : PluginDefinition.unmarshalField m num typ b = FieldResult.ok m2 k) :
    (num = 1 ∧ typ = 2 ∧ ∃ v i, consumeBytes b = some (v, k) ∧
      PluginInfo.unmarshalFrom v (m.Info.getD PluginInfo.zero) = some i ∧
      m2 = { m with Info := some i }) ∨
    (num = 2 ∧ typ = 2 ∧ ∃ v i, consumeBytes b = some (v, k) ∧
      TargetServiceName.unmarshalFrom v (m.TargetServiceName.getD TargetServiceName.zero)
        = some i ∧
      m2 = { m with TargetServiceName := some i }) ∨
    (num = 3 ∧ typ = 2 ∧ ∃ v i, consumeBytes b = some (v, k) ∧
      TargetSoftware.unmarshalFrom v (m.TargetSoftware.getD TargetSoftware.zero) = some i ∧
      m2 = { m with TargetSoftware := some i }) ∨
    (num = 4 ∧ typ = 0 ∧ ∃ w, m2 = { m with ForWebService := w }) ∨
    (num = 5 ∧ typ = 2 ∧ ∃ v i, consumeBytes b = some (v, k) ∧
      TargetOperatingSystemClass.unmarshalFrom v
        (m.TargetOperatingSystemClass.getD TargetOperatingSystemClass.zero) = some i ∧
      m2 = { m with TargetOperatingSystemClass := some i }) := by
  unfold PluginDefinition.unmarshalField at h
  split_ifs at h with h1 h2 h3 h4 h5
  · obtain ⟨hw, v, i, hc, hs, hm⟩ := subMessage_ok typ b _ _ m2 k h
    exact Or.inl ⟨h1, hw, v, i, hc, hs, hm⟩
  · obtain ⟨hw, v, i, hc, hs, hm⟩ := subMessage_ok typ b _ _ m2 k h
    exact Or.inr (Or.inl ⟨h2, hw, v, i, hc, hs, hm⟩)
  · obtain ⟨hw, v, i, hc, hs, hm⟩ := subMessage_ok typ b _ _ m2 k h
    exact Or.inr (Or.inr (Or.inl ⟨h3, hw, v, i, hc, hs, hm⟩))
  · obtain ⟨v, hw, hm, _⟩ := varintField_ok typ b _ m2 k num h
    exact Or.inr (Or.inr (Or.inr (Or.inl ⟨h4, hw, _, hm⟩)))
  · obtain ⟨hw, v, i, hc, hs, hm⟩ := subMessage_ok typ b _ _ m2 k h
    exact Or.inr (Or.inr (Or.inr (Or.inr ⟨h5, hw, v, i, hc, hs, hm⟩)))

theorem fieldStored_other (declared : Nat → Nat → Bool) (num num2 typ : Nat) (raw : Bytes)
    (h : num2 ≠ num) :
    fieldStored declared num { num := num2, typ := typ, raw := raw } = [] := by
  simp [fieldStored, h]

theorem fieldStored_payload (declared : Nat → Nat → Bool) (num : Nat) (b v : Bytes) (k : Nat)
    (gs : List RawField) (hc : consumeBytes b = some (v, k))
    (hg : rawFields v.length v = some gs) :
    fieldStored declared num { num := num, typ := 2, raw := b.take k }
      = storedUnknown declared gs := by
  simp [fieldStored, payloadStored, consumeBytes_prefix b v k hc, hg]

theorem storeOf_getD {S : Type} (unk : S → Bytes) (x : Option S) (zero : S)
    (hz : unk zero = []) : unk (x.getD zero) = storeOf unk x := by
  cases x with
  | none => exact hz
  | some a => rfl

theorem PluginDefinition_field_info (m : PluginDefinition) (num typ : Nat) (b : Bytes)
    (m2 : PluginDefinition) (k : Nat)
    (h : PluginDefinition.unmarshalField m num typ b = FieldResult.ok m2 k) :
    consumeFieldValue num typ b = some k ∧
      storeOf PluginInfo.unknownFields m2.Info
        = storeOf PluginInfo.unknownFields m.Info
          ++ fieldStored PluginInfo.declared 1 (RawField.mk num typ (b.take k)) := by
  refine ⟨(PluginDefinition_field_ok m num typ b m2 k h).1, ?_⟩
  rcases PluginDefinition_field_cases m num typ b m2 k h with
    ⟨hn, ht, v, i, hc, hs, hm⟩ | ⟨hn, ht, v, i, hc, hs, hm⟩ | ⟨hn, ht, v, i, hc, hs, hm⟩ |
    ⟨hn, ht, w, hm⟩ | ⟨hn, ht, v, i, hc, hs, hm⟩
  · subst hn ht hm
    obtain ⟨gs, hg, hu⟩ := (PluginInfo_unmarshalFrom_stores v _ i hs).2
    rw [fieldStored_payload _ _ b v k gs hc hg]
    rw [storeOf_getD PluginInfo.unknownFields m.Info PluginInfo.zero rfl] at hu
    exact hu
  · subst hn hm; rw [fieldStored_other _ _ _ _ _ (by norm_num)]; simp
  · subst hn hm; rw [fieldStored_other _ _ _ _ _ (by norm_num)]; simp
  · subst hn hm; rw [fieldStored_other _ _ _ _ _ (by norm_num)]; simp
  · subst hn hm; rw [fieldStored_other _ _ _ _ _ (by norm_num)]; simp

theorem PluginDefinition_field_serviceName (m : PluginDefinition) (num typ : Nat) (b : Bytes)
    (m2 : PluginDefinition) (k : Nat)
    (h : PluginDefinition.unmarshalField m num typ b = FieldResult.ok m2 k) :
    consumeFieldValue num typ b = some k ∧
      storeOf TargetServiceName.unknownFields m2.TargetServiceName
        = storeOf TargetServiceName.unknownFields m.TargetServiceName
          ++ fieldStored TargetServiceName.declared 2 (RawField.mk num typ (b.take k)) := by
  refine ⟨(PluginDefinition_field_ok m num typ b m2 k h).1, ?_⟩
  rcases PluginDefinition_field_cases m num typ b m2 k h with
    ⟨hn, ht, v, i, hc, hs, hm⟩ | ⟨hn, ht, v, i, hc, hs, hm⟩ | ⟨hn, ht, v, i, hc, hs, hm⟩ |
    ⟨hn, ht, w, hm⟩ | ⟨hn, ht, v, i, hc, hs, hm⟩
  · subst hn hm; rw [fieldStored_other _ _ _ _ _ (by norm_num)]; simp
  · subst hn ht hm
    obtain ⟨gs, hg, hu⟩ := (TargetServiceName_unmarshalFrom_stores v _ i hs).2
    rw [fieldStored_payload _ _ b v k gs hc hg]
    rw [storeOf_getD TargetServiceName.unknownFields m.TargetServiceName
      TargetServiceName.zero rfl] at hu
    exact hu
  · subst hn hm; rw [fieldStored_other _ _ _ _ _ (by norm_num)]; simp
  · subst hn hm; rw [fieldStored_other _ _ _ _ _ (by norm_num)]; simp
  · subst hn hm; rw [fieldStored_other _ _ _ _ _ (by norm_num)]; simp

theorem PluginDefinition_field_software (m : PluginDefinition) (num typ : Nat) (b : Bytes)
    (m2 : PluginDefinition) (k : Nat)
    (h : PluginDefinition.unmarshalField m num typ b = FieldResult.ok m2 k) :
    consumeFieldValue num typ b = some k ∧
      storeOf TargetSoftware.unknownFields m2.TargetSoftware
        = storeOf TargetSoftware.unknownFields m.TargetSoftware
          ++ fieldStored TargetSoftware.declared 3 (RawField.mk num typ (b.take k)) := by
  refine ⟨(PluginDefinition_field_ok m num typ b m2 k h).1, ?_⟩
  rcases PluginDefinition_field_cases m num typ b m2 k h with
    ⟨hn, ht, v, i, hc, hs, hm⟩ | ⟨hn, ht, v, i, hc, hs, hm⟩ | ⟨hn, ht, v, i, hc, hs, hm⟩ |
    ⟨hn, ht, w, hm⟩ | ⟨hn, ht, v, i, hc, hs, hm⟩
  · subst hn hm; rw [fieldStored_other _ _ _ _ _ (by norm_num)]; simp
  · subst hn hm; rw [fieldStored_other _ _ _ _ _ (by norm_num)]; simp
  · subst hn ht hm
    obtain ⟨gs, hg, hu⟩ := (TargetSoftware_unmarshalFrom_stores v _ i hs).2
    rw [fieldStored_payload _ _ b v k gs hc hg]
    rw [storeOf_getD TargetSoftware.unknownFields m.TargetSoftware TargetSoftware.zero rfl] at hu
    exact hu
  · subst hn hm; rw [fieldStored_other _ _ _ _ _ (by norm_num)]; simp
  · subst hn hm; rw [fieldStored_other _ _ _ _ _ (by norm_num)]; simp

theorem PluginDefinition_field_operatingSystemClass (m : PluginDefinition) (num typ : Nat)
    (b : Bytes) (m2 : PluginDefinition) (k : Nat)
    (h : PluginDefinition.unmarshalField m num typ b = FieldResult.ok m2 k) :
    consumeFieldValue num typ b = some k ∧
      storeOf TargetOperatingSystemClass.unknownFields m2.TargetOperatingSystemClass
        = storeOf TargetOperatingSystemClass.unknownFields m.TargetOperatingSystemClass
          ++ fieldStored TargetOperatingSystemClass.declared 5
              (RawField.mk num typ (b.take k)) := by
  refine ⟨(PluginDefinition_field_ok m num typ b m2 k h).1, ?_⟩
  rcases PluginDefinition_field_cases m num typ b m2 k h with
    ⟨hn, ht, v, i, hc, hs, hm⟩ | ⟨hn, ht, v, i, hc, hs, hm⟩ | ⟨hn, ht, v, i, hc, hs, hm⟩ |
    ⟨hn, ht, w, hm⟩ | ⟨hn, ht, v, i, hc, hs, hm⟩
  · subst hn hm; rw [fieldStored_other _ _ _ _ _ (by norm_num)]; simp
  · subst hn hm; rw [fieldStored_other _ _ _ _ _ (by norm_num)]; simp
  · subst hn hm; rw [fieldStored_other _ _ _ _ _ (by norm_num)]; simp
  · subst hn hm; rw [fieldStored_other _ _ _ _ _ (by norm_num)]; simp
  · subst hn ht hm
    obtain ⟨gs, hg, hu⟩ := (TargetOperatingSystemClass_unmarshalFrom_stores v _ i hs).2
    rw [fieldStored_payload _ _ b v k gs hc hg]
    rw [storeOf_getD TargetOperatingSystemClass.unknownFields m.TargetOperatingSystemClass
      TargetOperatingSystemClass.zero rfl] at hu
    exact hu

theorem PluginDefinition_unknown_fieldStored (declaredSub : Nat → Nat → Bool)
    (m : PluginDefinition) (num typ sub : Nat) (b : Bytes)
    (hsub : PluginDefinition.declared sub 2 = true)
    (h : PluginDefinition.unmarshalField m num typ b = FieldResult.unknown) :
    ∀ raw, fieldStored declaredSub sub (RawField.mk num typ raw) = [] := by
  intro raw
  have hd := PluginDefinition_field_unknown m num typ b h
  unfold fieldStored
  split_ifs with hc
  · exfalso
    simp only at hc
    rw [hc.1, hc.2, hsub] at hd
    exact Bool.noConfusion hd
  · rfl

/-- Decoding a `PluginDefinition` stores, in each of its four sub-messages, exactly the
fields of the payloads of that sub-message field which the sub-message type has no
decoder for, in wire order. -/
theorem PluginDefinition_unmarshalFrom_nested (b : Bytes) (m m' : PluginDefinition)
    (h : PluginDefinition.unmarshalFrom b m = some m') :
    ∃ fs, rawFields b.length b = some fs ∧
      storeOf PluginInfo.unknownFields m'.Info
        = storeOf PluginInfo.unknownFields m.Info ++ nestedStored PluginInfo.declared 1 fs ∧
      storeOf TargetServiceName.unknownFields m'.TargetServiceName
        = storeOf TargetServiceName.unknownFields m.TargetServiceName
          ++ nestedStored TargetServiceName.declared 2 fs ∧
      storeOf TargetSoftware.unknownFields m'.TargetSoftware
        = storeOf TargetSoftware.unknownFields m.TargetSoftware
          ++ nestedStored TargetSoftware.declared 3 fs ∧
      storeOf TargetOperatingSystemClass.unknownFields m'.TargetOperatingSystemClass
        = storeOf TargetOperatingSystemClass.unknownFields m.TargetOperatingSystemClass
          ++ nestedStored TargetOperatingSystemClass.declared 5 fs := by
  unfold PluginDefinition.unmarshalFrom at h
  obtain ⟨fs1, hf1, hs1⟩ := unmarshalLoop_accumulates PluginDefinition.unmarshalField
    PluginDefinition.addUnknown (fun d => storeOf PluginInfo.unknownFields d.Info)
    (fieldStored PluginInfo.declared 1)
    (fun m num typ b m2 k hf => PluginDefinition_field_info m num typ b m2 k hf)
    (fun m num typ b hf => ⟨fun _ => rfl,
      PluginDefinition_unknown_fieldStored _ m num typ 1 b rfl hf⟩) _ b m m' h
  obtain ⟨fs2, hf2, hs2⟩ := unmarshalLoop_accumulates PluginDefinition.unmarshalField
    PluginDefinition.addUnknown
    (fun d => storeOf TargetServiceName.unknownFields d.TargetServiceName)
    (fieldStored TargetServiceName.declared 2)
    (fun m num typ b m2 k hf => PluginDefinition_field_serviceName m num typ b m2 k hf)
    (fun m num typ b hf => ⟨fun _ => rfl,
      PluginDefinition_unknown_fieldStored _ m num typ 2 b rfl hf⟩) _ b m m' h
  obtain ⟨fs3, hf3, hs3⟩ := unmarshalLoop_accumulates PluginDefinition.unmarshalField
    PluginDefinition.addUnknown (fun d => storeOf TargetSoftware.unknownFields d.TargetSoftware)
    (fieldStored TargetSoftware.declared 3)
    (fun m num typ b m2 k hf => PluginDefinition_field_software m num typ b m2 k hf)
    (fun m num typ b hf => ⟨fun _ => rfl,
      PluginDefinition_unknown_fieldStored _ m num typ 3 b rfl hf⟩) _ b m m' h
  obtain ⟨fs5, hf5, hs5⟩ := unmarshalLoop_accumulates PluginDefinition.unmarshalField
    PluginDefinition.addUnknown
    (fun d => storeOf TargetOperatingSystemClass.unknownFields d.TargetOperatingSystemClass)
    (fieldStored TargetOperatingSystemClass.declared 5)
    (fun m num typ b m2 k hf =>
      PluginDefinition_field_operatingSystemClass m num typ b m2 k hf)
    (fun m num typ b hf => ⟨fun _ => rfl,
      PluginDefinition_unknown_fieldStored _ m num typ 5 b rfl hf⟩) _ b m m' h
  rw [hf1] at hf2 hf3 hf5
  cases hf2; cases hf3; cases hf5
  exact ⟨fs1, hf1, hs1, hs2, hs3, hs5⟩

theorem appendMessage_some (num : Nat) (x : Option Bytes) (e : Bytes)
    (h : appendMessage num (some x) = some e) :
    ∃ sb, x = some sb ∧ e = appendTag num 2 ++ appendBytes sb := by
  cases x with
  | none => simp [appendMessage] at h
  | some sb =>
    simp only [appendMessage, Option.some.injEq] at h
    exact ⟨sb, rfl, h.symm⟩

theorem PluginDefinition_marshal_parts (d : PluginDefinition) (b : Bytes)
    (h : d.marshal = some b) :
    ∃ ei en es eo,
      appendMessage 1 (d.Info.map PluginInfo.marshal) = some ei ∧
      appendMessage 2 (d.TargetServiceName.map TargetServiceName.marshal) = some en ∧
      appendMessage 3 (d.TargetSoftware.map TargetSoftware.marshal) = some es ∧
      appendMessage 5
        (d.TargetOperatingSystemClass.map TargetOperatingSystemClass.marshal) = some eo ∧
      b = ei ++ en ++ es ++ appendBoolNoZero 4 d.ForWebService ++ eo ++ d.unknownFields := by
  unfold PluginDefinition.marshal at h
  cases h1 : appendMessage 1 (d.Info.map PluginInfo.marshal) with
  | none => simp [h1] at h
  | some ei =>
    cases h2 : appendMessage 2 (d.TargetServiceName.map TargetServiceName.marshal) with
    | none => simp [h1, h2] at h
    | some en =>
      cases h3 : appendMessage 3 (d.TargetSoftware.map TargetSoftware.marshal) with
      | none => simp [h1, h2, h3] at h
      | some es =>
        cases h5 : appendMessage 5
            (d.TargetOperatingSystemClass.map TargetOperatingSystemClass.marshal) with
        | none => simp [h1, h2, h3, h5] at h
        | some eo =>
          simp only [h1, h2, h3, h5, Option.some.injEq] at h
          exact ⟨ei, en, es, eo, rfl, rfl, rfl, rfl, h.symm⟩

theorem split_known {S : Type} (marshalS : S → Option Bytes) (without : S → S)
    (unk : S → Bytes)
    (hsplit : ∀ a, marshalS a = (marshalS (without a)).map (fun known => known ++ unk a))
    (a : S) (sb : Bytes) (h : marshalS a = some sb) :
    ∃ known, marshalS (without a) = some known ∧ sb = known ++ unk a := by
  rw [hsplit a] at h
  cases hk : marshalS (without a) with
  | none => simp [hk] at h
  | some known =>
    simp only [hk, Option.map_some', Option.some.injEq] at h
    exact ⟨known, rfl, h.symm⟩

/-- The encoding of a `PluginDefinition` holds, for each sub-message present, the tagged
encoding of the sub-message, which ends with the sub-message's unknown-field store. -/
theorem PluginDefinition_nested_reemitted (d : PluginDefinition) (b : Bytes)
    (h : d.marshal = some b) :
    (∀ i, d.Info = some i → ∃ known pre post, i.withoutUnknown.marshal = some known ∧
      d.marshal = some (pre ++ (appendTag 1 2 ++ appendBytes (known ++ i.unknownFields)) ++ post)) ∧
    (∀ i, d.TargetServiceName = some i → ∃ known pre post,
      i.withoutUnknown.marshal = some known ∧
      d.marshal = some (pre ++ (appendTag 2 2 ++ appendBytes (known ++ i.unknownFields)) ++ post)) ∧
    (∀ i, d.TargetSoftware = some i → ∃ known pre post,
      i.withoutUnknown.marshal = some known ∧
      d.marshal = some (pre ++ (appendTag 3 2 ++ appendBytes (known ++ i.unknownFields)) ++ post)) ∧
    (∀ i, d.TargetOperatingSystemClass = some i → ∃ known pre post,
      i.withoutUnknown.marshal = some known ∧
      d.marshal
        = some (pre ++ (appendTag 5 2 ++ appendBytes (known ++ i.unknownFields)) ++ post)) := by
  obtain ⟨ei, en, es, eo, h1, h2, h3, h5, hb⟩ := PluginDefinition_marshal_parts d b h
  refine ⟨?_, ?_, ?_, ?_⟩
  · intro i hi
    rw [hi, Option.map_some'] at h1
    obtain ⟨sb, hsb, he⟩ := appendMessage_some 1 _ ei h1
    obtain ⟨known, hk, hs⟩ := split_known PluginInfo.marshal PluginInfo.withoutUnknown
      PluginInfo.unknownFields PluginInfo_marshal_withoutUnknown i sb hsb
    refine ⟨known, [], en ++ es ++ appendBoolNoZero 4 d.ForWebService ++ eo ++ d.unknownFields,
      hk, ?_⟩
    rw [h, hb, he, hs]
    simp
  · intro i hi
    rw [hi, Option.map_some'] at h2
    obtain ⟨sb, hsb, he⟩ := appendMessage_some 2 _ en h2
    obtain ⟨known, hk, hs⟩ := split_known TargetServiceName.marshal
      TargetServiceName.withoutUnknown TargetServiceName.unknownFields
      TargetServiceName_marshal_withoutUnknown i sb hsb
    refine ⟨known, ei, es ++ appendBoolNoZero 4 d.ForWebService ++ eo ++ d.unknownFields,
      hk, ?_⟩
    rw [h, hb, he, hs]
    simp
  · intro i hi
    rw [hi, Option.map_some'] at h3
    obtain ⟨sb, hsb, he⟩ := appendMessage_some 3 _ es h3
    obtain ⟨known, hk, hs⟩ := split_known TargetSoftware.marshal
      TargetSoftware.withoutUnknown TargetSoftware.unknownFields
      TargetSoftware_marshal_withoutUnknown i sb hsb
    refine ⟨known, ei ++ en, appendBoolNoZero 4 d.ForWebService ++ eo ++ d.unknownFields,
      hk, ?_⟩
    rw [h, hb, he, hs]
    simp
  · intro i hi
    rw [hi, Option.map_some'] at h5
    obtain ⟨sb, hsb, he⟩ := appendMessage_some 5 _ eo h5
    obtain ⟨known, hk, hs⟩ := split_known TargetOperatingSystemClass.marshal
      TargetOperatingSystemClass.withoutUnknown TargetOperatingSystemClass.unknownFields
      TargetOperatingSystemClass_marshal_withoutUnknown i sb hsb
    refine ⟨known, ei ++ en ++ es ++ appendBoolNoZero 4 d.ForWebService, d.unknownFields,
      hk, ?_⟩
    rw [h, hb, he, hs]

/-- Decoding, then encoding, for a message of any of the five types: the store holds the
fields without decoder, and the encoding is that of the message without its store,
followed by the store. -/
theorem Message_unmarshal_stores (k : MessageKind) (b : Bytes) (m : Message)
    (h : Message.unmarshal k b = some m) :
    ∃ fs known, rawFields b.length b = some fs ∧
      m.unknownFields = storedUnknown k.declared fs ∧
      m.withoutUnknown.marshal = some known ∧
      m.marshal = some (known ++ storedUnknown k.declared fs) := by
  have key : ∃ fs known, rawFields b.length b = some fs ∧
      m.unknownFields = storedUnknown k.declared fs ∧
      m.marshal = some (known ++ storedUnknown k.declared fs) := by
    cases k with
    | PluginDefinition =>
      simp only [Message.unmarshal, Option.map_eq_some'] at h
      obtain ⟨x, hx, hm⟩ := h
      subst hm
      exact stores_then_marshal PluginDefinition.declared PluginDefinition.zero
        PluginDefinition.unmarshalFrom PluginDefinition.marshal (fun x => x.unknownFields)
        PluginDefinition.textsValid rfl rfl PluginDefinition_unmarshalFrom_stores
        PluginDefinition_marshal_texts b x hx
    | PluginInfo =>
      simp only [Message.unmarshal, Option.map_eq_some'] at h
      obtain ⟨x, hx, hm⟩ := h
      subst hm
      exact stores_then_marshal PluginInfo.declared PluginInfo.zero
        PluginInfo.unmarshalFrom PluginInfo.marshal (fun x => x.unknownFields)
        PluginInfo.textsValid rfl rfl PluginInfo_unmarshalFrom_stores
        PluginInfo_marshal_texts b x hx
    | TargetServiceName =>
      simp only [Message.unmarshal, Option.map_eq_some'] at h
      obtain ⟨x, hx, hm⟩ := h
      subst hm
      exact stores_then_marshal TargetServiceName.declared TargetServiceName.zero
        TargetServiceName.unmarshalFrom TargetServiceName.marshal (fun x => x.unknownFields)
        TargetServiceName.textsValid rfl rfl TargetServiceName_unmarshalFrom_stores
        TargetServiceName_marshal_texts b x hx
    | TargetSoftware =>
      simp only [Message.unmarshal, Option.map_eq_some'] at h
      obtain ⟨x, hx, hm⟩ := h
      subst hm
      exact stores_then_marshal TargetSoftware.declared TargetSoftware.zero
        TargetSoftware.unmarshalFrom TargetSoftware.marshal (fun x => x.unknownFields)
        TargetSoftware.textsValid rfl rfl TargetSoftware_unmarshalFrom_stores
        TargetSoftware_marshal_texts b x hx
    | TargetOperatingSystemClass =>
      simp only [Message.unmarshal, Option.map_eq_some'] at h
      obtain ⟨x, hx, hm⟩ := h
      subst hm
      exact stores_then_marshal TargetOperatingSystemClass.declared
        TargetOperatingSystemClass.zero TargetOperatingSystemClass.unmarshalFrom
        TargetOperatingSystemClass.marshal (fun x => x.unknownFields)
        TargetOperatingSystemClass.textsValid rfl rfl
        TargetOperatingSystemClass_unmarshalFrom_stores
        TargetOperatingSystemClass_marshal_texts b x hx
  obtain ⟨fs, known0, hfs, hu, hmar⟩ := key
  obtain ⟨known, hk, hs⟩ := split_known Message.marshal Message.withoutUnknown
    Message.unknownFields Message_marshal_withoutUnknown m _ hmar
  refine ⟨fs, known, hfs, hu, hk, ?_⟩
  rw [hmar, hs, hu]

theorem appendVarintAux_ne_nil (fuel v : Nat) : appendVarintAux fuel v ≠ [] := by
  cases fuel with
  | zero => simp [appendVarintAux]
  | succ n =>
    unfold appendVarintAux
    split <;> simp

theorem appendTag_ne_nil (num typ : Nat) : appendTag num typ ≠ [] :=
  appendVarintAux_ne_nil _ _

theorem flatten_map_mem {A : Type} (contrib : A → Bytes) (fs : List A) (f : A) (hf : f ∈ fs) :
    ∃ pre post, (fs.map contrib).flatten = pre ++ contrib f ++ post := by
  induction fs with
  | nil => simp at hf
  | cons g fs ih =>
    rcases List.mem_cons.mp hf with h | h
    · subst h
      exact ⟨[], (fs.map contrib).flatten, by simp⟩
    · obtain ⟨pre, post, hpp⟩ := ih h
      exact ⟨contrib g ++ pre, post, by simp [hpp]⟩

/-- An undeclared field inside the payload of a sub-message field is among what the
enclosing fields add to the store of that sub-message. -/
theorem nestedStored_mem (declared : Nat → Nat → Bool) (num : Nat) (fs : List RawField)
    (f : RawField) (v : Bytes) (n : Nat) (gs : List RawField) (g : RawField)
    (hf : f ∈ fs) (hn : f.num = num) (ht : f.typ = 2)
    (hc : consumeBytes f.raw = some (v, n)) (hg : rawFields v.length v = some gs)
    (hgm : g ∈ gs) (hd : declared g.num g.typ = false) :
    ∃ pre post, nestedStored declared num fs
      = pre ++ (appendTag g.num g.typ ++ g.raw) ++ post := by
  obtain ⟨pre, post, hpp⟩ := flatten_map_mem (fieldStored declared num) fs f hf
  obtain ⟨pre2, post2, hqq⟩ := storedUnknown_mem declared gs g hgm hd
  have hfs : fieldStored declared num f = storedUnknown declared gs := by
    simp [fieldStored, payloadStored, hn, ht, hc, hg]
  refine ⟨pre ++ pre2, post2 ++ post, ?_⟩
  unfold nestedStored
  rw [hpp, hfs, hqq]
  simp

/-- An undeclared field inside the payload of a sub-message field makes the sub-message
present, with the field in its store. -/
theorem nested_field_stored {S : Type} (unk : S → Bytes) (declared : Nat → Nat → Bool)
    (num : Nat) (x : Option S) (fs : List RawField)
    (hst : storeOf unk x = nestedStored declared num fs)
    (f : RawField) (hf : f ∈ fs) (hn : f.num = num) (ht : f.typ = 2)
    (v : Bytes) (n : Nat) (gs : List RawField)
    (hc : consumeBytes f.raw = some (v, n)) (hg : rawFields v.length v = some gs)
    (g : RawField) (hgm : g ∈ gs) (hd : declared g.num g.typ = false) :
    ∃ i pre post, x = some i ∧ unk i = pre ++ (appendTag g.num g.typ ++ g.raw) ++ post := by
  obtain ⟨pre, post, hpp⟩ := nestedStored_mem declared num fs f v n gs g hf hn ht hc hg hgm hd
  rw [← hst] at hpp
  cases x with
  | none =>
    exfalso
    simp only [storeOf] at hpp
    have hlen := congrArg List.length hpp
    have hne : (appendTag g.num g.typ).length ≠ 0 := by
      intro h0
      exact appendTag_ne_nil g.num g.typ (List.length_eq_zero.mp h0)
    simp only [List.length_nil, List.length_append] at hlen
    omega
  | some i => exact ⟨i, pre, post, rfl, hpp⟩

/-- Decoding a `PluginDefinition`: the stores of its four sub-messages hold the undeclared
fields found inside the payloads of their fields, and the encoding of the decoded
definition holds each present sub-message's encoding, store included. -/
theorem PluginDefinition_unmarshal_nested (b : Bytes) (d : PluginDefinition)
    (h : PluginDefinition.unmarshal b = some d) :
    ∃ fs, rawFields b.length b = some fs ∧
      storeOf PluginInfo.unknownFields d.Info = nestedStored PluginInfo.declared 1 fs ∧
      storeOf TargetServiceName.unknownFields d.TargetServiceName
        = nestedStored TargetServiceName.declared 2 fs ∧
      storeOf TargetSoftware.unknownFields d.TargetSoftware
        = nestedStored TargetSoftware.declared 3 fs ∧
      storeOf TargetOperatingSystemClass.unknownFields d.TargetOperatingSystemClass
        = nestedStored TargetOperatingSystemClass.declared 5 fs ∧
      ∃ out, d.marshal = some out := by
  obtain ⟨fs, hfs, h1, h2, h3, h5⟩ :=
    PluginDefinition_unmarshalFrom_nested b PluginDefinition.zero d h
  obtain ⟨ht, -⟩ := PluginDefinition_unmarshalFrom_stores b PluginDefinition.zero d h
  obtain ⟨known, hk⟩ := PluginDefinition_marshal_texts d (ht rfl)
  refine ⟨fs, hfs, ?_, ?_, ?_, ?_, ⟨_, hk⟩⟩
  · rw [h1]; rfl
  · rw [h2]; rfl
  · rw [h3]; rfl
  · rw [h5]; rfl

theorem Message_ofStore_marshal (k : MessageKind) (u : Bytes) :
    (Message.ofStore k u).marshal = some u := by
  rw [Message_marshal_withoutUnknown]
  cases k <;> rfl

theorem map_asciiLower_nil (n : GoString) : n.map asciiLower = [] ↔ n = [] := by
  cases n <;> simp

/-! ## The claims -/

/-- C1: the raw descriptor and the struct tags both declare, for each of the five
messages, exactly the fields of the specification's table, with its numbers and types;
no file-level extension, nested message or message-level extension adds a field. -/
theorem C1_field_table :
    descriptorFieldTable file_plugin_representation_proto_rawDesc
        = some (specFieldTable "PluginInfo.PluginType") ∧
    structFieldTable "tsunami.proto" goStructs = some (specFieldTable "PluginInfo_PluginType") ∧
    (readFileDescriptor file_plugin_representation_proto_rawDesc).map
        (fun fd => decide (fd.package = "tsunami.proto") && fd.extension.isEmpty &&
          fd.messageType.all (fun m => m.nestedType.isEmpty && m.extension.isEmpty))
      = some true := by
  decide!

/-- C2, as stated, fails: value 0 is not named `UNSPECIFIED` in either lookup map, among
the Go constants or in the raw descriptor. -/
theorem C2_unspecified_name_absent :
    (0, "UNSPECIFIED") ∉ PluginInfo_PluginType_name ∧
    ("UNSPECIFIED", 0) ∉ PluginInfo_PluginType_value ∧
    ("PluginInfo_UNSPECIFIED", 0) ∉ PluginInfo_PluginType_constants ∧
    (descriptorEnums file_plugin_representation_proto_rawDesc).map
        (fun es => es.all (fun e => decide (("UNSPECIFIED", 0) ∉ e.2))) = some true := by
  decide!

/-- C2, amended: the enum is the closed set of the four pairs
0 = PLUGIN_TYPE_UNSPECIFIED, 1 = PORT_SCAN, 2 = SERVICE_FINGERPRINT, 3 = VULN_DETECTION:
the raw descriptor declares one enum, `PluginInfo.PluginType`, with exactly these pairs,
the value map holds exactly them, the name map exactly their converses, and the Go
constants exactly them under the prefix `PluginInfo_`. -/
theorem C2_enum_closed_set :
    descriptorEnums file_plugin_representation_proto_rawDesc
      = some [("PluginInfo.PluginType",
          [("PLUGIN_TYPE_UNSPECIFIED", 0), ("PORT_SCAN", 1), ("SERVICE_FINGERPRINT", 2),
           ("VULN_DETECTION", 3)])] ∧
    PluginInfo_PluginType_value
      = [("PLUGIN_TYPE_UNSPECIFIED", 0), ("PORT_SCAN", 1), ("SERVICE_FINGERPRINT", 2),
         ("VULN_DETECTION", 3)] ∧
    PluginInfo_PluginType_name = PluginInfo_PluginType_value.map (fun p => (p.2, p.1)) ∧
    PluginInfo_PluginType_constants
      = PluginInfo_PluginType_value.map (fun p => ("PluginInfo_" ++ p.1, p.2)) := by
  decide!

/-- C3, as stated, fails: a definition whose service-name filter holds an empty, non-nil
list is encoded as a present filter without elements and decoded with the nil list, so
the round trip does not give the definition back. -/
theorem C3_empty_list_not_preserved :
    PluginDefinition.roundTrip definitionWithEmptyList
      = some { PluginDefinition.zero with
          TargetServiceName := some { Value := none, unknownFields := [] } } ∧
    PluginDefinition.roundTrip definitionWithEmptyList ≠ some definitionWithEmptyList := by
  decide!

/-- C3, amended: every valid definition (texts in UTF-8, type an int32, accuracy a
uint32, well-formed unknown fields) whose list fields are nil or non-empty can be
encoded, and decoding an encoding shorter than 2^64 bytes gives the definition back,
absent filters staying absent and present filters present. -/
theorem C3_round_trip (d : PluginDefinition) (hv : d.valid = true) :
    ∃ b, d.marshal = some b ∧
      (b.length < 18446744073709551616 →
        PluginDefinition.unmarshal b = some d ∧ PluginDefinition.roundTrip d = some d) := by
  obtain ⟨b, hb, hrt⟩ := PluginDefinition_roundTrip_ok d hv
  refine ⟨b, hb, fun hlen => ⟨hrt hlen, ?_⟩⟩
  simp only [PluginDefinition.roundTrip, hb, hrt hlen]

/-- C3, amended, at an example: a definition with a present software filter without
version list and an absent operating-system filter is valid and comes back unchanged. -/
theorem C3_round_trip_witness :
    exampleDefinition.valid = true ∧
    PluginDefinition.roundTrip exampleDefinition = some exampleDefinition ∧
    ∃ b, exampleDefinition.marshal = some b ∧
      (b.length < 18446744073709551616 →
        PluginDefinition.unmarshal b = some exampleDefinition ∧
        PluginDefinition.roundTrip exampleDefinition = some exampleDefinition) :=
  ⟨by decide!, by decide!, C3_round_trip exampleDefinition (by decide!)⟩

theorem PluginInfo_PluginType_Descriptor_eq :
    PluginInfo_PluginType.Descriptor
      = some { name := "PluginType",
               value := [ { name := "PLUGIN_TYPE_UNSPECIFIED", number := 0 },
                          { name := "PORT_SCAN", number := 1 },
                          { name := "SERVICE_FINGERPRINT", number := 2 },
                          { name := "VULN_DETECTION", number := 3 } ] } := by
  decide!

/-- C4: for every int32 `n` other than the four declared numbers, a `PluginInfo` whose
type is `n` is encoded as field 1 with the sign-extended varint of `n`, decoding it
succeeds and keeps `n`, and `String()` does not panic and gives the decimal text of `n`;
for the four declared numbers `String()` gives the declared names. -/
theorem C4_enum_forward_compatible (n : Int) (hlo : -2147483648 ≤ n) (hhi : n ≤ 2147483647)
    (hn : n ≠ 0 ∧ n ≠ 1 ∧ n ≠ 2 ∧ n ≠ 3) :
    PluginInfo.marshal { PluginInfo.zero with Type_ := n }
      = some (appendTag 1 0 ++ appendVarint (toUint64 n)) ∧
    PluginInfo.unmarshal (appendTag 1 0 ++ appendVarint (toUint64 n))
      = some { PluginInfo.zero with Type_ := n } ∧
    PluginInfo_PluginType.String n = some (toString n) ∧
    PluginInfo_PluginType.String PluginInfo_PLUGIN_TYPE_UNSPECIFIED
      = some "PLUGIN_TYPE_UNSPECIFIED" ∧
    PluginInfo_PluginType.String PluginInfo_PORT_SCAN = some "PORT_SCAN" ∧
    PluginInfo_PluginType.String PluginInfo_SERVICE_FINGERPRINT = some "SERVICE_FINGERPRINT" ∧
    PluginInfo_PluginType.String PluginInfo_VULN_DETECTION = some "VULN_DETECTION" := by
  refine ⟨?_, ?_, ?_, ?_, ?_, ?_, ?_⟩
  · simp [PluginInfo.marshal, PluginInfo.zero, appendStringNoZero, appendEnumNoZero, hn.1]
  · have h := unmarshalLoop_varintField PluginInfo.unmarshalField PluginInfo.addUnknown 1
      (toUint64 n) [] PluginInfo.zero { PluginInfo.zero with Type_ := n }
      (fun v => some { PluginInfo.zero with Type_ := toInt32 v }) (by norm_num) (by norm_num)
      (toUint64_lt n) rfl (by simp only [toInt32_toUint64 n hlo hhi])
    simp only [List.append_nil] at h
    unfold PluginInfo.unmarshal PluginInfo.unmarshalFrom
    rw [h, unmarshalLoop_nil]
  · obtain ⟨h0, h1, h2, h3⟩ := hn
    simp only [PluginInfo_PluginType.String, PluginInfo_PluginType_Descriptor_eq, Option.map_some',
      EnumStringOf, List.find?]
    have e0 : decide ((0 : Int) = n) = false := by simpa using fun h => h0 h.symm
    have e1 : decide ((1 : Int) = n) = false := by simpa using fun h => h1 h.symm
    have e2 : decide ((2 : Int) = n) = false := by simpa using fun h => h2 h.symm
    have e3 : decide ((3 : Int) = n) = false := by simpa using fun h => h3 h.symm
    simp only [e0, e1, e2, e3]
  · rw [PluginInfo_PluginType.String, PluginInfo_PluginType_Descriptor_eq]; rfl
  · rw [PluginInfo_PluginType.String, PluginInfo_PluginType_Descriptor_eq]; rfl
  · rw [PluginInfo_PluginType.String, PluginInfo_PluginType_Descriptor_eq]; rfl
  · rw [PluginInfo_PluginType.String, PluginInfo_PluginType_Descriptor_eq]; rfl

/-- C4 at the specification's example, type 99: decoding keeps 99 and `String()` gives
`"99"`. -/
theorem C4_enum_forward_compatible_witness :
    PluginInfo.unmarshal (appendTag 1 0 ++ appendVarint (toUint64 99))
      = some { PluginInfo.zero with Type_ := 99 } ∧
    PluginInfo_PluginType.String 99 = some "99" := by
  have h := C4_enum_forward_compatible 99 (by decide) (by decide) (by decide)
  exact ⟨h.2.1, h.2.2.1⟩

/-- C5: unknown-field preservation, for each of the five message types. First, when
decoding succeeds, the unknown-field store of the decoded message holds exactly the
fields of the input that the schema has no decoder for, each as its tag followed by the
bytes of its value, in wire order; the decoded message is encoded, and its encoding is
the encoding of the message with its store cleared, followed by the store, so every such
field is emitted again with its tag and payload unchanged. Second, decoding does succeed
on such inputs: an input made of complete undeclared fields decodes, for every type, to
the zero message holding them, whose encoding is these fields. Third, every valid
message, a well-formed store included, is encoded and is decoded back to itself. Fourth,
inside a `PluginDefinition`: the stores of the four sub-messages hold the undeclared
fields found in the payloads of their fields, an undeclared field inside such a payload
makes the sub-message present with the field in its store, and the encoding of the
decoded definition holds the encoding of each present sub-message, which ends with the
store of the sub-message. -/
theorem C5_unknown_fields_preserved :
    (∀ (k : MessageKind) (b : Bytes) (m : Message), Message.unmarshal k b = some m →
      ∃ fs known, rawFields b.length b = some fs ∧
        m.unknownFields = storedUnknown k.declared fs ∧
        m.withoutUnknown.marshal = some known ∧
        m.marshal = some (known ++ storedUnknown k.declared fs) ∧
        ∀ f, f ∈ fs → k.declared f.num f.typ = false →
          ∃ pre post, m.marshal = some (pre ++ (appendTag f.num f.typ ++ f.raw) ++ post)) ∧
    (∀ (k : MessageKind) (b : Bytes) (fs : List RawField),
      rawFields b.length b = some fs → (∀ f, f ∈ fs → k.declared f.num f.typ = false) →
      Message.unmarshal k b = some (Message.ofStore k (storedUnknown k.declared fs)) ∧
      (Message.ofStore k (storedUnknown k.declared fs)).marshal
        = some (storedUnknown k.declared fs)) ∧
    (∀ (m : Message), m.valid = true → ∃ b, m.marshal = some b ∧
      (b.length < 18446744073709551616 → Message.unmarshal m.kind b = some m)) ∧
    (∀ (b : Bytes) (d : PluginDefinition), PluginDefinition.unmarshal b = some d →
      ∃ fs, rawFields b.length b = some fs ∧
        storeOf PluginInfo.unknownFields d.Info = nestedStored PluginInfo.declared 1 fs ∧
        storeOf TargetServiceName.unknownFields d.TargetServiceName
          = nestedStored TargetServiceName.declared 2 fs ∧
        storeOf TargetSoftware.unknownFields d.TargetSoftware
          = nestedStored TargetSoftware.declared 3 fs ∧
        storeOf TargetOperatingSystemClass.unknownFields d.TargetOperatingSystemClass
          = nestedStored TargetOperatingSystemClass.declared 5 fs ∧
        (∀ f, f ∈ fs → f.typ = 2 → ∀ v n gs, consumeBytes f.raw = some (v, n) →
          rawFields v.length v = some gs → ∀ g, g ∈ gs →
          (f.num = 1 → PluginInfo.declared g.num g.typ = false →
            ∃ i pre post, d.Info = some i ∧
              i.unknownFields = pre ++ (appendTag g.num g.typ ++ g.raw) ++ post) ∧
          (f.num = 2 → TargetServiceName.declared g.num g.typ = false →
            ∃ i pre post, d.TargetServiceName = some i ∧
              i.unknownFields = pre ++ (appendTag g.num g.typ ++ g.raw) ++ post) ∧
          (f.num = 3 → TargetSoftware.declared g.num g.typ = false →
            ∃ i pre post, d.TargetSoftware = some i ∧
              i.unknownFields = pre ++ (appendTag g.num g.typ ++ g.raw) ++ post) ∧
          (f.num = 5 → TargetOperatingSystemClass.declared g.num g.typ = false →
            ∃ i pre post, d.TargetOperatingSystemClass = some i ∧
              i.unknownFields = pre ++ (appendTag g.num g.typ ++ g.raw) ++ post)) ∧
        (∀ i, d.Info = some i → ∃ known pre post, i.withoutUnknown.marshal = some known ∧
          d.marshal
            = some (pre ++ (appendTag 1 2 ++ appendBytes (known ++ i.unknownFields)) ++ post)) ∧
        (∀ i, d.TargetServiceName = some i → ∃ known pre post,
          i.withoutUnknown.marshal = some known ∧
          d.marshal
            = some (pre ++ (appendTag 2 2 ++ appendBytes (known ++ i.unknownFields)) ++ post)) ∧
        (∀ i, d.TargetSoftware = some i → ∃ known pre post,
          i.withoutUnknown.marshal = some known ∧
          d.marshal
            = some (pre ++ (appendTag 3 2 ++ appendBytes (known ++ i.unknownFields)) ++ post)) ∧
        (∀ i, d.TargetOperatingSystemClass = some i → ∃ known pre post,
          i.withoutUnknown.marshal = some known ∧
          d.marshal
            = some (pre ++ (appendTag 5 2 ++ appendBytes (known ++ i.unknownFields)) ++ post))) := by
  refine ⟨?_, ?_, ?_, ?_⟩
  · intro k b m h
    obtain ⟨fs, known, hfs, hu, hk, hmar⟩ := Message_unmarshal_stores k b m h
    refine ⟨fs, known, hfs, hu, hk, hmar, ?_⟩
    intro f hf hd
    obtain ⟨pre, post, hpp⟩ := storedUnknown_mem k.declared fs f hf hd
    exact ⟨known ++ pre, post, by rw [hmar, hpp]; simp⟩
  · intro k b fs hfs hall
    exact ⟨Message_unmarshal_all_unknown k b fs hfs hall, Message_ofStore_marshal k _⟩
  · intro m hv
    exact Message_roundTrip_ok m hv
  · intro b d h
    obtain ⟨fs, hfs, h1, h2, h3, h5, out, hout⟩ := PluginDefinition_unmarshal_nested b d h
    obtain ⟨r1, r2, r3, r5⟩ := PluginDefinition_nested_reemitted d out hout
    refine ⟨fs, hfs, h1, h2, h3, h5, ?_, r1, r2, r3, r5⟩
    intro f hf ht v n gs hc hg g hgm
    refine ⟨?_, ?_, ?_, ?_⟩
    · intro hn hd
      exact nested_field_stored PluginInfo.unknownFields PluginInfo.declared 1 d.Info fs h1
        f hf hn ht v n gs hc hg g hgm hd
    · intro hn hd
      exact nested_field_stored TargetServiceName.unknownFields TargetServiceName.declared 2
        d.TargetServiceName fs h2 f hf hn ht v n gs hc hg g hgm hd
    · intro hn hd
      exact nested_field_stored TargetSoftware.unknownFields TargetSoftware.declared 3
        d.TargetSoftware fs h3 f hf hn ht v n gs hc hg g hgm hd
    · intro hn hd
      exact nested_field_stored TargetOperatingSystemClass.unknownFields
        TargetOperatingSystemClass.declared 5 d.TargetOperatingSystemClass fs h5
        f hf hn ht v n gs hc hg g hgm hd

/-- C5 at examples: for each of the five types, an input that ends with the undeclared
field 99 (varint 7) decodes, the field is in the store of the decoded message, and
encoding the decoded message gives the input back; for `PluginDefinition` also with the
undeclared field inside the payload of the `info` field, where it is found in the store
of the decoded `PluginInfo`. -/
theorem C5_unknown_fields_preserved_witness :
    (Message.unmarshal MessageKind.PluginDefinition definitionBytesWithUnknownField).map
      Message.unknownFields = some [152, 6, 7] ∧
    (Message.unmarshal MessageKind.PluginDefinition definitionBytesWithUnknownField).bind
      Message.marshal = some definitionBytesWithUnknownField ∧
    Message.unmarshal MessageKind.PluginInfo bytesWithUnknownField
      = some (Message.info infoWithUnknownField) ∧
    (Message.info infoWithUnknownField).marshal = some bytesWithUnknownField ∧
    (Message.unmarshal MessageKind.TargetServiceName serviceNameBytesWithUnknownField).map
      Message.unknownFields = some [152, 6, 7] ∧
    (Message.unmarshal MessageKind.TargetServiceName serviceNameBytesWithUnknownField).bind
      Message.marshal = some serviceNameBytesWithUnknownField ∧
    (Message.unmarshal MessageKind.TargetSoftware softwareBytesWithUnknownField).map
      Message.unknownFields = some [152, 6, 7] ∧
    (Message.unmarshal MessageKind.TargetSoftware softwareBytesWithUnknownField).bind
      Message.marshal = some softwareBytesWithUnknownField ∧
    (Message.unmarshal MessageKind.TargetOperatingSystemClass
      operatingSystemClassBytesWithUnknownField).map Message.unknownFields
      = some [152, 6, 7] ∧
    (Message.unmarshal MessageKind.TargetOperatingSystemClass
      operatingSystemClassBytesWithUnknownField).bind Message.marshal
      = some operatingSystemClassBytesWithUnknownField ∧
    PluginDefinition.unmarshal definitionBytesWithNestedUnknownField
      = some { PluginDefinition.zero with Info := some infoWithUnknownField } ∧
    (PluginDefinition.unmarshal definitionBytesWithNestedUnknownField).bind
      PluginDefinition.marshal = some definitionBytesWithNestedUnknownField ∧
    (∃ fs known, rawFields bytesWithUnknownField.length bytesWithUnknownField = some fs ∧
      (Message.info infoWithUnknownField).unknownFields
        = storedUnknown MessageKind.PluginInfo.declared fs ∧
      (Message.info infoWithUnknownField).withoutUnknown.marshal = some known ∧
      (Message.info infoWithUnknownField).marshal
        = some (known ++ storedUnknown MessageKind.PluginInfo.declared fs) ∧
      ∀ f, f ∈ fs → MessageKind.PluginInfo.declared f.num f.typ = false →
        ∃ pre post, (Message.info infoWithUnknownField).marshal
          = some (pre ++ (appendTag f.num f.typ ++ f.raw) ++ post)) ∧
    (rawFields definitionBytesWithNestedUnknownField.length
        definitionBytesWithNestedUnknownField
        = some [RawField.mk 1 2 [6, 18, 1, 120, 152, 6, 7]] ∧
      consumeBytes [6, 18, 1, 120, 152, 6, 7] = some (bytesWithUnknownField, 7) ∧
      rawFields bytesWithUnknownField.length bytesWithUnknownField
        = some [RawField.mk 2 2 [1, 120], RawField.mk 99 0 [7]] ∧
      PluginInfo.declared 99 0 = false ∧
      infoWithUnknownField.unknownFields = appendTag 99 0 ++ [7]) ∧
    (Message.unmarshal MessageKind.TargetSoftware [152, 6, 7]
        = some (Message.ofStore MessageKind.TargetSoftware
            (storedUnknown MessageKind.TargetSoftware.declared [RawField.mk 99 0 [7]])) ∧
      (Message.ofStore MessageKind.TargetSoftware
          (storedUnknown MessageKind.TargetSoftware.declared [RawField.mk 99 0 [7]])).marshal
        = some (storedUnknown MessageKind.TargetSoftware.declared [RawField.mk 99 0 [7]])) ∧
    (∃ b, (Message.definition exampleDefinition).marshal = some b ∧
      (b.length < 18446744073709551616 →
        Message.unmarshal (Message.definition exampleDefinition).kind b
          = some (Message.definition exampleDefinition))) :=
  ⟨by decide!, by decide!, by decide!, by decide!, by decide!, by decide!, by decide!,
    by decide!, by decide!, by decide!, by decide!, by decide!,
    C5_unknown_fields_preserved.1 MessageKind.PluginInfo bytesWithUnknownField
      (Message.info infoWithUnknownField) (by decide!),
    ⟨by decide!, by decide!, by decide!, by decide!, by decide!⟩,
    C5_unknown_fields_preserved.2.1 MessageKind.TargetSoftware [152, 6, 7]
      [RawField.mk 99 0 [7]] (by decide!) (by decide!),
    C5_unknown_fields_preserved.2.2.1 (Message.definition exampleDefinition) (by decide!)⟩

/-- C6: the counts handed to the type builder (1 enum, 5 messages, 0 extensions,
0 services) are the numbers of enums, messages, extensions and services the raw
descriptor declares, and the lengths of the enum and message info tables (1 and 5). -/
theorem C6_declaration_counts (FD EI MI : Type) (zeroEI : EI) (zeroMI : MI) (pkgPath : String) :
    countFile (typeBuilder pkgPath (initialGlobals FD zeroEI zeroMI)).File.RawDescriptor
      = some ((typeBuilder pkgPath (initialGlobals FD zeroEI zeroMI)).File.NumEnums,
          (typeBuilder pkgPath (initialGlobals FD zeroEI zeroMI)).File.NumMessages,
          (typeBuilder pkgPath (initialGlobals FD zeroEI zeroMI)).File.NumExtensions,
          (typeBuilder pkgPath (initialGlobals FD zeroEI zeroMI)).File.NumServices) ∧
    countFile file_plugin_representation_proto_rawDesc = some (1, 5, 0, 0) ∧
    (initialGlobals FD zeroEI zeroMI).file_plugin_representation_proto_enumTypes.length
      = (typeBuilder pkgPath (initialGlobals FD zeroEI zeroMI)).File.NumEnums ∧
    (initialGlobals FD zeroEI zeroMI).file_plugin_representation_proto_msgTypes.length
      = (typeBuilder pkgPath (initialGlobals FD zeroEI zeroMI)).File.NumMessages ∧
    (typeBuilder pkgPath (initialGlobals FD zeroEI zeroMI)).EnumInfos.length = 1 ∧
    (typeBuilder pkgPath (initialGlobals FD zeroEI zeroMI)).MessageInfos.length = 5 := by
  have h : countFile file_plugin_representation_proto_rawDesc = some (1, 5, 0, 0) := by decide!
  exact ⟨h, h, rfl, rfl, rfl, rfl⟩

/-- C7: a target matches a definition exactly when every filter present on the
definition holds for it (service name, software, web service, operating system class,
joined by AND), absent filters being vacuously true; in particular a match implies the
operating-system filter, and a definition without any filter matches every target. A
filter that is present with all its fields empty holds for every target, as an absent
one does. -/
theorem C7_matching_conjunction (satisfies : GoString → GoString → Bool)
    (d : PluginDefinition) (t : TargetDescriptor) :
    (pluginMatches satisfies d t = true ↔
      ((∀ f, d.TargetServiceName = some f → f.matchesTarget t = true) ∧
       (∀ f, d.TargetSoftware = some f → f.matchesTarget satisfies t = true) ∧
       (d.ForWebService = true → t.isWebService = true) ∧
       (∀ f, d.TargetOperatingSystemClass = some f → f.matchesTarget t = true))) ∧
    (pluginMatches satisfies d t = true →
      ∀ f, d.TargetOperatingSystemClass = some f → f.matchesTarget t = true) ∧
    (d.TargetServiceName = none → d.TargetSoftware = none → d.ForWebService = false →
      d.TargetOperatingSystemClass = none → pluginMatches satisfies d t = true) ∧
    (∀ (v1 v2 v3 v4 : StringSlice) (u1 u2 u3 : Bytes),
      elements v1 = [] → elements v2 = [] → elements v3 = [] → elements v4 = [] →
      TargetServiceName.matchesTarget { Value := v1, unknownFields := u1 } t = true ∧
      TargetSoftware.matchesTarget satisfies { Name := [], Value := v2, unknownFields := u2 } t
        = true ∧
      TargetOperatingSystemClass.matchesTarget
        { Vendor := v3, OsFamily := v4, MinAccuracy := 0, unknownFields := u3 } t = true ∧
      pluginMatches satisfies
        { Info := d.Info,
          TargetServiceName := some { Value := v1, unknownFields := u1 },
          TargetSoftware := some { Name := [], Value := v2, unknownFields := u2 },
          ForWebService := false,
          TargetOperatingSystemClass :=
            some { Vendor := v3, OsFamily := v4, MinAccuracy := 0, unknownFields := u3 },
          unknownFields := d.unknownFields } t = true) := by
  obtain ⟨info, sn, sw, web, os, u⟩ := d
  have key : ∀ (info : Option PluginInfo) (sn : Option TargetServiceName)
      (sw : Option TargetSoftware) (web : Bool) (os : Option TargetOperatingSystemClass)
      (u : Bytes),
      pluginMatches satisfies ⟨info, sn, sw, web, os, u⟩ t = true ↔
      ((∀ f, sn = some f → f.matchesTarget t = true) ∧
       (∀ f, sw = some f → f.matchesTarget satisfies t = true) ∧
       (web = true → t.isWebService = true) ∧
       (∀ f, os = some f → f.matchesTarget t = true)) := by
    intro info sn sw web os u
    cases sn <;> cases sw <;> cases web <;> cases os <;>
      cases hw : t.isWebService <;> simp [pluginMatches, hw]
  refine ⟨key info sn sw web os u, fun h => ((key info sn sw web os u).mp h).2.2.2, ?_, ?_⟩
  · intro h1 h2 h3 h4
    simp only at h1 h2 h3 h4
    subst h1 h2 h3 h4
    simp [pluginMatches]
  · intro v1 v2 v3 v4 u1 u2 u3 h1 h2 h3 h4
    have a1 : TargetServiceName.matchesTarget { Value := v1, unknownFields := u1 } t = true := by
      simp [TargetServiceName.matchesTarget, accepts, h1]
    have a2 : TargetSoftware.matchesTarget satisfies
        { Name := [], Value := v2, unknownFields := u2 } t = true := by
      simp [TargetSoftware.matchesTarget, h2]
    have a3 : TargetOperatingSystemClass.matchesTarget
        { Vendor := v3, OsFamily := v4, MinAccuracy := 0, unknownFields := u3 } t = true := by
      simp [TargetOperatingSystemClass.matchesTarget, accepts, h3, h4]
    refine ⟨a1, a2, a3, ?_⟩
    rw [key]
    refine ⟨?_, ?_, ?_, ?_⟩
    · intro f hf; cases hf; exact a1
    · intro f hf; cases hf; exact a2
    · intro h; cases h
    · intro f hf; cases hf; exact a3

/-- C8: the software name of a `TargetSoftware` filter is compared case-insensitively:
a filter with a name or a version list holds exactly when the ASCII case folds of the
target's software
name and of the filter's name are equal (and the version list, if any, is satisfied), so
`NGINX` matches target `nginx` and `nginx` matches target `NGINX`, and replacing either
name by one with the same fold never changes the outcome; the fold sends `A`..`Z` to
`a`..`z` and keeps every other byte. The entries of a `TargetServiceName` filter are
compared case-sensitively: a filter with entries holds exactly when the target's service
name is one of them byte for byte, so `["HTTP"]` does not match target `http` while
`["http"]` does. -/
theorem C8_case_asymmetry (satisfies : GoString → GoString → Bool) (t : TargetDescriptor) :
    TargetSoftware.matchesTarget satisfies
        { Name := ascii "NGINX", Value := none, unknownFields := [] }
        { t with softwareName := ascii "nginx" } = true ∧
    TargetSoftware.matchesTarget satisfies
        { Name := ascii "nginx", Value := none, unknownFields := [] }
        { t with softwareName := ascii "NGINX" } = true ∧
    TargetSoftware.matchesTarget satisfies
        { Name := ascii "nginx", Value := none, unknownFields := [] }
        { t with softwareName := ascii "apache" } = false ∧
    TargetServiceName.matchesTarget
        { Value := some [ascii "HTTP"], unknownFields := [] }
        { t with serviceName := ascii "http" } = false ∧
    TargetServiceName.matchesTarget
        { Value := some [ascii "http"], unknownFields := [] }
        { t with serviceName := ascii "http" } = true ∧
    (∀ f : TargetSoftware, ¬ (f.Name = [] ∧ elements f.Value = []) →
      (TargetSoftware.matchesTarget satisfies f t = true ↔
        (t.softwareName.map asciiLower = f.Name.map asciiLower ∧
          (elements f.Value = [] ∨
            ∃ e, e ∈ elements f.Value ∧ satisfies t.softwareVersion e = true)))) ∧
    (∀ (f : TargetSoftware) (n : GoString),
      n.map asciiLower = t.softwareName.map asciiLower →
      TargetSoftware.matchesTarget satisfies f { t with softwareName := n }
        = TargetSoftware.matchesTarget satisfies f t) ∧
    (∀ (f : TargetSoftware) (n : GoString),
      n.map asciiLower = f.Name.map asciiLower →
      TargetSoftware.matchesTarget satisfies { f with Name := n } t
        = TargetSoftware.matchesTarget satisfies f t) ∧
    (∀ c : Nat, (65 ≤ c ∧ c ≤ 90 → asciiLower c = c + 32) ∧
      (¬ (65 ≤ c ∧ c ≤ 90) → asciiLower c = c)) ∧
    (∀ (e : GoString) (es : List GoString) (u : Bytes),
      TargetServiceName.matchesTarget { Value := some (e :: es), unknownFields := u } t = true ↔
        t.serviceName ∈ e :: es) := by
  refine ⟨?_, ?_, ?_, ?_, ?_, ?_, ?_, ?_, ?_, ?_⟩
  · have h : equalFold (ascii "nginx") (ascii "NGINX") = true := by decide
    have hn : ascii "NGINX" ≠ [] := by decide
    simp [TargetSoftware.matchesTarget, elements, h, hn]
  · have h : equalFold (ascii "NGINX") (ascii "nginx") = true := by decide
    have hn : ascii "nginx" ≠ [] := by decide
    simp [TargetSoftware.matchesTarget, elements, h, hn]
  · have h : equalFold (ascii "apache") (ascii "nginx") = false := by decide
    have hn : ascii "nginx" ≠ [] := by decide
    simp [TargetSoftware.matchesTarget, elements, h, hn]
  · simp only [TargetServiceName.matchesTarget, accepts, elements]
    have h : ascii "http" ≠ ascii "HTTP" := by decide
    simp [h]
  · simp [TargetServiceName.matchesTarget, accepts, elements]
  · intro f hf
    simp only [TargetSoftware.matchesTarget, equalFold]
    rw [if_neg hf]
    by_cases hq : t.softwareName.map asciiLower = f.Name.map asciiLower
    · cases hv : elements f.Value with
      | nil => simp [hq]
      | cons e es => simp [hq]
    · simp [hq]
  · intro f n hn
    simp only [TargetSoftware.matchesTarget, equalFold, hn]
  · intro f n hn
    have hnil : n = [] ↔ f.Name = [] := by
      rw [← map_asciiLower_nil n, ← map_asciiLower_nil f.Name, hn]
    simp only [TargetSoftware.matchesTarget, equalFold, hn, hnil]
  · intro c
    unfold asciiLower
    constructor
    · intro h; rw [if_pos h]
    · intro h; rw [if_neg h]
  · intro e es u
    simp [TargetServiceName.matchesTarget, accepts, elements]

/-- C9: once `File_plugin_representation_proto` is set, the initialisation returns
at once and leaves every package-level variable as it was; the first run sets it, so a
second run changes nothing: the metadata is built at most once. -/
theorem C9_init_idempotent {FD EI MI : Type} (build : TypeBuilder EI MI → BuildOut FD EI MI)
    (pkgPath : String) (g : Globals FD EI MI) :
    (g.File_plugin_representation_proto ≠ none →
      file_plugin_representation_proto_init build pkgPath g = g) ∧
    (file_plugin_representation_proto_init build pkgPath g).File_plugin_representation_proto
      ≠ none ∧
    file_plugin_representation_proto_init build pkgPath
        (file_plugin_representation_proto_init build pkgPath g)
      = file_plugin_representation_proto_init build pkgPath g := by
  have set : (file_plugin_representation_proto_init build pkgPath g).File_plugin_representation_proto
      ≠ none := by
    unfold file_plugin_representation_proto_init
    cases h : g.File_plugin_representation_proto <;> simp [h]
  have keep : ∀ g' : Globals FD EI MI, g'.File_plugin_representation_proto ≠ none →
      file_plugin_representation_proto_init build pkgPath g' = g' := by
    intro g' h
    unfold file_plugin_representation_proto_init
    cases h' : g'.File_plugin_representation_proto with
    | none => exact absurd h' h
    | some _ => rfl
  exact ⟨keep g, set, keep _ set⟩

/-- C10: each of the sixteen getters returns the zero value of its field on a nil
receiver and the stored field on a non-nil one; a chained read through an absent filter
gives the zero value. -/
theorem C10_getters_nil_safe :
    (PluginDefinition.GetInfo none = none ∧
     PluginDefinition.GetTargetServiceName none = none ∧
     PluginDefinition.GetTargetSoftware none = none ∧
     PluginDefinition.GetForWebService none = false ∧
     PluginDefinition.GetTargetOperatingSystemClass none = none ∧
     PluginInfo.GetType none = PluginInfo_PLUGIN_TYPE_UNSPECIFIED ∧
     PluginInfo.GetName none = [] ∧
     PluginInfo.GetVersion none = [] ∧
     PluginInfo.GetDescription none = [] ∧
     PluginInfo.GetAuthor none = [] ∧
     TargetServiceName.GetValue none = none ∧
     TargetSoftware.GetName none = [] ∧
     TargetSoftware.GetValue none = none ∧
     TargetOperatingSystemClass.GetVendor none = none ∧
     TargetOperatingSystemClass.GetOsFamily none = none ∧
     TargetOperatingSystemClass.GetMinAccuracy none = 0) ∧
    (∀ x : PluginDefinition,
      PluginDefinition.GetInfo (some x) = x.Info ∧
      PluginDefinition.GetTargetServiceName (some x) = x.TargetServiceName ∧
      PluginDefinition.GetTargetSoftware (some x) = x.TargetSoftware ∧
      PluginDefinition.GetForWebService (some x) = x.ForWebService ∧
      PluginDefinition.GetTargetOperatingSystemClass (some x) = x.TargetOperatingSystemClass) ∧
    (∀ x : PluginInfo,
      PluginInfo.GetType (some x) = x.Type_ ∧
      PluginInfo.GetName (some x) = x.Name ∧
      PluginInfo.GetVersion (some x) = x.Version ∧
      PluginInfo.GetDescription (some x) = x.Description ∧
      PluginInfo.GetAuthor (some x) = x.Author) ∧
    (∀ x : TargetServiceName, TargetServiceName.GetValue (some x) = x.Value) ∧
    (∀ x : TargetSoftware,
      TargetSoftware.GetName (some x) = x.Name ∧ TargetSoftware.GetValue (some x) = x.Value) ∧
    (∀ x : TargetOperatingSystemClass,
      TargetOperatingSystemClass.GetVendor (some x) = x.Vendor ∧
      TargetOperatingSystemClass.GetOsFamily (some x) = x.OsFamily ∧
      TargetOperatingSystemClass.GetMinAccuracy (some x) = x.MinAccuracy) ∧
    (∀ x : PluginDefinition,
      (x.TargetSoftware = none →
        TargetSoftware.GetName (PluginDefinition.GetTargetSoftware (some x)) = [] ∧
        TargetSoftware.GetValue (PluginDefinition.GetTargetSoftware (some x)) = none) ∧
      (x.TargetServiceName = none →
        TargetServiceName.GetValue (PluginDefinition.GetTargetServiceName (some x)) = none) ∧
      (x.TargetOperatingSystemClass = none →
        TargetOperatingSystemClass.GetMinAccuracy
          (PluginDefinition.GetTargetOperatingSystemClass (some x)) = 0) ∧
      (x.Info = none →
        PluginInfo.GetType (PluginDefinition.GetInfo (some x))
          = PluginInfo_PLUGIN_TYPE_UNSPECIFIED)) ∧
    TargetSoftware.GetName (PluginDefinition.GetTargetSoftware none) = [] := by
  refine ⟨⟨rfl, rfl, rfl, rfl, rfl, rfl, rfl, rfl, rfl, rfl, rfl, rfl, rfl, rfl, rfl, rfl⟩,
    fun _ => ⟨rfl, rfl, rfl, rfl, rfl⟩, fun _ => ⟨rfl, rfl, rfl, rfl, rfl⟩, fun _ => rfl,
    fun _ => ⟨rfl, rfl⟩, fun _ => ⟨rfl, rfl, rfl⟩, ?_, rfl⟩
  intro x
  refine ⟨?_, ?_, ?_, ?_⟩ <;> intro h <;>
    simp [PluginDefinition.GetTargetSoftware, PluginDefinition.GetTargetServiceName,
      PluginDefinition.GetTargetOperatingSystemClass, PluginDefinition.GetInfo, h,
      TargetSoftware.GetName, TargetSoftware.GetValue, TargetServiceName.GetValue,
      TargetOperatingSystemClass.GetMinAccuracy, PluginInfo.GetType]

/-- C11, as stated, fails: with Go's map indexing an absent key reads as the zero value,
so `PluginInfo_PluginType_value[""] == 0` holds while
`PluginInfo_PluginType_name[0] == ""` does not. -/
theorem C11_index_of_absent_name :
    goMapIndex (0 : Int) PluginInfo_PluginType_value "" = 0 ∧
    goMapIndex "" PluginInfo_PluginType_name 0 ≠ "" ∧
    ¬ (goMapIndex "" PluginInfo_PluginType_name 0 = "" ↔
        goMapIndex (0 : Int) PluginInfo_PluginType_value "" = 0) := by
  decide!

/-- C11, amended: read with presence (`v, ok := m[k]`), the two lookup maps are mutually
inverse: the name map has the entry `n ↦ s` exactly when the value map has the entry
`s ↦ n`; the keys of the name map are exactly the four declared Go constants; and for a
declared name `s` the plain index expressions agree as well. -/
theorem C11_maps_mutually_inverse :
    (∀ (n : Int) (s : String),
      goMapLookup PluginInfo_PluginType_name n = some s ↔
        goMapLookup PluginInfo_PluginType_value s = some n) ∧
    (∀ n : Int, (goMapLookup PluginInfo_PluginType_name n).isSome = true ↔
      (n = PluginInfo_PLUGIN_TYPE_UNSPECIFIED ∨ n = PluginInfo_PORT_SCAN ∨
        n = PluginInfo_SERVICE_FINGERPRINT ∨ n = PluginInfo_VULN_DETECTION)) ∧
    PluginInfo_PluginType_name.map Prod.fst
      = [PluginInfo_PLUGIN_TYPE_UNSPECIFIED, PluginInfo_PORT_SCAN,
         PluginInfo_SERVICE_FINGERPRINT, PluginInfo_VULN_DETECTION] ∧
    (∀ (n : Int) (s : String), (goMapLookup PluginInfo_PluginType_value s).isSome = true →
      (goMapIndex "" PluginInfo_PluginType_name n = s ↔
        goMapIndex (0 : Int) PluginInfo_PluginType_value s = n)) := by
  have hname : ∀ n : Int, goMapLookup PluginInfo_PluginType_name n
      = if n = 0 then some "PLUGIN_TYPE_UNSPECIFIED"
        else if n = 1 then some "PORT_SCAN"
        else if n = 2 then some "SERVICE_FINGERPRINT"
        else if n = 3 then some "VULN_DETECTION"
        else none := by
    intro n
    simp only [goMapLookup, PluginInfo_PluginType_name, List.find?]
    by_cases h0 : n = 0
    · subst h0; rfl
    by_cases h1 : n = 1
    · subst h1; rfl
    by_cases h2 : n = 2
    · subst h2; rfl
    by_cases h3 : n = 3
    · subst h3; rfl
    have e0 : decide ((0 : Int) = n) = false := by simpa using fun h => h0 h.symm
    have e1 : decide ((1 : Int) = n) = false := by simpa using fun h => h1 h.symm
    have e2 : decide ((2 : Int) = n) = false := by simpa using fun h => h2 h.symm
    have e3 : decide ((3 : Int) = n) = false := by simpa using fun h => h3 h.symm
    simp only [e0, e1, e2, e3, if_neg h0, if_neg h1, if_neg h2, if_neg h3]
  have hvalue : ∀ s : String, goMapLookup PluginInfo_PluginType_value s
      = if s = "PLUGIN_TYPE_UNSPECIFIED" then some 0
        else if s = "PORT_SCAN" then some 1
        else if s = "SERVICE_FINGERPRINT" then some 2
        else if s = "VULN_DETECTION" then some 3
        else none := by
    intro s
    simp only [goMapLookup, PluginInfo_PluginType_value, List.find?]
    by_cases h0 : s = "PLUGIN_TYPE_UNSPECIFIED"
    · subst h0; rfl
    by_cases h1 : s = "PORT_SCAN"
    · subst h1; rfl
    by_cases h2 : s = "SERVICE_FINGERPRINT"
    · subst h2; rfl
    by_cases h3 : s = "VULN_DETECTION"
    · subst h3; rfl
    have e0 : decide ("PLUGIN_TYPE_UNSPECIFIED" = s) = false := by simpa using fun h => h0 h.symm
    have e1 : decide ("PORT_SCAN" = s) = false := by simpa using fun h => h1 h.symm
    have e2 : decide ("SERVICE_FINGERPRINT" = s) = false := by simpa using fun h => h2 h.symm
    have e3 : decide ("VULN_DETECTION" = s) = false := by simpa using fun h => h3 h.symm
    simp only [e0, e1, e2, e3, if_neg h0, if_neg h1, if_neg h2, if_neg h3]
  have hinv : ∀ (n : Int) (s : String),
      goMapLookup PluginInfo_PluginType_name n = some s ↔
        goMapLookup PluginInfo_PluginType_value s = some n := by
    intro n s
    rw [hname, hvalue]
    constructor
    · intro h
      split_ifs at h with h0 h1 h2 h3 <;> simp only [Option.some.injEq] at h <;>
        subst h <;> subst_vars <;> rfl
    · intro h
      split_ifs at h with h0 h1 h2 h3 <;> simp only [Option.some.injEq] at h <;>
        subst h <;> subst_vars <;> rfl
  refine ⟨hinv, ?_, rfl, ?_⟩
  · intro n
    rw [hname]
    simp only [PluginInfo_PLUGIN_TYPE_UNSPECIFIED, PluginInfo_PORT_SCAN,
      PluginInfo_SERVICE_FINGERPRINT, PluginInfo_VULN_DETECTION]
    split_ifs with h0 h1 h2 h3 <;> simp [*]
  · intro n s hs
    cases hv : goMapLookup PluginInfo_PluginType_value s with
    | none => simp [hv] at hs
    | some k =>
      have hk : goMapLookup PluginInfo_PluginType_name k = some s := (hinv k s).mpr hv
      have hs0 : s ≠ "" := by
        intro h
        subst h
        rw [hvalue] at hv
        simp at hv
      simp only [goMapIndex, hv]
      constructor
      · intro h
        cases hn : goMapLookup PluginInfo_PluginType_name n with
        | none => simp only [hn] at h; exact absurd h.symm hs0
        | some t =>
          simp only [hn] at h
          subst h
          have := (hinv n t).mp hn
          rw [hv] at this
          exact Option.some.inj this
      · intro h
        subst h
        simp only [hk]

/-- C12: the type indices of the file agree with the raw descriptor. For each of the five
message types the path of `Descriptor()` is `[i]`, where `i` is the index of
`file_plugin_representation_proto_msgTypes` in `Reset` and in `ProtoReflect` and the
position of the message in the raw descriptor (0 to 4 in the order PluginDefinition,
PluginInfo, TargetServiceName, TargetSoftware, TargetOperatingSystemClass). The enum's
path `[1, 0]` names `PluginType`, the first enum nested in `PluginInfo`, which is also
the enum of index 0 of the enum table. The Go types of the type table are the
declarations of the raw descriptor in order, and every entry of `depIdxs[0:5]` is an
index into the type table that resolves to the type whose full name is the `type_name`
of its field; the remaining entries `5, 5, 5, 5, 0` mark the field part as `[0:5]`. -/
theorem C12_type_indices_agree :
    messageIndexTable file_plugin_representation_proto_rawDesc
      = some [ { goName := "PluginDefinition", descriptorPath := [0], resetIndex := 0,
                 protoReflectIndex := 0, position := some 0 },
               { goName := "PluginInfo", descriptorPath := [1], resetIndex := 1,
                 protoReflectIndex := 1, position := some 1 },
               { goName := "TargetServiceName", descriptorPath := [2], resetIndex := 2,
                 protoReflectIndex := 2, position := some 2 },
               { goName := "TargetSoftware", descriptorPath := [3], resetIndex := 3,
                 protoReflectIndex := 3, position := some 3 },
               { goName := "TargetOperatingSystemClass", descriptorPath := [4],
                 resetIndex := 4, protoReflectIndex := 4, position := some 4 } ] ∧
    (messageIndexTable file_plugin_representation_proto_rawDesc).map
        (fun rows => rows.all (fun r =>
          decide (r.descriptorPath = [r.resetIndex] ∧ r.resetIndex = r.protoReflectIndex ∧
            r.position = some r.resetIndex)))
      = some true ∧
    (readFileDescriptor file_plugin_representation_proto_rawDesc).map
        (fun fd => (enumAtPath fd PluginInfo_PluginType.EnumDescriptor_path).map
          (fun p => (p.1, p.2.name)))
      = some (some ("PluginInfo", "PluginType")) ∧
    (readFileDescriptor file_plugin_representation_proto_rawDesc).map
        (fun fd => (enumAtPath fd PluginInfo_PluginType.EnumDescriptor_path).map Prod.snd)
      = (enumDescriptors file_plugin_representation_proto_rawDesc).map
          (fun es => es.get? PluginInfo_PluginType.enumTypesIndex) ∧
    (declaredFullNames file_plugin_representation_proto_rawDesc).map
        (fun ns => ns.map (fun n => goIdent (relativeName "tsunami.proto" n)))
      = some (file_plugin_representation_proto_goTypes.map GoType.ident) ∧
    dependencyRows file_plugin_representation_proto_rawDesc
        file_plugin_representation_proto_goTypes file_plugin_representation_proto_depIdxs
      = some [ { field := "PluginDefinition.info", typeName := ".tsunami.proto.PluginInfo",
                 index := 2, goType := some (GoType.pointer "PluginInfo"),
                 fullName := some ".tsunami.proto.PluginInfo" },
               { field := "PluginDefinition.target_service_name",
                 typeName := ".tsunami.proto.TargetServiceName",
                 index := 3, goType := some (GoType.pointer "TargetServiceName"),
                 fullName := some ".tsunami.proto.TargetServiceName" },
               { field := "PluginDefinition.target_software",
                 typeName := ".tsunami.proto.TargetSoftware",
                 index := 4, goType := some (GoType.pointer "TargetSoftware"),
                 fullName := some ".tsunami.proto.TargetSoftware" },
               { field := "PluginDefinition.target_operating_system_class",
                 typeName := ".tsunami.proto.TargetOperatingSystemClass",
                 index := 5, goType := some (GoType.pointer "TargetOperatingSystemClass"),
                 fullName := some ".tsunami.proto.TargetOperatingSystemClass" },
               { field := "PluginInfo.type",
                 typeName := ".tsunami.proto.PluginInfo.PluginType",
                 index := 0, goType := some (GoType.int32Named "PluginInfo_PluginType"),
                 fullName := some ".tsunami.proto.PluginInfo.PluginType" } ] ∧
    (dependencyRows file_plugin_representation_proto_rawDesc
        file_plugin_representation_proto_goTypes file_plugin_representation_proto_depIdxs).map
        (fun rows => rows.all (fun r =>
          decide (0 ≤ r.index ∧ r.index < file_plugin_representation_proto_goTypes.length ∧
            r.fullName = some r.typeName ∧
            r.goType.map GoType.ident
              = some (goIdent (relativeName "tsunami.proto" r.typeName)))))
      = some true ∧
    file_plugin_representation_proto_depIdxs.drop 5 = [5, 5, 5, 5, 0] := by
  decide!

end PluginRepresentation
